import Mathlib

/-!
# openvino.genai: tokenizer session and paged-attention rewrite

A shallow embedding of `src/cpp/src/tokenizer/tokenizer.cpp` and
`src/cpp/src/paged_attention_transformations.cpp`, followed by theorems about
the embedded functions.

Conventions of the embedding:
* C++ exceptions are values of `Error`; a function whose C++ counterpart mutates
  objects through references returns the mutated objects together with
  `Except Error _`, so that what was already written when an exception is
  raised stays visible.
* `std::map<std::string, T>` is `StdMap T`: a list of key/value pairs kept in
  ascending key order by `StdMap.assign`.
* Objects held through pointers (inference requests, graph parameters) are
  identified by a number (`InferRequest.id`, the position of a parameter in the
  parameter list of the graph).
-/

namespace OvGenai

/-! ## Errors -/

/-- The ways in which a call of the embedded code can fail. -/
inductive Error where
  /-- `check_arguments`: "unacceptable parameter key: " + key. -/
  | unacceptable_key (key : String)
  /-- `OPENVINO_ASSERT(m_ireq_queue_tokenizer, ...)`. -/
  | encode_not_available
  /-- `OPENVINO_ASSERT(m_ireq_queue_detokenizer, ...)`. -/
  | decode_not_available
  /-- "prompts_1 and prompts_2 should be of the same size or one of them should be of size 1". -/
  | prompts_size
  /-- "Only flags or single elements values are supported". -/
  | not_single_element
  /-- An `ov::Any` that does not hold the requested type. -/
  | bad_any_cast (name : String)
  /-- An exception raised by the inference backend. -/
  | backend (msg : String)
  /-- The queue of inference requests hands out no request (the call blocks). -/
  | no_free_request
  /-- "tokens tensor element type should be an i64". -/
  | tokens_element_type
  /-- "tokens tensor should of rank 2 with shape [batch_size, seq_len]". -/
  | tokens_rank
  /-- "Model is supposed to be stateful". -/
  | not_stateful
  /-- The assertion `key_cache_params.size() == value_cache_params.size() && key_cache_params.size() > 0`. -/
  | cache_params_count
  /-- Dereference of a null `std::shared_ptr` (undefined behaviour in C++). -/
  | null_dereference (name : String)
  /-- `PartialShape::operator[]` out of range, or on a shape of dynamic rank. -/
  | dimension_out_of_range
  /-- `Dimension::get_length()` on a dynamic dimension. -/
  | dynamic_dimension
  /-- An exception raised by `validate_nodes_and_infer_types`. -/
  | validation (msg : String)
  /-- `std::stoi`: no conversion could be performed. -/
  | stoi_invalid_argument
  /-- `std::stoi`: the value does not fit an `int`. -/
  | stoi_out_of_range
  /-- "Chat template wasn't found. ...". -/
  | chat_template_not_found
  /-- "Jinja2Cpp failed to apply chat template. ..." with the message of the
  exception caught. -/
  | jinja_failed (what : String)
  /-- "Applied chat template resulted in an empty string. ...". -/
  | empty_chat_result
  /-- A write through a pointer outside the buffer (undefined behaviour in C++). -/
  | out_of_bounds_write
  /-- A tensor element that is read without having been written. -/
  | uninitialised_element
  /-- "Neither tokenizer nor detokenzier models were provided". -/
  | no_models
  deriving DecidableEq, Repr

deriving instance DecidableEq for Except

/-! ## std::map with string keys -/

/-- `std::map<std::string, α>` as a list of pairs. -/
abbrev StdMap (α : Type) := List (String × α)

namespace StdMap

variable {α : Type}

/-- Lexicographic comparison of two sequences of character codes. -/
def lex_lt : List Nat → List Nat → Bool
  | [], [] => false
  | [], _ :: _ => true
  | _ :: _, [] => false
  | a :: as, b :: bs => decide (a < b) || (decide (a = b) && lex_lt as bs)

/-- `std::less<std::string>`: lexicographic comparison, character by character
(the order of the code points is the order of their UTF-8 encodings). -/
def key_lt (a b : String) : Bool :=
  lex_lt (a.data.map Char.toNat) (b.data.map Char.toNat)

/-- `m.find(k)`: the value stored under `k`, if any. -/
def find : StdMap α → String → Option α
  | [], _ => none
  | (k', v) :: m, k => if k' = k then some v else find m k

/-- `m[k] = v`: insert or overwrite, keeping ascending key order. -/
def assign : StdMap α → String → α → StdMap α
  | [], k, v => [(k, v)]
  | (k', v') :: m, k, v =>
    if k = k' then (k, v) :: m
    else if key_lt k k' then (k, v) :: (k', v') :: m
    else (k', v') :: assign m k v

/-- `m.erase(k)`. -/
def erase (m : StdMap α) (k : String) : StdMap α :=
  m.filter (fun kv => decide (kv.1 ≠ k))

/-- `m.size()`. -/
def size (m : StdMap α) : Nat := m.length

/-- The keys in iteration order. -/
def keys (m : StdMap α) : List String := m.map Prod.fst

end StdMap

/-! ## ov::Any and ov::AnyMap -/

/-- The values an `ov::Any` of an option map holds in this program. -/
inductive Any where
  | bool (b : Bool)
  | i32 (i : Int)
  | str (s : String)
  deriving DecidableEq, Repr

/-- `ov::AnyMap`, that is `std::map<std::string, ov::Any>`. -/
abbrev AnyMap := StdMap Any

/-- Conversion between a C++ type `T` and `ov::Any` (`Any(T)` and `Any::as<T>()`). -/
class AnyCast (T : Type) where
  toAny : T → Any
  ofAny : Any → Option T
  ofAny_toAny : ∀ v, ofAny (toAny v) = some v
  toAny_ofAny : ∀ a v, ofAny a = some v → toAny v = a

instance : AnyCast Bool where
  toAny := Any.bool
  ofAny := fun a => match a with
    | Any.bool b => some b
    | _ => none
  ofAny_toAny := fun _ => rfl
  toAny_ofAny := by
    intro a v h
    cases a <;> simp at h
    simp [h]

instance : AnyCast Int where
  toAny := Any.i32
  ofAny := fun a => match a with
    | Any.i32 i => some i
    | _ => none
  ofAny_toAny := fun _ => rfl
  toAny_ofAny := by
    intro a v h
    cases a <;> simp at h
    simp [h]

instance : AnyCast String where
  toAny := Any.str
  ofAny := fun a => match a with
    | Any.str s => some s
    | _ => none
  ofAny_toAny := fun _ => rfl
  toAny_ofAny := by
    intro a v h
    cases a <;> simp at h
    simp [h]

/-- Modelled from the spec: `ov::genai::utils::read_anymap_param` (declared in
`utils.hpp`, which is not part of the sources). When the map has the key, the
parameter takes the stored value; when it has not, the parameter keeps the
value it had. A stored value of another type than `T` is a failed `as<T>()`. -/
def read_anymap_param {T : Type} [AnyCast T] (config_map : AnyMap) (name : String)
    (param : Option T) : Except Error (Option T) :=
  match config_map.find name with
  | none => .ok param
  | some a =>
    match AnyCast.ofAny a with
    | some v => .ok (some v)
    | none => .error (Error.bad_any_cast name)

/-! ## Names of options and of state variables -/

/-- Modelled from the spec: `ov::genai::add_special_tokens.name()` (the property
is declared in `tokenizer.hpp`, which is not part of the sources). -/
def add_special_tokens_name : String := "add_special_tokens"

/-- Modelled from the spec: `ov::genai::skip_special_tokens.name()`. -/
def skip_special_tokens_name : String := "skip_special_tokens"

/-- Modelled from the spec: `ov::genai::max_length.name()`. -/
def max_length_name : String := "max_length"

/-- Modelled from the spec: `ov::genai::pad_to_max_length.name()`. -/
def pad_to_max_length_name : String := "pad_to_max_length"

/-- Modelled from the spec: `MAX_LENGTH_VAR_ID` (declared in
`make_tokenizer_stateful.hpp`, which is not part of the sources). -/
def MAX_LENGTH_VAR_ID : String := "max_length"

/-- Modelled from the spec: `PAD_TO_MAX_LENGTH_VAR_ID`. -/
def PAD_TO_MAX_LENGTH_VAR_ID : String := "pad_to_max_length"

/-- Modelled from the spec: `IS_MAX_LENGTH_SET`. -/
def IS_MAX_LENGTH_SET : String := "is_max_length_set"

/-! ## Inference requests and their state variables -/

/-- `ov::VariableState`: a named state variable of an inference request.
`state = none` is the state after `reset()` (the compiled-in default);
`set_calls` and `reset_calls` count the calls of `set_state` and `reset`. -/
structure VariableState where
  name : String
  shape : List Nat
  state : Option Any
  set_calls : Nat
  reset_calls : Nat
  deriving DecidableEq, Repr

/-- `state.set_state(tensor)` with a one-element tensor holding `v`. -/
def VariableState.set_state (s : VariableState) (v : Any) : VariableState :=
  { s with state := some v, set_calls := s.set_calls + 1 }

/-- `state.reset()`. -/
def VariableState.reset (s : VariableState) : VariableState :=
  { s with state := none, reset_calls := s.reset_calls + 1 }

/-- `ov::shape_size(state.get_state().get_shape())`. -/
def VariableState.get_size (s : VariableState) : Nat := s.shape.prod

/-- `ov::InferRequest`: `id` stands for the address of the request, `states`
is what `query_state()` returns. -/
structure InferRequest where
  id : Nat
  states : List VariableState
  deriving DecidableEq, Repr

/-- `TokenizerImpl::set_state_value<T>`. -/
def set_state_value {T : Type} [AnyCast T] [DecidableEq T] (state : VariableState)
    (value : Option T) (state_flags : AnyMap) : Except Error (VariableState × AnyMap) :=
  match read_anymap_param state_flags state.name (none : Option T) with
  | .error e => .error e
  | .ok last_value =>
    if value.isSome ∧ (last_value.isNone ∨ value ≠ last_value) then
      match value with
      | some v =>
        if state.get_size = 1 then
          .ok (state.set_state (AnyCast.toAny v), state_flags.assign state.name (AnyCast.toAny v))
        else .error Error.not_single_element
      | none => .ok (state, state_flags)
    else if value.isNone then
      .ok (state.reset, state_flags.erase state.name)
    else .ok (state, state_flags)

/-- The local variables of `set_state_if_necessary` after the option map has
been read. -/
structure StateValues where
  add_special_tokens_flag : Option Bool
  skip_special_tokens_flag : Option Bool
  max_length_val : Option Int
  pad_to_max_length_val : Option Bool
  is_max_length_set_val : Option Bool
  deriving DecidableEq, Repr

/-- Lines 259-268 of `set_state_if_necessary`: the defaults and the four reads
of the option map. -/
def read_state_values (params : AnyMap) : Except Error StateValues :=
  match read_anymap_param params add_special_tokens_name (some true) with
  | .error e => .error e
  | .ok add_special_tokens_flag =>
  match read_anymap_param params skip_special_tokens_name (some true) with
  | .error e => .error e
  | .ok skip_special_tokens_flag =>
  match read_anymap_param params pad_to_max_length_name (some false) with
  | .error e => .error e
  | .ok pad_to_max_length_val =>
  match read_anymap_param params max_length_name (none : Option Int) with
  | .error e => .error e
  | .ok max_length_val =>
    .ok { add_special_tokens_flag := add_special_tokens_flag
          skip_special_tokens_flag := skip_special_tokens_flag
          max_length_val := max_length_val
          pad_to_max_length_val := pad_to_max_length_val
          is_max_length_set_val := some max_length_val.isSome }

/-- The body of the loop over `query_state()` in `set_state_if_necessary`. -/
def set_state_for (vals : StateValues) (state : VariableState) (state_flags : AnyMap) :
    Except Error (VariableState × AnyMap) :=
  if state.name = add_special_tokens_name then
    set_state_value state vals.add_special_tokens_flag state_flags
  else if state.name = skip_special_tokens_name then
    set_state_value state vals.skip_special_tokens_flag state_flags
  else if state.name = MAX_LENGTH_VAR_ID then
    set_state_value state vals.max_length_val state_flags
  else if state.name = PAD_TO_MAX_LENGTH_VAR_ID then
    set_state_value state vals.pad_to_max_length_val state_flags
  else if state.name = IS_MAX_LENGTH_SET then
    set_state_value state vals.is_max_length_set_val state_flags
  else .ok (state, state_flags)

/-- The loop over `query_state()` in `set_state_if_necessary`. The variables and
the flag map are returned as they are when the loop ends or an exception
leaves it. -/
def set_states (vals : StateValues) :
    List VariableState → AnyMap → (List VariableState × AnyMap) × Except Error Unit
  | [], state_flags => (([], state_flags), .ok ())
  | state :: rest, state_flags =>
    match set_state_for vals state state_flags with
    | .error e => ((state :: rest, state_flags), .error e)
    | .ok (state', state_flags') =>
      let r := set_states vals rest state_flags'
      ((state' :: r.1.1, r.1.2), r.2)

/-- `std::unordered_map<ov::InferRequest*, ov::AnyMap>`, keyed by the identity
of the request. -/
abbrev RequestFlags := Nat → Option AnyMap

/-- `m[key]` read: the entry, created empty when absent. -/
def RequestFlags.entry (m : RequestFlags) (id : Nat) : AnyMap := (m id).getD []

/-- `m[key] = flags`. -/
def RequestFlags.put (m : RequestFlags) (id : Nat) (flags : AnyMap) : RequestFlags :=
  fun i => if i = id then some flags else m i

/-- The members of `Tokenizer::TokenizerImpl`. A queue of inference requests is
the list of the requests it holds; `none` is the null `std::unique_ptr`. -/
structure TokenizerImpl where
  m_ireq_queue_tokenizer : Option (List InferRequest)
  m_ireq_queue_detokenizer : Option (List InferRequest)
  m_request_to_state_flags : RequestFlags
  m_older_than_24_5 : Bool
  m_pad_token_id : Int
  m_bos_token_id : Int
  m_eos_token_id : Int
  m_pad_token : String
  m_bos_token : String
  m_eos_token : String
  m_chat_template : String

/-- `TokenizerImpl::set_state_if_necessary`, on the request the guard holds. -/
def set_state_if_necessary (self : TokenizerImpl) (infer_request : InferRequest)
    (params : AnyMap) : (TokenizerImpl × InferRequest) × Except Error Unit :=
  if self.m_older_than_24_5 then ((self, infer_request), .ok ())
  else
    match read_state_values params with
    | .error e => ((self, infer_request), .error e)
    | .ok vals =>
      let state_flags := self.m_request_to_state_flags.entry infer_request.id
      let r := set_states vals infer_request.states state_flags
      (({ self with
            m_request_to_state_flags := self.m_request_to_state_flags.put infer_request.id r.1.2 },
        { infer_request with states := r.1.1 }), r.2)

/-! ## Encode and decode -/

/-- `check_arguments`: the first key of the option map that is not in the set of
allowed names is reported. -/
def check_arguments : AnyMap → List String → Except Error Unit
  | [], _ => .ok ()
  | (key, _) :: parameters, allowed_argnames =>
    if key ∈ allowed_argnames then check_arguments parameters allowed_argnames
    else .error (Error.unacceptable_key key)

/-- The element types of the tensors that occur. -/
inductive ElementType where
  | i64
  | string
  | f32
  | other
  /-- `ov::element::dynamic`: the type is left to the plugin. -/
  | dynamic
  deriving DecidableEq, Repr

/-- `ov::Tensor` holding integers: element type, shape and the elements in
row-major order. -/
structure Tensor where
  element_type : ElementType
  shape : List Nat
  data : List Int
  deriving DecidableEq, Repr

/-- `ov::genai::TokenizedInputs`. -/
structure TokenizedInputs where
  input_ids : Tensor
  attention_mask : Tensor
  token_type_ids : Option Tensor
  deriving DecidableEq, Repr

/-- The compiled tokenizer and detokenizer graphs, which are not part of this
program: the number of inputs of the tokenizer, and what `infer()` computes
from the state variables of the request and its input tensors (`input_ids`,
`attention_mask` and, when the graph has that output, `token_type_ids`; the
output strings of the detokenizer), or the exception it raises. `infer()`
leaves the state variables as they are. -/
structure Backend where
  tokenizer_inputs : Nat
  tokenizer_infer : List VariableState → List String → Option (List String) →
    Except String (Tensor × Tensor × Option Tensor)
  detokenizer_infer : List VariableState → Tensor → Except String (List String)

/-- The result of `infer()` with a backend exception as an `Error`. -/
def from_backend {α : Type} : Except String α → Except Error α
  | .ok a => .ok a
  | .error msg => .error (Error.backend msg)

/-- Takes the request in position `slot` out of the queue
(`CircularBufferQueueElementGuard`), synchronises its flags with
`set_state_if_necessary`, runs `run` on it, and puts it back, also when an
exception is raised. `slot` is the choice the queue makes. -/
def with_request {α : Type} (self : TokenizerImpl) (tokenizer_side : Bool) (slot : Nat)
    (params : AnyMap) (run : InferRequest → Except Error α) :
    TokenizerImpl × Except Error α :=
  match (if tokenizer_side then self.m_ireq_queue_tokenizer
      else self.m_ireq_queue_detokenizer) with
  | none =>
    (self, .error (if tokenizer_side then Error.encode_not_available
      else Error.decode_not_available))
  | some queue =>
    match queue[slot]? with
    | none => (self, .error Error.no_free_request)
    | some infer_request =>
      let r := set_state_if_necessary self infer_request params
      let queue' := queue.set slot r.1.2
      let self' : TokenizerImpl :=
        if tokenizer_side then { r.1.1 with m_ireq_queue_tokenizer := some queue' }
        else { r.1.1 with m_ireq_queue_detokenizer := some queue' }
      match r.2 with
      | .error e => (self', .error e)
      | .ok () => (self', run r.1.2)

/-- `TokenizerImpl::encode(const std::string&, const ov::AnyMap&)`. -/
def TokenizerImpl.encode (B : Backend) (self : TokenizerImpl) (slot : Nat) (prompt : String)
    (tokenization_params : AnyMap) : TokenizerImpl × Except Error TokenizedInputs :=
  match self.m_ireq_queue_tokenizer with
  | none => (self, .error Error.encode_not_available)
  | some _ =>
    with_request self true slot tokenization_params (fun infer_request =>
      match from_backend (B.tokenizer_infer infer_request.states [prompt]
          (if B.tokenizer_inputs > 1 then some [] else none)) with
      | .error e => .error e
      | .ok out => .ok { input_ids := out.1, attention_mask := out.2.1, token_type_ids := none })

/-- `TokenizerImpl::encode(prompts_1, prompts_2, tokenization_params)`. -/
def TokenizerImpl.encode_two (B : Backend) (self : TokenizerImpl) (slot : Nat)
    (prompts_1 prompts_2 : List String) (tokenization_params : AnyMap) :
    TokenizerImpl × Except Error TokenizedInputs :=
  match self.m_ireq_queue_tokenizer with
  | none => (self, .error Error.encode_not_available)
  | some _ =>
    if prompts_1.length = prompts_2.length ∨ prompts_1.length = 1 ∨ prompts_2.length = 1 then
      with_request self true slot tokenization_params (fun infer_request =>
        match from_backend (B.tokenizer_infer infer_request.states prompts_1
            (some prompts_2)) with
        | .error e => .error e
        | .ok out =>
          .ok { input_ids := out.1, attention_mask := out.2.1, token_type_ids := out.2.2 })
    else (self, .error Error.prompts_size)

/-- `TokenizerImpl::encode(prompts_pairs, tokenization_params)`. -/
def TokenizerImpl.encode_pairs (B : Backend) (self : TokenizerImpl) (slot : Nat)
    (prompts_pairs : List (String × String)) (tokenization_params : AnyMap) :
    TokenizerImpl × Except Error TokenizedInputs :=
  match self.m_ireq_queue_tokenizer with
  | none => (self, .error Error.encode_not_available)
  | some _ =>
    let prompts_1 := prompts_pairs.map Prod.fst
    let prompts_2 := prompts_pairs.map Prod.snd
    TokenizerImpl.encode_two B self slot prompts_1 prompts_2 tokenization_params

/-- `TokenizerImpl::encode(const std::vector<std::string>&, const ov::AnyMap&)`. -/
def TokenizerImpl.encode_batch (B : Backend) (self : TokenizerImpl) (slot : Nat)
    (prompts : List String) (tokenization_params : AnyMap) :
    TokenizerImpl × Except Error TokenizedInputs :=
  match self.m_ireq_queue_tokenizer with
  | none => (self, .error Error.encode_not_available)
  | some _ =>
    with_request self true slot tokenization_params (fun infer_request =>
      match from_backend (B.tokenizer_infer infer_request.states prompts
          (if B.tokenizer_inputs > 1 then some [] else none)) with
      | .error e => .error e
      | .ok out => .ok { input_ids := out.1, attention_mask := out.2.1, token_type_ids := none })

/-- `TokenizerImpl::decode(const std::vector<int64_t>&, const ov::AnyMap&)`. The
output is element 0 of the output tensor of the detokenizer. -/
def TokenizerImpl.decode (B : Backend) (self : TokenizerImpl) (slot : Nat) (tokens : List Int)
    (detokenization_params : AnyMap) : TokenizerImpl × Except Error String :=
  match self.m_ireq_queue_detokenizer with
  | none => (self, .error Error.decode_not_available)
  | some _ =>
    with_request self false slot detokenization_params (fun infer_request =>
      match from_backend (B.detokenizer_infer infer_request.states
          { element_type := ElementType.i64, shape := [1, tokens.length], data := tokens }) with
      | .error e => .error e
      | .ok out => .ok (out.headD ""))

/-- `TokenizerImpl::decode(const ov::Tensor&, const ov::AnyMap&)`. -/
def TokenizerImpl.decode_tensor (B : Backend) (self : TokenizerImpl) (slot : Nat)
    (tokens : Tensor) (detokenization_params : AnyMap) :
    TokenizerImpl × Except Error (List String) :=
  match self.m_ireq_queue_detokenizer with
  | none => (self, .error Error.decode_not_available)
  | some _ =>
    if tokens.element_type ≠ ElementType.i64 then (self, .error Error.tokens_element_type)
    else if tokens.shape.length ≠ 2 then (self, .error Error.tokens_rank)
    else
      with_request self false slot detokenization_params (fun infer_request =>
        from_backend (B.detokenizer_infer infer_request.states tokens))

/-- The token tensor `TokenizerImpl::decode(lines)` is to build, as a formula:
`lines.size()` rows of `max_len` elements, row `i` being `lines[i]` followed by
copies of the pad token id. For an empty batch `std::max_element` returns the
end iterator, whose dereference is undefined. -/
def padded_tokens (m_pad_token_id : Int) (lines : List (List Int)) : Except Error Tensor :=
  match lines with
  | [] => .error (Error.null_dereference "max_element")
  | line :: rest =>
    let max_len := rest.foldl (fun best l => if best < l.length then l.length else best)
      line.length
    .ok { element_type := ElementType.i64
          shape := [lines.length, max_len]
          data := (lines.map
            (fun l => l ++ List.replicate (max_len - l.length) m_pad_token_id)).flatten }

/-- The elements of a tensor under construction, in row-major order: an element
is `none` until it is written. -/
abbrev Elements := List (Option Int)

/-- A write of one element through the pointer `tokens_data + index`. -/
def write_element (elements : Elements) (index : Nat) (value : Int) : Except Error Elements :=
  if index < elements.length then .ok (elements.set index (some value))
  else .error Error.out_of_bounds_write

/-- `std::copy(first, last, d_first)`: the elements of the range are written one
after the other from `d_first` on. -/
def std_copy : List Int → Nat → Elements → Except Error Elements
  | [], _, elements => .ok elements
  | value :: rest, d_first, elements =>
    match write_element elements d_first value with
    | .error e => .error e
    | .ok elements1 => std_copy rest (d_first + 1) elements1

/-- The loop of `std::fill` over `count` elements from `first` on. -/
def std_fill_n : Nat → Nat → Int → Elements → Except Error Elements
  | 0, _, _, elements => .ok elements
  | count + 1, first, value, elements =>
    match write_element elements first value with
    | .error e => .error e
    | .ok elements1 => std_fill_n count (first + 1) value elements1

/-- `std::fill(first, last, value)`; with `last` before `first` the loop of the
library runs past the buffer. -/
def std_fill (first last : Nat) (value : Int) (elements : Elements) : Except Error Elements :=
  if last < first then .error Error.out_of_bounds_write
  else std_fill_n (last - first) first value elements

/-- `std::max_element(lines.begin(), lines.end(), compare_lengths)`: the first
of the longest rows; `none` is the end iterator. -/
def max_element_by_length : List (List Int) → Option (List Int)
  | [] => none
  | line :: rest =>
    some (rest.foldl (fun largest l => if largest.length < l.length then l else largest) line)

/-- The loop over the rows in `TokenizerImpl::decode(lines)` (lines 723-728), from
row `i` on. -/
def fill_rows (m_pad_token_id : Int) (max_len : Nat) :
    List (List Int) → Nat → Elements → Except Error Elements
  | [], _, elements => .ok elements
  | line :: rest, i, elements =>
    let line_len := line.length
    match std_copy line (i * max_len) elements with
    | .error e => .error e
    | .ok elements1 =>
      match std_fill (i * max_len + line_len) ((i + 1) * max_len) m_pad_token_id elements1 with
      | .error e => .error e
      | .ok elements2 => fill_rows m_pad_token_id max_len rest (i + 1) elements2

/-- The elements of a tensor that is handed on: all of them have been written. -/
def written : Elements → Except Error (List Int)
  | [] => .ok []
  | none :: _ => .error Error.uninitialised_element
  | some value :: rest =>
    match written rest with
    | .error e => .error e
    | .ok values => .ok (value :: values)

/-- The token tensor `TokenizerImpl::decode(lines)` builds (lines 716-728): the
tensor is allocated with `lines.size()` rows of `max_len` elements, none of
them written, and the loop over the rows copies and fills. -/
def tokens_tensor (m_pad_token_id : Int) (lines : List (List Int)) : Except Error Tensor :=
  match max_element_by_length lines with
  | none => .error (Error.null_dereference "max_element")
  | some longest =>
    let max_len := longest.length
    match fill_rows m_pad_token_id max_len lines 0
        (List.replicate (lines.length * max_len) none) with
    | .error e => .error e
    | .ok elements =>
      match written elements with
      | .error e => .error e
      | .ok data =>
        .ok { element_type := ElementType.i64, shape := [lines.length, max_len], data := data }

/-- `TokenizerImpl::decode(const std::vector<std::vector<int64_t>>&, const ov::AnyMap&)`. -/
def TokenizerImpl.decode_batch (B : Backend) (self : TokenizerImpl) (slot : Nat)
    (lines : List (List Int)) (detokenization_params : AnyMap) :
    TokenizerImpl × Except Error (List String) :=
  match self.m_ireq_queue_detokenizer with
  | none => (self, .error Error.decode_not_available)
  | some _ =>
    match tokens_tensor self.m_pad_token_id lines with
    | .error e => (self, .error e)
    | .ok tokens =>
      with_request self false slot detokenization_params (fun infer_request =>
        from_backend (B.detokenizer_infer infer_request.states tokens))

/-- The names `Tokenizer::encode` allows in its option map. -/
def encode_argnames : List String :=
  [add_special_tokens_name, max_length_name, pad_to_max_length_name]

/-- The names `Tokenizer::decode` allows in its option map. -/
def decode_argnames : List String := [skip_special_tokens_name]

/-- `Tokenizer::encode(const std::string&, const ov::AnyMap&)`. -/
def Tokenizer.encode (B : Backend) (m_pimpl : TokenizerImpl) (slot : Nat) (prompt : String)
    (tokenization_params : AnyMap) : TokenizerImpl × Except Error TokenizedInputs :=
  match check_arguments tokenization_params encode_argnames with
  | .error e => (m_pimpl, .error e)
  | .ok () => TokenizerImpl.encode B m_pimpl slot prompt tokenization_params

/-- `Tokenizer::encode(const std::vector<std::pair<std::string, std::string>>&, ...)`. -/
def Tokenizer.encode_pairs (B : Backend) (m_pimpl : TokenizerImpl) (slot : Nat)
    (prompts : List (String × String)) (tokenization_params : AnyMap) :
    TokenizerImpl × Except Error TokenizedInputs :=
  match check_arguments tokenization_params encode_argnames with
  | .error e => (m_pimpl, .error e)
  | .ok () => TokenizerImpl.encode_pairs B m_pimpl slot prompts tokenization_params

/-- `Tokenizer::encode(prompts_1, prompts_2, tokenization_params)`. -/
def Tokenizer.encode_two (B : Backend) (m_pimpl : TokenizerImpl) (slot : Nat)
    (prompts_1 prompts_2 : List String) (tokenization_params : AnyMap) :
    TokenizerImpl × Except Error TokenizedInputs :=
  match check_arguments tokenization_params encode_argnames with
  | .error e => (m_pimpl, .error e)
  | .ok () => TokenizerImpl.encode_two B m_pimpl slot prompts_1 prompts_2 tokenization_params

/-- `Tokenizer::encode(const std::vector<std::string>&, const ov::AnyMap&)`. -/
def Tokenizer.encode_batch (B : Backend) (m_pimpl : TokenizerImpl) (slot : Nat)
    (prompts : List String) (tokenization_params : AnyMap) :
    TokenizerImpl × Except Error TokenizedInputs :=
  match check_arguments tokenization_params encode_argnames with
  | .error e => (m_pimpl, .error e)
  | .ok () => TokenizerImpl.encode_batch B m_pimpl slot prompts tokenization_params

/-- `Tokenizer::encode(const std::initializer_list<std::string>&, const ov::AnyMap&)`. -/
def Tokenizer.encode_initializer_list (B : Backend) (m_pimpl : TokenizerImpl) (slot : Nat)
    (text : List String) (tokenization_params : AnyMap) :
    TokenizerImpl × Except Error TokenizedInputs :=
  match check_arguments tokenization_params encode_argnames with
  | .error e => (m_pimpl, .error e)
  | .ok () => Tokenizer.encode_batch B m_pimpl slot text tokenization_params

/-- `Tokenizer::decode(const std::vector<int64_t>&, const ov::AnyMap&)`. -/
def Tokenizer.decode (B : Backend) (m_pimpl : TokenizerImpl) (slot : Nat) (tokens : List Int)
    (detokenization_params : AnyMap) : TokenizerImpl × Except Error String :=
  match check_arguments detokenization_params decode_argnames with
  | .error e => (m_pimpl, .error e)
  | .ok () => TokenizerImpl.decode B m_pimpl slot tokens detokenization_params

/-- `Tokenizer::decode(const ov::Tensor&, const ov::AnyMap&)`. -/
def Tokenizer.decode_tensor (B : Backend) (m_pimpl : TokenizerImpl) (slot : Nat)
    (tokens : Tensor) (detokenization_params : AnyMap) :
    TokenizerImpl × Except Error (List String) :=
  match check_arguments detokenization_params decode_argnames with
  | .error e => (m_pimpl, .error e)
  | .ok () => TokenizerImpl.decode_tensor B m_pimpl slot tokens detokenization_params

/-- `Tokenizer::decode(const std::vector<std::vector<int64_t>>&, const ov::AnyMap&)`. -/
def Tokenizer.decode_batch (B : Backend) (m_pimpl : TokenizerImpl) (slot : Nat)
    (lines : List (List Int)) (detokenization_params : AnyMap) :
    TokenizerImpl × Except Error (List String) :=
  match check_arguments detokenization_params decode_argnames with
  | .error e => (m_pimpl, .error e)
  | .ok () => TokenizerImpl.decode_batch B m_pimpl slot lines detokenization_params

/-- A backend for examples: the tokenizer answers every request with one token
per prompt, the detokenizer with one empty string per row. -/
def example_backend : Backend :=
  { tokenizer_inputs := 2
    tokenizer_infer := fun _ prompts _ =>
      .ok ({ element_type := ElementType.i64, shape := [prompts.length, 1],
             data := prompts.map (fun _ => 1) },
           { element_type := ElementType.i64, shape := [prompts.length, 1],
             data := prompts.map (fun _ => 1) }, none)
    detokenizer_infer := fun _ tokens => .ok (List.replicate (tokens.shape.headD 0) "") }

/-! ## Specification-level descriptions of the flag synchronisation -/

/-- Whether the value stored under an option key has the type the option is
read with (`bool` for the three switches, `int32_t` for `max_length`). -/
def option_type_ok (name : String) (a : Any) : Bool :=
  if name = add_special_tokens_name ∨ name = skip_special_tokens_name
      ∨ name = pad_to_max_length_name then
    match a with
    | Any.bool _ => true
    | _ => false
  else if name = max_length_name then
    match a with
    | Any.i32 _ => true
    | _ => false
  else true

/-- An option map whose recognised keys hold values of the declared types. -/
def well_typed_options (params : AnyMap) : Bool :=
  params.all (fun kv => option_type_ok kv.1 kv.2)

/-- Whether the value recorded under the name of a state variable has the type
`set_state_value` is instantiated with for that variable. -/
def state_flag_type_ok (name : String) (a : Any) : Bool :=
  if name = add_special_tokens_name ∨ name = skip_special_tokens_name
      ∨ name = PAD_TO_MAX_LENGTH_VAR_ID ∨ name = IS_MAX_LENGTH_SET then
    match a with
    | Any.bool _ => true
    | _ => false
  else if name = MAX_LENGTH_VAR_ID then
    match a with
    | Any.i32 _ => true
    | _ => false
  else true

/-- A flag map whose entries under the names of recognised state variables hold
values of the type written by `set_state_value`. -/
def well_typed_flags (state_flags : AnyMap) : Bool :=
  state_flags.all (fun kv => state_flag_type_ok kv.1 kv.2)

/-- The names of the five state variables `set_state_if_necessary` recognises. -/
def recognised (name : String) : Bool :=
  name = add_special_tokens_name ∨ name = skip_special_tokens_name
    ∨ name = MAX_LENGTH_VAR_ID ∨ name = PAD_TO_MAX_LENGTH_VAR_ID ∨ name = IS_MAX_LENGTH_SET

/-- The request is one the synchronisation is meant for: the names of its state
variables are pairwise distinct and the recognised ones hold one element. -/
def well_formed_request (req : InferRequest) : Prop :=
  (req.states.map VariableState.name).Nodup ∧
    ∀ s ∈ req.states, recognised s.name = true → s.get_size = 1

/-- The value (as an `ov::Any`) that `set_state_for` passes to `set_state_value`
for the variable called `name`: `none` when the name is not recognised,
`some none` when the optional passed is empty. -/
def requested (vals : StateValues) (name : String) : Option (Option Any) :=
  if name = add_special_tokens_name then some (vals.add_special_tokens_flag.map Any.bool)
  else if name = skip_special_tokens_name then some (vals.skip_special_tokens_flag.map Any.bool)
  else if name = MAX_LENGTH_VAR_ID then some (vals.max_length_val.map Any.i32)
  else if name = PAD_TO_MAX_LENGTH_VAR_ID then some (vals.pad_to_max_length_val.map Any.bool)
  else if name = IS_MAX_LENGTH_SET then some (vals.is_max_length_set_val.map Any.bool)
  else none

/-- What `set_state_value` does to a variable and the flag map when the typed
read of the last value succeeds and the variable holds one element. -/
def apply_value (s : VariableState) (value : Option Any) (state_flags : AnyMap) :
    VariableState × AnyMap :=
  match value with
  | some v =>
    if state_flags.find s.name = some v then (s, state_flags)
    else (s.set_state v, state_flags.assign s.name v)
  | none => (s.reset, state_flags.erase s.name)

/-- The variable after one synchronisation that started with `state_flags`. -/
def synced (vals : StateValues) (state_flags : AnyMap) (s : VariableState) : VariableState :=
  match requested vals s.name with
  | some value => (apply_value s value state_flags).1
  | none => s

/-- The value the synchronisation requests for the variable called `name`, read
off the option map: the caller's value, or the default written in
`set_state_if_necessary` (`true`, `true`, `false` for the three switches, an
empty optional for `max_length`), and `max_length.has_value()` for
`is_max_length_set`. -/
def option_request (params : AnyMap) (name : String) : Option (Option Any) :=
  if name = add_special_tokens_name then
    some (some ((params.find add_special_tokens_name).getD (Any.bool true)))
  else if name = skip_special_tokens_name then
    some (some ((params.find skip_special_tokens_name).getD (Any.bool true)))
  else if name = MAX_LENGTH_VAR_ID then some (params.find max_length_name)
  else if name = PAD_TO_MAX_LENGTH_VAR_ID then
    some (some ((params.find pad_to_max_length_name).getD (Any.bool false)))
  else if name = IS_MAX_LENGTH_SET then
    some (some (Any.bool (params.find max_length_name).isSome))
  else none

/-- A session of a tokenizer that is not older than 24.5, with no inference
request used so far. -/
def fresh_session : TokenizerImpl :=
  { m_ireq_queue_tokenizer := none
    m_ireq_queue_detokenizer := none
    m_request_to_state_flags := fun _ => none
    m_older_than_24_5 := false
    m_pad_token_id := -1
    m_bos_token_id := -1
    m_eos_token_id := -1
    m_pad_token := ""
    m_bos_token := ""
    m_eos_token := ""
    m_chat_template := "" }

/-- An inference request of a tokenizer graph that exposes the four encode-side
state variables, all in their reset state. -/
def fresh_request : InferRequest :=
  { id := 0
    states :=
      [ { name := "add_special_tokens", shape := [], state := none, set_calls := 0,
          reset_calls := 0 },
        { name := "max_length", shape := [1], state := none, set_calls := 0, reset_calls := 0 },
        { name := "pad_to_max_length", shape := [1], state := none, set_calls := 0,
          reset_calls := 0 },
        { name := "is_max_length_set", shape := [1], state := none, set_calls := 0,
          reset_calls := 0 } ] }

/-- The keys of the map are in strictly ascending order (the representation
invariant of `std::map`). -/
def StdMap.ordered {α : Type} (m : StdMap α) : Prop :=
  List.Pairwise (fun a b => key_lt a.1 b.1 = true) m

/-- A run of synchronisations on one request, one option map after the other
(nothing else touches the state variables in between). -/
def sync_sequence (self : TokenizerImpl) (req : InferRequest) :
    List AnyMap → TokenizerImpl × InferRequest
  | [] => (self, req)
  | params :: rest =>
    sync_sequence (set_state_if_necessary self req params).1.1
      (set_state_if_necessary self req params).1.2 rest

/-- The request and its flag map agree: the request is well formed, the flag
map is a well-typed ordered map, every recognised variable holds what the flag
map records under its name (the reset state when nothing is recorded), the
other variables are in their reset state, and the flag map has entries only
under names of recognised variables of the request. -/
def coherent (req : InferRequest) (flags : AnyMap) : Prop :=
  well_formed_request req ∧ well_typed_flags flags = true ∧ flags.ordered ∧
  (∀ s ∈ req.states, recognised s.name = true → s.state = flags.find s.name) ∧
  (∀ s ∈ req.states, recognised s.name = false → s.state = none) ∧
  (∀ n, (n ∉ req.states.map VariableState.name ∨ recognised n = false) → flags.find n = none)

/-- An inference request of a detokenizer graph, in its reset state. -/
def fresh_detokenizer_request : InferRequest :=
  { id := 1
    states :=
      [ { name := "skip_special_tokens", shape := [], state := none, set_calls := 0,
          reset_calls := 0 } ] }

/-- A session with a tokenizer and a detokenizer graph and one request in each
queue, none of them used so far. -/
def ready_session : TokenizerImpl :=
  { fresh_session with
    m_ireq_queue_tokenizer := some [fresh_request]
    m_ireq_queue_detokenizer := some [fresh_detokenizer_request] }

/-- The errors the flag synchronisation can raise. -/
def is_sync_error (e : Error) : Prop :=
  (∃ name, e = Error.bad_any_cast name) ∨ e = Error.not_single_element

/-! ## Special tokens -/

/-- A parsed JSON document (`nlohmann::json`); numbers are the integers the
program reads. The members of an object are listed in iteration order. -/
inductive Json where
  | null
  | bool (b : Bool)
  | number (n : Int)
  | string (s : String)
  | array (elements : List Json)
  | object (members : List (String × Json))

/-- The member called `key` of an object. -/
def Json.member : Json → String → Option Json
  | Json.object members, key => (members.find? (fun kv => kv.1 = key)).map Prod.snd
  | _, _ => none

/-- `data.contains(key)`: false for everything that is not an object. -/
def Json.contains (data : Json) (key : String) : Bool := (data.member key).isSome

/-- `data.items()`: the members of an object; the elements of an array with
their positions as keys; nothing for null; the value itself under the empty key
otherwise. -/
def Json.items : Json → List (String × Json)
  | Json.object members => members
  | Json.array elements => elements.enum.map (fun iv => (toString iv.1, iv.2))
  | Json.null => []
  | other => [("", other)]

/-- `content == token`: a JSON value equals a `std::string` when it is that string. -/
def Json.eq_string : Json → String → Bool
  | Json.string s, token => s = token
  | _, _ => false

/-- Modelled from the spec: `ov::genai::utils::read_json_param` for an integer
parameter (declared in `json_utils.hpp`, which is not part of the sources). A
field that is present and a number is read; a missing field, or one of another
type, leaves the parameter as it is. -/
def read_json_param_int (data : Json) (name : String) (param : Int) : Int :=
  match data.member name with
  | some (Json.number n) => n
  | _ => param

/-- Modelled from the spec: `ov::genai::utils::read_json_param` for a string
parameter. A field that is present and a string is read; a missing field, or one
of another type, leaves the parameter as it is. -/
def read_json_param_string (data : Json) (name : String) (param : String) : String :=
  match data.member name with
  | some (Json.string s) => s
  | _ => param

/-- `std::isspace` in the "C" locale. -/
def isspace (c : Char) : Bool :=
  c = ' ' ∨ c = '\t' ∨ c = '\n' ∨ c = '\r' ∨ c.toNat = 11 ∨ c.toNat = 12

/-- `std::stoi(str)`: leading white space is skipped, then an optional sign and
the longest run of decimal digits are read; what follows is ignored. -/
def stoi (str : String) : Except Error Int :=
  let rest := str.data.dropWhile isspace
  let signed : Bool × List Char :=
    match rest with
    | '-' :: tail => (true, tail)
    | '+' :: tail => (false, tail)
    | other => (false, other)
  let digits := signed.2.takeWhile Char.isDigit
  if digits = [] then .error Error.stoi_invalid_argument
  else
    let magnitude : Nat := digits.foldl (fun acc c => 10 * acc + (c.toNat - 48)) 0
    let value : Int := if signed.1 then - (magnitude : Int) else magnitude
    if value < -2147483648 ∨ 2147483647 < value then .error Error.stoi_out_of_range
    else .ok value

/-- The directory a tokenizer is loaded from: each file is absent (`none`) or
present with its parsed content. -/
structure ModelDir where
  config_json : Option Json
  special_tokens_map_json : Option Json
  tokenizer_config_json : Option Json

/-- `bos_token_key_name`. -/
def bos_token_key_name : String := "bos_token"

/-- `eos_token_key_name`. -/
def eos_token_key_name : String := "eos_token"

/-- `pad_token_key_name`. -/
def pad_token_key_name : String := "pad_token"

/-- `TokenizerImpl::read_config`. -/
def read_config (self : TokenizerImpl) (dir : ModelDir) : TokenizerImpl :=
  match dir.config_json with
  | none => self
  | some data =>
    { self with
      m_pad_token_id := read_json_param_int data "pad_token_id" self.m_pad_token_id
      m_bos_token_id := read_json_param_int data "bos_token_id" self.m_bos_token_id
      m_eos_token_id := read_json_param_int data "eos_token_id" self.m_eos_token_id }

/-- The lambda `read_token_content_str` of `read_special_tokens_map` and of
`read_tokenizer_config_if_necessary`. -/
def read_token_content_str (data : Json) (key_name : String) (val : String) : String :=
  if val = "" ∧ data.contains key_name then
    match data.member key_name with
    | some entry => read_json_param_string entry "content" val
    | none => val
  else val

/-- `TokenizerImpl::read_special_tokens_map`. -/
def read_special_tokens_map (self : TokenizerImpl) (dir : ModelDir) : TokenizerImpl :=
  match dir.special_tokens_map_json with
  | none => self
  | some data =>
    { self with
      m_pad_token := read_token_content_str data pad_token_key_name self.m_pad_token
      m_bos_token := read_token_content_str data bos_token_key_name self.m_bos_token
      m_eos_token := read_token_content_str data eos_token_key_name self.m_eos_token }

/-- The lambda `read_token_str` of `read_tokenizer_config_if_necessary`. -/
def read_token_str (data : Json) (key_name : String) (val : String) : String :=
  if val = "" then read_json_param_string data key_name val else val

/-- One assignment of the loop over `added_tokens_decoder`:
`if (id == -1 && content == token) id = std::stoi(key);`. -/
def scan_token_id (id : Int) (content : Json) (token : String) (key : String) :
    Except Error Int :=
  if id = -1 ∧ content.eq_string token then stoi key else .ok id

/-- The loop over the items of `added_tokens_decoder`. The session is returned
as it is when the loop ends or `std::stoi` raises. -/
def scan_added_tokens (self : TokenizerImpl) :
    List (String × Json) → TokenizerImpl × Except Error Unit
  | [] => (self, .ok ())
  | (key, value) :: rest =>
    match value.member "content" with
    | none => scan_added_tokens self rest
    | some content =>
      match scan_token_id self.m_pad_token_id content self.m_pad_token key with
      | .error e => (self, .error e)
      | .ok pad_id =>
        let self1 := { self with m_pad_token_id := pad_id }
        match scan_token_id self1.m_bos_token_id content self1.m_bos_token key with
        | .error e => (self1, .error e)
        | .ok bos_id =>
          let self2 := { self1 with m_bos_token_id := bos_id }
          match scan_token_id self2.m_eos_token_id content self2.m_eos_token key with
          | .error e => (self2, .error e)
          | .ok eos_id => scan_added_tokens { self2 with m_eos_token_id := eos_id } rest

/-- Lines 505-527 of `read_tokenizer_config_if_necessary`: the token strings
given directly, then those given as `{"content": ...}`, then the eos token as
pad token when the pad token is still empty. -/
def read_token_strings (self : TokenizerImpl) (data : Json) : TokenizerImpl :=
  let self1 : TokenizerImpl :=
    { self with
      m_pad_token := read_token_str data pad_token_key_name self.m_pad_token
      m_bos_token := read_token_str data bos_token_key_name self.m_bos_token
      m_eos_token := read_token_str data eos_token_key_name self.m_eos_token }
  let self2 : TokenizerImpl :=
    { self1 with
      m_pad_token := read_token_content_str data pad_token_key_name self1.m_pad_token
      m_bos_token := read_token_content_str data bos_token_key_name self1.m_bos_token
      m_eos_token := read_token_content_str data eos_token_key_name self1.m_eos_token }
  if self2.m_pad_token = "" ∧ self2.m_eos_token ≠ "" then
    { self2 with m_pad_token := self2.m_eos_token }
  else self2

/-- Lines 529-556 of `read_tokenizer_config_if_necessary`: the token ids from
`added_tokens_decoder`, then the eos token id as pad token id. -/
def read_token_ids (self : TokenizerImpl) (data : Json) : TokenizerImpl × Except Error Unit :=
  if self.m_pad_token_id ≠ -1 ∧ self.m_bos_token_id ≠ -1 ∧ self.m_eos_token_id ≠ -1 then
    (self, .ok ())
  else
    match data.member "added_tokens_decoder" with
    | none => (self, .ok ())
    | some decoder =>
      match (scan_added_tokens self decoder.items).2 with
      | .error e => ((scan_added_tokens self decoder.items).1, .error e)
      | .ok () =>
        if (scan_added_tokens self decoder.items).1.m_pad_token_id = -1 ∧
            (scan_added_tokens self decoder.items).1.m_eos_token_id ≠ -1 then
          ({ (scan_added_tokens self decoder.items).1 with
              m_pad_token_id := (scan_added_tokens self decoder.items).1.m_eos_token_id },
            .ok ())
        else ((scan_added_tokens self decoder.items).1, .ok ())

/-- `TokenizerImpl::read_tokenizer_config_if_necessary`. -/
def read_tokenizer_config_if_necessary (self : TokenizerImpl) (dir : ModelDir) :
    TokenizerImpl × Except Error Unit :=
  if self.m_pad_token_id ≠ -1 ∧ self.m_bos_token_id ≠ -1 ∧ self.m_eos_token_id ≠ -1 ∧
      self.m_pad_token ≠ "" ∧ self.m_bos_token ≠ "" ∧ self.m_eos_token ≠ "" then
    (self, .ok ())
  else
    match dir.tokenizer_config_json with
    | none => (self, .ok ())
    | some data => read_token_ids (read_token_strings self data) data

/-- Lines 367-370 of `setup_tokenizer(path)`: `read_config`, then
`read_special_tokens_map`, then `read_tokenizer_config_if_necessary`. -/
def resolve_special_tokens (self : TokenizerImpl) (dir : ModelDir) :
    TokenizerImpl × Except Error Unit :=
  read_tokenizer_config_if_necessary (read_special_tokens_map (read_config self dir) dir) dir

/-- `find_or_fallback<T>`. -/
def find_or_fallback {T : Type} [AnyCast T] (rt_info : AnyMap) (name : String) (fallback : T) :
    Except Error T :=
  match rt_info.find name with
  | none => .ok fallback
  | some a =>
    match AnyCast.ofAny a with
    | some v => .ok v
    | none => .error (Error.bad_any_cast name)

/-- A directory with no pad token anywhere: `config.json` gives the eos token id
2, `special_tokens_map.json` gives the eos token "</s>", and
`tokenizer_config.json` is present without an `added_tokens_decoder` table. -/
def no_pad_dir : ModelDir :=
  { config_json := some (Json.object [("eos_token_id", Json.number 2)])
    special_tokens_map_json :=
      some (Json.object [("eos_token", Json.object [("content", Json.string "</s>")])])
    tokenizer_config_json := some (Json.object [("model_max_length", Json.number 2048)]) }

/-- The directory `no_pad_dir` without `tokenizer_config.json`. -/
def no_pad_no_tokenizer_config_dir : ModelDir :=
  { no_pad_dir with tokenizer_config_json := none }

/-- A directory in which `config.json` gives the eos token id 2 while the
`added_tokens_decoder` table of `tokenizer_config.json` lists the eos token
"</s>" under the key 7. -/
def conflicting_dir : ModelDir :=
  { config_json := some (Json.object [("eos_token_id", Json.number 2)])
    special_tokens_map_json := none
    tokenizer_config_json :=
      some (Json.object
        [("eos_token", Json.string "</s>"),
         ("added_tokens_decoder",
           Json.object [("7", Json.object [("content", Json.string "</s>")])])]) }

/-! ## Paged-attention transformation -/

/-- `ov::Dimension`: a known length, or a dimension that is not static. -/
inductive Dimension where
  | static (length : Nat)
  | dynamic
  deriving DecidableEq, Repr

/-- `ov::PartialShape`: `none` is a shape of dynamic rank. -/
abbrev PartialShape := Option (List Dimension)

/-- `ov::PartialShape::dynamic(rank)`. -/
def PartialShape.dynamic (rank : Nat) : PartialShape :=
  some (List.replicate rank Dimension.dynamic)

/-- `shape[i].get_length()`: `operator[]` raises outside the rank, `get_length`
raises on a dimension that is not static. -/
def get_length_at (shape : PartialShape) (i : Nat) : Except Error Nat :=
  match shape with
  | none => .error Error.dimension_out_of_range
  | some dims =>
    match dims[i]? with
    | none => .error Error.dimension_out_of_range
    | some (Dimension.static length) => .ok length
    | some Dimension.dynamic => .error Error.dynamic_dimension

/-- `ov::op::v0::Parameter`: what the transformation reads and writes of it. -/
structure Parameter where
  friendly_name : String
  element_type : ElementType
  partial_shape : PartialShape
  deriving DecidableEq, Repr

/-- `ov::Model`: its state variables (by name) and its parameters. A parameter is
referred to by its position in `m_parameters`. -/
structure Model where
  m_variables : List String
  m_parameters : List Parameter
  deriving DecidableEq, Repr

/-- `KVHeadConfig`. -/
structure KVHeadConfig where
  num_v_heads : Nat
  num_k_heads : Nat
  v_head_size : Nat
  k_head_size : Nat
  deriving DecidableEq, Repr

/-- `name.find(prefix) == 0`. -/
def starts_with (pre : String) (name : String) : Bool := pre.data.isPrefixOf name.data

/-- `std::string("key_cache.") + std::to_string(idx)`. -/
def key_cache_name (idx : Nat) : String := "key_cache." ++ toString idx

/-- `std::string("value_cache.") + std::to_string(idx)`. -/
def value_cache_name (idx : Nat) : String := "value_cache." ++ toString idx

/-- The loop over `model->get_parameters()` (lines 22-29): `pos` is the position
of the first parameter of the list, the maps hold positions. -/
def collect_cache_params :
    List Parameter → Nat → StdMap Nat × StdMap Nat → StdMap Nat × StdMap Nat
  | [], _, maps => maps
  | param :: rest, pos, maps =>
    if starts_with "key_cache." param.friendly_name then
      collect_cache_params rest (pos + 1) (maps.1.assign param.friendly_name pos, maps.2)
    else if starts_with "value_cache." param.friendly_name then
      collect_cache_params rest (pos + 1) (maps.1, maps.2.assign param.friendly_name pos)
    else collect_cache_params rest (pos + 1) maps

/-- `cache_params[name]` followed by a dereference: `operator[]` yields a null
pointer for a name the map does not hold. -/
def cache_param (parameters : List Parameter) (cache_params : StdMap Nat) (name : String) :
    Except Error (Nat × Parameter) :=
  match cache_params.find name with
  | none => .error (Error.null_dereference name)
  | some pos =>
    match parameters[pos]? with
    | none => .error (Error.null_dereference name)
    | some param => .ok (pos, param)

/-- The body of the first loop over the layers (lines 37-47). -/
def kv_head_config (parameters : List Parameter) (key_cache_params value_cache_params : StdMap Nat)
    (idx : Nat) : Except Error KVHeadConfig :=
  match cache_param parameters key_cache_params (key_cache_name idx) with
  | .error e => .error e
  | .ok k =>
  match get_length_at k.2.partial_shape 1 with
  | .error e => .error e
  | .ok num_k_heads =>
  match get_length_at k.2.partial_shape 2 with
  | .error e => .error e
  | .ok k_head_size =>
  match cache_param parameters value_cache_params (value_cache_name idx) with
  | .error e => .error e
  | .ok v =>
  match get_length_at v.2.partial_shape 1 with
  | .error e => .error e
  | .ok num_v_heads =>
  match get_length_at v.2.partial_shape 2 with
  | .error e => .error e
  | .ok v_head_size =>
    .ok { num_v_heads := num_v_heads, num_k_heads := num_k_heads,
          v_head_size := v_head_size, k_head_size := k_head_size }

/-- The first loop over the layers (lines 36-48), from layer `idx` on, for
`count` layers. -/
def kv_cache_config_from (parameters : List Parameter)
    (key_cache_params value_cache_params : StdMap Nat) :
    Nat → Nat → Except Error (List KVHeadConfig)
  | _, 0 => .ok []
  | idx, count + 1 =>
    match kv_head_config parameters key_cache_params value_cache_params idx with
    | .error e => .error e
    | .ok config =>
      match kv_cache_config_from parameters key_cache_params value_cache_params (idx + 1)
          count with
      | .error e => .error e
      | .ok rest => .ok (config :: rest)

/-- `set_element_type(ov::element::dynamic)` and
`set_partial_shape(ov::PartialShape::dynamic(4))`. -/
def reset_cache_param (param : Parameter) : Parameter :=
  { param with element_type := ElementType.dynamic, partial_shape := PartialShape.dynamic 4 }

/-- The second loop over the layers (lines 51-62), from layer `idx` on, for
`count` layers: the parameters as they are when the loop ends or fails. -/
def reset_cache_params (key_cache_params value_cache_params : StdMap Nat) :
    List Parameter → Nat → Nat → List Parameter × Except Error Unit
  | parameters, _, 0 => (parameters, .ok ())
  | parameters, idx, count + 1 =>
    match cache_param parameters key_cache_params (key_cache_name idx) with
    | .error e => (parameters, .error e)
    | .ok k =>
      match cache_param parameters value_cache_params (value_cache_name idx) with
      | .error e => (parameters, .error e)
      | .ok v =>
        let parameters1 := parameters.set k.1 (reset_cache_param k.2)
        let parameters2 := parameters1.set v.1 (reset_cache_param (parameters1.getD v.1 v.2))
        reset_cache_params key_cache_params value_cache_params parameters2 (idx + 1) count

/-- `apply_paged_attention_transformations`. The transformation
`SDPAToPagedAttention` and `validate_nodes_and_infer_types` are not part of this
program and are parameters; the latter inspects the graph and may raise. The
graph is returned as it is when the function returns or raises. -/
def apply_paged_attention_transformations
    (SDPAToPagedAttention : Bool → Bool → Bool → Model → Model)
    (validate_nodes_and_infer_types : Model → Except String Unit)
    (model : Model) (per_layer_cache_control allow_cache_rotation : Bool) :
    Model × Except Error (List KVHeadConfig) :=
  if model.m_variables = [] then (model, .error Error.not_stateful)
  else
    let use_block_indices_inputs := per_layer_cache_control
    let use_score_outputs := per_layer_cache_control
    let model1 := SDPAToPagedAttention use_block_indices_inputs use_score_outputs
      allow_cache_rotation model
    let maps := collect_cache_params model1.m_parameters 0 ([], [])
    if maps.1.size = maps.2.size ∧ maps.1.size > 0 then
      let num_decoder_layers := maps.1.size
      match kv_cache_config_from model1.m_parameters maps.1 maps.2 0 num_decoder_layers with
      | .error e => (model1, .error e)
      | .ok kv_cache_config =>
        let reset := reset_cache_params maps.1 maps.2 model1.m_parameters 0 num_decoder_layers
        let model2 : Model := { model1 with m_parameters := reset.1 }
        match reset.2 with
        | .error e => (model2, .error e)
        | .ok () =>
          match validate_nodes_and_infer_types model2 with
          | .error msg => (model2, .error (Error.validation msg))
          | .ok () => (model2, .ok kv_cache_config)
    else (model1, .error Error.cache_params_count)

/-- A cache parameter as the structural rewrite declares it: the numbers of heads
and the head size are dimensions 1 and 2 of its shape. -/
def cache_parameter (name : String) (num_heads head_size : Nat) : Parameter :=
  { friendly_name := name
    element_type := ElementType.f32
    partial_shape := some [Dimension.dynamic, Dimension.static num_heads,
      Dimension.static head_size, Dimension.dynamic] }

/-- A rewritten graph with two layers, the parameters of layer 1 declared before
those of layer 0. -/
def two_layer_model : Model :=
  { m_variables := ["past_key_values.0.key"]
    m_parameters :=
      [ { friendly_name := "input_ids", element_type := ElementType.i64,
          partial_shape := some [Dimension.dynamic] },
        cache_parameter "key_cache.1" 4 128,
        cache_parameter "value_cache.1" 4 96,
        cache_parameter "key_cache.0" 8 64,
        cache_parameter "value_cache.0" 8 32 ] }

/-- A rewritten graph with one layer whose key cache parameter declares zero
heads. -/
def zero_heads_model : Model :=
  { m_variables := ["past_key_values.0.key"]
    m_parameters := [cache_parameter "key_cache.0" 0 64, cache_parameter "value_cache.0" 8 64] }

/-- A rewritten graph in which two parameters carry the friendly name
key_cache.0. -/
def duplicate_name_model : Model :=
  { m_variables := ["past_key_values.0.key"]
    m_parameters :=
      [ cache_parameter "key_cache.0" 8 64,
        cache_parameter "key_cache.0" 4 32,
        cache_parameter "value_cache.0" 8 64 ] }

/-- A structural rewrite that leaves the graph as it is (for graphs given in
their rewritten form). -/
def rewrite_done : Bool → Bool → Bool → Model → Model := fun _ _ _ model => model

/-- A validation that accepts every graph. -/
def validate_ok : Model → Except String Unit := fun _ => .ok ()

/-- The number a string of decimal digits denotes. -/
def digits_value (l : List Char) : Nat :=
  l.foldl (fun acc c => 10 * acc + (c.toNat - 48)) 0

/-- The parameter is a cache parameter: its friendly name starts with
key_cache. or value_cache. -/
def is_cache_param (param : Parameter) : Bool :=
  starts_with "key_cache." param.friendly_name || starts_with "value_cache." param.friendly_name

/-- The parameter is erased: its element type is dynamic and its shape has rank
4 with four dynamic dimensions. -/
def is_erased (param : Parameter) : Prop :=
  param.element_type = ElementType.dynamic ∧
    param.partial_shape = some [Dimension.dynamic, Dimension.dynamic, Dimension.dynamic,
      Dimension.dynamic]

/-- No two parameters of the list carry the same friendly name when one of them
is a cache parameter. -/
def distinct_cache_names (parameters : List Parameter) : Prop :=
  parameters.Pairwise (fun p q => is_cache_param p = true → p.friendly_name ≠ q.friendly_name)

/-- The parameters after some steps of the reset loop, against those before: the
same number of parameters, each one as it was or reset. -/
def reset_rel (before after : List Parameter) : Prop :=
  after.length = before.length ∧
    ∀ (j : Nat) (p : Parameter), before[j]? = some p →
      after[j]? = some p ∨ after[j]? = some (reset_cache_param p)

/-- The friendly names of the parameters whose friendly name starts with `pre`,
in the order of the parameters. -/
def cache_names (pre : String) (parameters : List Parameter) : List String :=
  (parameters.filter (fun p => starts_with pre p.friendly_name)).map (fun p => p.friendly_name)

/-- A rewritten graph without cache parameters. -/
def no_cache_model : Model :=
  { m_variables := ["past_key_values.0.key"]
    m_parameters :=
      [ { friendly_name := "input_ids", element_type := ElementType.i64,
          partial_shape := some [Dimension.dynamic] } ] }

/-- A rewritten graph with two key and two value cache parameters whose key
names leave out the layer index 1. -/
def gap_model : Model :=
  { m_variables := ["past_key_values.0.key"]
    m_parameters :=
      [ cache_parameter "key_cache.0" 8 64,
        cache_parameter "value_cache.0" 8 64,
        cache_parameter "key_cache.2" 8 64,
        cache_parameter "value_cache.1" 8 64 ] }

/-- A rewritten graph with one layer whose key cache parameter carries the
suffix 00 instead of 0. -/
def padded_suffix_model : Model :=
  { m_variables := ["past_key_values.0.key"]
    m_parameters := [cache_parameter "key_cache.00" 8 64, cache_parameter "value_cache.0" 8 64] }

/-! ## Chat templates -/

/-- The table `chat_template_fallback_map` of known templates and their
replacements, in iteration order. The header that declares it is not part of
the sources, so the table is a parameter of what uses it. -/
abbrev FallbackMap := List (String × String)

/-- `remap_template`: the replacement of the first entry whose known template
equals `chat_template`. -/
def remap_template (chat_template_fallback_map : FallbackMap) (chat_template : String) :
    Option String :=
  match chat_template_fallback_map with
  | [] => none
  | (known, fallback) :: rest =>
    if chat_template = known then some fallback else remap_template rest chat_template

/-- The search of `std::string::find` through the characters `rest` that start at
position `pos`: the first position at which `from_str` starts. -/
def find_at (from_str : List Char) : List Char → Nat → Option Nat
  | [], pos => if from_str.isPrefixOf [] then some pos else none
  | c :: rest, pos =>
    if from_str.isPrefixOf (c :: rest) then some pos else find_at from_str rest (pos + 1)

/-- `s.find(from_str, pos)` on the characters of a string; `none` is `npos`. -/
def string_find (s from_str : List Char) (pos : Nat) : Option Nat :=
  if pos > s.length then none else find_at from_str (s.drop pos) pos

/-- `s.replace(pos, len, to_str)` for `pos + len` within the string. -/
def string_replace (s : List Char) (pos len : Nat) (to_str : List Char) : List Char :=
  s.take pos ++ to_str ++ s.drop (pos + len)

/-- The `while` loop of `patch_template` for one entry of `replace_str_map`, from
the position `pos` on. The pattern is not empty (with an empty pattern the loop
of the source does not end); each round leaves fewer characters after `pos`. -/
def replace_loop (from_str to_str : List Char) (hfrom : from_str ≠ [])
    (chat_template : List Char) (pos : Nat) : List Char :=
  match h : string_find chat_template from_str pos with
  | none => chat_template
  | some found =>
    have _ : string_find chat_template from_str pos = some found := h
    replace_loop from_str to_str hfrom
      (string_replace chat_template found from_str.length to_str) (found + to_str.length)
termination_by chat_template.length - pos
decreasing_by
  have key : ∀ (rest : List Char) (i j : Nat), find_at from_str rest i = some j →
      i ≤ j ∧ (j - i) + from_str.length ≤ rest.length := by
    intro rest
    induction rest with
    | nil =>
      intro i j hj
      unfold find_at at hj
      split at hj
      · rename_i hp
        rw [List.isPrefixOf_iff_prefix] at hp
        exact absurd (List.prefix_nil.mp hp) hfrom
      · exact absurd hj (by simp)
    | cons c rest ih =>
      intro i j hj
      unfold find_at at hj
      split at hj
      · rename_i hp
        rw [List.isPrefixOf_iff_prefix] at hp
        have := hp.length_le
        injection hj with hj
        omega
      · have := ih (i + 1) j hj
        simp only [List.length_cons]
        omega
  have hlen : 0 < from_str.length := List.length_pos.mpr hfrom
  unfold string_find at h
  split at h
  · exact absurd h (by simp)
  · have := key _ _ _ h
    simp only [List.length_drop] at this
    simp only [string_replace, List.length_append, List.length_take, List.length_drop]
    omega

/-- The array `replace_str_map` of `patch_template`; its entries are
'} to ' }, {' to { ', .strip() to the empty text, is not none to is defined,
is none to is undefined, = none to = undefined, and messages[1:] to
slice(messages, 1). -/
def replace_str_map : List (String × String) :=
  [ ("'\x7d", "' \x7d"),
    ("\x7b'", "\x7b '"),
    (".strip()", ""),
    ("is not none", "is defined"),
    ("is none", "is undefined"),
    ("= none", "= undefined"),
    ("messages[1:]", "slice(messages, 1)") ]

/-- The `for` loop of `patch_template` over the entries of the array, each with
`pos` starting at 0. -/
def replace_entries : (entries : List (String × String)) → (∀ e ∈ entries, e.1.data ≠ []) →
    List Char → List Char
  | [], _, chat_template => chat_template
  | e :: rest, h, chat_template =>
    replace_entries rest (fun e1 he1 => h e1 (List.mem_cons_of_mem _ he1))
      (replace_loop e.1.data e.2.data (h e (List.mem_cons_self _ _)) chat_template 0)

/-- `patch_template`. A string is the list of its characters; the patterns are
ASCII texts, whose bytes occur in a UTF-8 text only where these characters
occur. -/
def patch_template (chat_template : String) : String :=
  String.mk (replace_entries replace_str_map (by decide) chat_template.data)

/-- `remap_and_patch`. -/
def remap_and_patch (chat_template_fallback_map : FallbackMap) (chat_template : String) :
    String :=
  patch_template ((remap_template chat_template_fallback_map chat_template).getD chat_template)

/-- One replace-all pass as the specification words it: the text is scanned from
left to right, an occurrence of `from_str` that starts at the scanned character
is replaced by `to_str`, and the scan resumes after the occurrence, so that the
inserted text is not scanned; `skip` is the number of characters of a replaced
occurrence still to pass over. -/
def replace_all_from (from_str to_str : List Char) : Nat → List Char → List Char
  | _, [] => []
  | skip + 1, _ :: rest => replace_all_from from_str to_str skip rest
  | 0, c :: rest =>
    if from_str.isPrefixOf (c :: rest) then
      to_str ++ replace_all_from from_str to_str (from_str.length - 1) rest
    else c :: replace_all_from from_str to_str 0 rest

/-- One replace-all pass over a text. -/
def replace_all (from_str to_str : String) (s : List Char) : List Char :=
  replace_all_from from_str.data to_str.data 0 s

/-- The string contains an occurrence of the pattern. -/
def contains (s pattern : String) : Prop := pattern.data <:+: s.data

instance (s pattern : String) : Decidable (contains s pattern) := by
  unfold contains
  infer_instance

/-- No end of `pattern` is a start of `to_str` or the other way round: an
occurrence of `pattern` cannot run from copied text into an inserted `to_str`. -/
def no_overlap_start (pattern to_str : List Char) : Bool :=
  (List.range pattern.length).all
    (fun k => !(pattern.drop k).isPrefixOf to_str && !to_str.isPrefixOf (pattern.drop k))

/-- No end of `to_str` is a start of `pattern` or the other way round, unless it
is also an end of `from_str`: an occurrence of `pattern` cannot start inside an
inserted `to_str`, unless the replaced text allowed the same. -/
def no_overlap_end (pattern from_str to_str : List Char) : Bool :=
  (List.range to_str.length).all
    (fun j => (!(to_str.drop j).isPrefixOf pattern && !pattern.isPrefixOf (to_str.drop j))
      || (to_str.drop j).isSuffixOf from_str)

/-- Modelled from the spec: a message of the conversation history, a record of a
role and a content (the header that declares `ChatHistory` is not part of the
sources). -/
structure Message where
  role : String
  content : String
  deriving DecidableEq, Repr

/-- Modelled from the spec: `ChatHistory`, the ordered list of the messages. -/
abbrev ChatHistory := List Message

/-- The loop of the callable registered as `slice` (lines 758-763): `iter_num`
counts the messages passed, `result` collects those from `start` on. -/
def slice_loop {α : Type} : List α → Nat → Nat → List α → List α
  | [], _, _, result => result
  | message :: rest, start, iter_num, result =>
    if iter_num < start then slice_loop rest start (iter_num + 1) result
    else slice_loop rest start (iter_num + 1) (result ++ [message])

/-- The callable registered as `slice`. -/
def slice_callable {α : Type} (messages : List α) (start : Nat) : List α :=
  slice_loop messages start 0 []

/-- The parameters `apply_chat_template` hands to the template evaluator. -/
structure RenderParams where
  messages : List Message
  bos_token : String
  eos_token : String
  pad_token : String
  add_generation_prompt : Bool
  slice : List Message → Nat → List Message

/-- The template evaluator (Jinja2Cpp), which is not part of this program: from
the template text and the parameters, the rendered text or the message of the
exception raised by `Load` and `RenderAsString`. -/
abbrev Renderer := String → RenderParams → Except String String

/-- The parameters of the rendering (lines 770-783): the messages with their
role and content, the strings of the special tokens, the flag and the callable
`slice`. -/
def chat_template_params (self : TokenizerImpl) (history : ChatHistory)
    (add_generation_prompt : Bool) : RenderParams :=
  let jinja_messages := history.map (fun message =>
    ({ role := message.role, content := message.content } : Message))
  { messages := jinja_messages
    bos_token := self.m_bos_token
    eos_token := self.m_eos_token
    pad_token := self.m_pad_token
    add_generation_prompt := add_generation_prompt
    slice := slice_callable }

/-- `TokenizerImpl::apply_chat_template`, a `const` member function. -/
def TokenizerImpl.apply_chat_template (chat_template_fallback_map : FallbackMap)
    (render : Renderer) (self : TokenizerImpl) (history : ChatHistory)
    (add_generation_prompt : Bool) (chat_template : String) : Except Error String :=
  let chat_tpl :=
    if chat_template = "" then self.m_chat_template
    else remap_and_patch chat_template_fallback_map chat_template
  if chat_tpl = "" then .error Error.chat_template_not_found
  else
    let params := chat_template_params self history add_generation_prompt
    match render chat_tpl params with
    | .error what => .error (Error.jinja_failed what)
    | .ok result => if result = "" then .error Error.empty_chat_result else .ok result

/-- `TokenizerImpl::set_chat_template`. -/
def TokenizerImpl.set_chat_template (chat_template_fallback_map : FallbackMap)
    (self : TokenizerImpl) (chat_template : String) : TokenizerImpl :=
  { self with m_chat_template := remap_and_patch chat_template_fallback_map chat_template }

/-- `TokenizerImpl::get_chat_template`. -/
def TokenizerImpl.get_chat_template (self : TokenizerImpl) : String := self.m_chat_template

/-- `Tokenizer::apply_chat_template`: the session after the call and the result. -/
def Tokenizer.apply_chat_template (chat_template_fallback_map : FallbackMap) (render : Renderer)
    (m_pimpl : TokenizerImpl) (history : ChatHistory) (add_generation_prompt : Bool)
    (chat_template : String) : TokenizerImpl × Except Error String :=
  (m_pimpl, TokenizerImpl.apply_chat_template chat_template_fallback_map render m_pimpl history
    add_generation_prompt chat_template)

/-- `Tokenizer::set_chat_template`. -/
def Tokenizer.set_chat_template (chat_template_fallback_map : FallbackMap)
    (m_pimpl : TokenizerImpl) (chat_template : String) : TokenizerImpl :=
  TokenizerImpl.set_chat_template chat_template_fallback_map m_pimpl chat_template

/-- `Tokenizer::get_chat_template`. -/
def Tokenizer.get_chat_template (m_pimpl : TokenizerImpl) : String :=
  TokenizerImpl.get_chat_template m_pimpl

/-- A renderer for examples: the template "{{ raise }}" raises, the template
"{{ nothing }}" renders to the empty text, every other template renders to
itself followed by the contents of the messages. -/
def example_renderer : Renderer := fun chat_tpl params =>
  if chat_tpl = "\x7b\x7b raise \x7d\x7d" then .error "unknown variable"
  else if chat_tpl = "\x7b\x7b nothing \x7d\x7d" then .ok ""
  else .ok (chat_tpl ++ String.join (params.messages.map (fun m => m.content)))

/-- A table of known templates for examples, with one entry. -/
def example_fallback_map : FallbackMap := [("\x7b\x7b messages \x7d\x7d", "\x7b\x7b'x'\x7d\x7d")]

/-! ## Construction of a session from a pair of graphs -/

/-- An `ov::Model` of a tokenizer or of a detokenizer as `setup_tokenizer` uses
it: the entries of its run-time information, and the inference requests its
compiled form creates for the queue (`optimal_number_of_infer_requests` of
them, with the state variables the stateful passes add). The entry
chat_template of the run-time information may hold an `ov::AnyMap`; that map is
`chat_template_map`, and `rt_info` has then no entry of this name. The passes
and the compilation of the graph are not part of this program. -/
structure TokenizerModel where
  rt_info : AnyMap
  chat_template_map : Option AnyMap
  infer_requests : List InferRequest

/-- `ov::Model::has_rt_info(name)`. -/
def TokenizerModel.has_rt_info (model : TokenizerModel) (name : String) : Bool :=
  (model.rt_info.find name).isSome ||
    (decide (name = "chat_template") && model.chat_template_map.isSome)

/-- `parse_chat_template_from_tokenizer`: the new value of `value`. -/
def parse_chat_template_from_tokenizer (ov_tokenizer : TokenizerModel) (value : String) :
    String :=
  if ov_tokenizer.has_rt_info "chat_template" = false then value
  else
    match ov_tokenizer.rt_info.find "chat_template" with
    | some (Any.str chat_template_value) => chat_template_value
    | some _ => value
    | none =>
      match ov_tokenizer.chat_template_map with
      | none => value
      | some chat_template_map =>
        match chat_template_map.find "default" with
        | some (Any.str default_value) => default_value
        | _ => value

/-- Lines 409-411 of `setup_tokenizer(models)`: the ids of the special tokens
from the run-time information of the tokenizer graph. -/
def setup_token_ids (self : TokenizerImpl) (rt_info : AnyMap) :
    TokenizerImpl × Except Error Unit :=
  match find_or_fallback rt_info "pad_token_id" self.m_pad_token_id with
  | .error e => (self, .error e)
  | .ok pad_token_id =>
    let self1 := { self with m_pad_token_id := pad_token_id }
    match find_or_fallback rt_info "bos_token_id" self1.m_bos_token_id with
    | .error e => (self1, .error e)
    | .ok bos_token_id =>
      let self2 := { self1 with m_bos_token_id := bos_token_id }
      match find_or_fallback rt_info "eos_token_id" self2.m_eos_token_id with
      | .error e => (self2, .error e)
      | .ok eos_token_id => ({ self2 with m_eos_token_id := eos_token_id }, .ok ())

/-- Lines 413-421 of `setup_tokenizer(models)`: the template of the tokenizer
graph, its replacement from the table or else the simplified template of the
run-time information, and the patch. -/
def setup_chat_template (chat_template_fallback_map : FallbackMap) (self : TokenizerImpl)
    (ov_tokenizer : TokenizerModel) : TokenizerImpl × Except Error Unit :=
  let self1 := { self with
    m_chat_template := parse_chat_template_from_tokenizer ov_tokenizer self.m_chat_template }
  match remap_template chat_template_fallback_map self1.m_chat_template with
  | some fallback =>
    ({ self1 with m_chat_template := patch_template fallback }, .ok ())
  | none =>
    match find_or_fallback ov_tokenizer.rt_info "simplified_chat_template"
        self1.m_chat_template with
    | .error e => (self1, .error e)
    | .ok simplified => ({ self1 with m_chat_template := patch_template simplified }, .ok ())

/-- The part of `setup_tokenizer(models)` for a tokenizer graph (lines 394-425).
`slot` is the choice the queue makes for the warm-up call of `encode`. -/
def setup_tokenizer_graph (chat_template_fallback_map : FallbackMap) (B : Backend)
    (self : TokenizerImpl) (ov_tokenizer : TokenizerModel) (slot : Nat) :
    TokenizerImpl × Except Error Unit :=
  let self1 := { self with m_ireq_queue_tokenizer := some ov_tokenizer.infer_requests }
  let ids := setup_token_ids self1 ov_tokenizer.rt_info
  match ids.2 with
  | .error e => (ids.1, .error e)
  | .ok () =>
    let tpl := setup_chat_template chat_template_fallback_map ids.1 ov_tokenizer
    match tpl.2 with
    | .error e => (tpl.1, .error e)
    | .ok () =>
      let warm_up := TokenizerImpl.encode B tpl.1 slot "non empty string" []
      match warm_up.2 with
      | .error e => (warm_up.1, .error e)
      | .ok _ => (warm_up.1, .ok ())

/-- One of the lines 441-446: the string of a special token whose id is known
and whose string is not, decoded from the id without skipping special tokens. -/
def decode_special_token (B : Backend) (self : TokenizerImpl) (slot : Nat) (token_id : Int)
    (token : String) : TokenizerImpl × Except Error String :=
  if token_id ≠ -1 ∧ token = "" then
    TokenizerImpl.decode B self slot [token_id] [(skip_special_tokens_name, Any.bool false)]
  else (self, .ok token)

/-- The part of `setup_tokenizer(models)` for a detokenizer graph (lines
428-451), the vocabulary apart. `slots` gives the choices the queue makes for
the four calls of `decode`. -/
def setup_detokenizer_graph (B : Backend) (self : TokenizerImpl)
    (ov_detokenizer : TokenizerModel) (slots : Nat → Nat) : TokenizerImpl × Except Error Unit :=
  let self1 := { self with m_ireq_queue_detokenizer := some ov_detokenizer.infer_requests }
  let pad := decode_special_token B self1 (slots 0) self1.m_pad_token_id self1.m_pad_token
  match pad.2 with
  | .error e => (pad.1, .error e)
  | .ok pad_token =>
    let self2 := { pad.1 with m_pad_token := pad_token }
    let bos := decode_special_token B self2 (slots 1) self2.m_bos_token_id self2.m_bos_token
    match bos.2 with
    | .error e => (bos.1, .error e)
    | .ok bos_token =>
      let self3 := { bos.1 with m_bos_token := bos_token }
      let eos := decode_special_token B self3 (slots 2) self3.m_eos_token_id self3.m_eos_token
      match eos.2 with
      | .error e => (eos.1, .error e)
      | .ok eos_token =>
        let self4 := { eos.1 with m_eos_token := eos_token }
        let warm_up := TokenizerImpl.decode B self4 (slots 3) [1, 33, 199, 42, 42] []
        match warm_up.2 with
        | .error e => (warm_up.1, .error e)
        | .ok _ => (warm_up.1, .ok ())

/-- `TokenizerImpl::setup_tokenizer(models, properties)`; `none` is a null
pointer to a graph. `slot` and `slots` are the choices the queues make. -/
def TokenizerImpl.setup_tokenizer (chat_template_fallback_map : FallbackMap) (B : Backend)
    (self : TokenizerImpl) (models : Option TokenizerModel × Option TokenizerModel)
    (slot : Nat) (slots : Nat → Nat) : TokenizerImpl × Except Error Unit :=
  let ov_tokenizer := models.1
  let ov_detokenizer := models.2
  if ov_tokenizer.isNone ∧ ov_detokenizer.isNone then (self, .ok ())
  else if ¬ (ov_tokenizer.isSome ∨ ov_detokenizer.isSome) then (self, .error Error.no_models)
  else
    let versioned := if ov_tokenizer.isSome then ov_tokenizer else ov_detokenizer
    match versioned with
    | none => (self, .error (Error.null_dereference "has_rt_info"))
    | some graph =>
      let self1 := { self with
        m_older_than_24_5 := !graph.has_rt_info "openvino_tokenizers_version" }
      let tokenizer_part :=
        match ov_tokenizer with
        | none => (self1, Except.ok ())
        | some tokenizer =>
          setup_tokenizer_graph chat_template_fallback_map B self1 tokenizer slot
      match tokenizer_part.2 with
      | .error e => (tokenizer_part.1, .error e)
      | .ok () =>
        match ov_detokenizer with
        | none => (tokenizer_part.1, .ok ())
        | some detokenizer => setup_detokenizer_graph B tokenizer_part.1 detokenizer slots

/-- The constructor `TokenizerImpl(models, properties)`: the members with their
default initialisers, then `setup_tokenizer`. -/
def TokenizerImpl.from_models (chat_template_fallback_map : FallbackMap) (B : Backend)
    (models : Option TokenizerModel × Option TokenizerModel) (slot : Nat) (slots : Nat → Nat) :
    TokenizerImpl × Except Error Unit :=
  TokenizerImpl.setup_tokenizer chat_template_fallback_map B fresh_session models slot slots

/-- A tokenizer graph saved before 24.5: its run-time information has no entry
openvino_tokenizers_version. -/
def old_tokenizer_model : TokenizerModel :=
  { rt_info := [("eos_token_id", Any.i32 2)]
    chat_template_map := none
    infer_requests := [fresh_request] }

/-- A tokenizer graph whose run-time information holds a template that is a key
of the example table, and a simplified template. -/
def known_template_model : TokenizerModel :=
  { rt_info := [("chat_template", Any.str "\x7b\x7b messages \x7d\x7d"),
      ("openvino_tokenizers_version", Any.str "2025.1"),
      ("simplified_chat_template", Any.str "\x7b\x7b simple \x7d\x7d")]
    chat_template_map := none
    infer_requests := [fresh_request] }

/-- A tokenizer graph whose template is no key of the example table and whose
run-time information holds a simplified template. -/
def simplified_template_model : TokenizerModel :=
  { rt_info := [("chat_template", Any.str "\x7b\x7b other \x7d\x7d"),
      ("openvino_tokenizers_version", Any.str "2025.1"),
      ("simplified_chat_template", Any.str "\x7b\x7b simple \x7d\x7d")]
    chat_template_map := none
    infer_requests := [fresh_request] }

/-- A batch of two rows of different lengths. -/
def example_batch : List (List Int) := [[5, 6, 7], [8]]

/-- `value.contains("content") && value["content"] == token`, the condition on
an entry of `added_tokens_decoder` under which the loop assigns an id. -/
def content_is (value : Json) (token : String) : Bool :=
  match value.member "content" with
  | some content => content.eq_string token
  | none => false

/-- The id is what `std::stoi` reads from the key of an entry of the table whose
content equals the token string. -/
def assigned_from (items : List (String × Json)) (token : String) (id : Int) : Prop :=
  ∃ key value, (key, value) ∈ items ∧ content_is value token = true ∧ stoi key = .ok id

/-- The items of the table `added_tokens_decoder` of `tokenizer_config.json`;
none when the file or the table is missing. -/
def added_tokens_decoder_items (dir : ModelDir) : List (String × Json) :=
  match dir.tokenizer_config_json with
  | none => []
  | some data =>
    match data.member "added_tokens_decoder" with
    | none => []
    | some decoder => decoder.items

/-- A directory whose `tokenizer_config.json` names no special token and lists,
in `added_tokens_decoder`, an entry with the empty content under the key 5. -/
def empty_content_dir : ModelDir :=
  { config_json := none
    special_tokens_map_json := none
    tokenizer_config_json :=
      some (Json.object
        [("added_tokens_decoder",
           Json.object [("5", Json.object [("content", Json.string "")])])]) }

/-- A directory whose `tokenizer_config.json` gives the eos token "</s>" and
lists it in `added_tokens_decoder` under the key 7. -/
def eos_only_dir : ModelDir :=
  { config_json := none
    special_tokens_map_json := none
    tokenizer_config_json :=
      some (Json.object
        [("eos_token", Json.string "</s>"),
         ("added_tokens_decoder",
           Json.object [("7", Json.object [("content", Json.string "</s>")])])]) }

/-- The `while` loop of `patch_template` for one entry, run for at most `fuel`
evaluations of its condition, for any pattern: the text when the loop ends and
the number of replacements made, `none` when the loop has not ended by then. -/
def replace_steps (from_str to_str : List Char) :
    Nat → List Char → Nat → Option (List Char × Nat)
  | 0, _, _ => none
  | fuel + 1, chat_template, pos =>
    match string_find chat_template from_str pos with
    | none => some (chat_template, 0)
    | some found =>
      match replace_steps from_str to_str fuel
          (string_replace chat_template found from_str.length to_str)
          (found + to_str.length) with
      | none => none
      | some (result, rounds) => some (result, rounds + 1)

/-- The `for` loop of `patch_template` over the entries, each `while` loop run
for at most `fuel` evaluations of its condition. -/
def replace_entries_steps (fuel : Nat) : List (String × String) → List Char →
    Option (List Char)
  | [], chat_template => some chat_template
  | e :: rest, chat_template =>
    match replace_steps e.1.data e.2.data fuel chat_template 0 with
    | none => none
    | some (result, _) => replace_entries_steps fuel rest result

/-- `patch_template` with each `while` loop run for at most `fuel` evaluations of
its condition; `none` when one of the loops has not ended by then. -/
def patch_template_steps (fuel : Nat) (chat_template : String) : Option String :=
  (replace_entries_steps fuel replace_str_map chat_template.data).map String.mk

/-- A run of three option maps: max_length 16, max_length with a value of the
wrong type, and the empty map. -/
def example_history : List AnyMap :=
  [[("max_length", Any.i32 16)], [("max_length", Any.str "16")], []]

/-- A validation that accepts a graph only when each of its cache parameters has
the dynamic element type and four dynamic dimensions. -/
def validate_erased : Model → Except String Unit := fun model =>
  if model.m_parameters.all (fun p => !is_cache_param p ||
      (decide (p.element_type = ElementType.dynamic) &&
        decide (p.partial_shape = PartialShape.dynamic 4))) then .ok ()
  else .error "a cache parameter is not erased"

/-! ## Lemmas on std::map -/

namespace StdMap

variable {α : Type}

theorem find_assign_self (m : StdMap α) (k : String) (v : α) :
    (m.assign k v).find k = some v := by
  induction m with
  | nil => simp [assign, find]
  | cons kv m ih =>
    obtain ⟨k', v'⟩ := kv
    unfold assign
    by_cases h1 : k = k'
    · simp [h1, find]
    · by_cases h2 : key_lt k k' = true
      · simp [h1, h2, find]
      · have h3 : ¬ k' = k := fun h => h1 h.symm
        simp [h1, h2, find, h3, ih]

theorem find_assign_ne (m : StdMap α) (k k2 : String) (v : α) (h : k2 ≠ k) :
    (m.assign k v).find k2 = m.find k2 := by
  have hk : ¬ k = k2 := fun e => h e.symm
  induction m with
  | nil => simp [assign, find, hk]
  | cons kv m ih =>
    obtain ⟨k', v'⟩ := kv
    unfold assign
    by_cases h1 : k = k'
    · subst h1
      simp [find, hk]
    · by_cases h2 : key_lt k k' = true
      · simp [h1, h2, find, hk]
      · simp [h1, h2, find, ih]

theorem erase_cons (m : StdMap α) (k k' : String) (v' : α) :
    erase ((k', v') :: m) k = if k' = k then erase m k else (k', v') :: erase m k := by
  by_cases h : k' = k <;> simp [erase, List.filter_cons, h]

theorem find_erase_self (m : StdMap α) (k : String) : (m.erase k).find k = none := by
  induction m with
  | nil => simp [erase, find]
  | cons kv m ih =>
    obtain ⟨k', v'⟩ := kv
    rw [erase_cons]
    by_cases h1 : k' = k
    · simp [h1, ih]
    · simp [h1, find, ih]

theorem find_erase_ne (m : StdMap α) (k k2 : String) (h : k2 ≠ k) :
    (m.erase k).find k2 = m.find k2 := by
  induction m with
  | nil => simp [erase, find]
  | cons kv m ih =>
    obtain ⟨k', v'⟩ := kv
    rw [erase_cons]
    by_cases h1 : k' = k
    · subst h1
      have h3 : ¬ k' = k2 := fun e => h e.symm
      simp [find, ih, h3]
    · by_cases h4 : k' = k2
      · subst h4
        simp [h1, find]
      · simp [h1, find, h4, ih]

theorem erase_of_find_none (m : StdMap α) (k : String) (h : m.find k = none) :
    m.erase k = m := by
  induction m with
  | nil => simp [erase]
  | cons kv m ih =>
    obtain ⟨k', v'⟩ := kv
    rw [erase_cons]
    by_cases h1 : k' = k
    · simp [find, h1] at h
    · simp only [find, h1, if_false] at h
      simp [h1, ih h]

theorem mem_of_find (m : StdMap α) (k : String) (v : α) (h : m.find k = some v) :
    (k, v) ∈ m := by
  induction m with
  | nil => simp [find] at h
  | cons kv m ih =>
    obtain ⟨k', v'⟩ := kv
    by_cases h1 : k' = k
    · simp [find, h1] at h
      simp [h1, h]
    · simp only [find, h1, if_false] at h
      exact List.mem_cons_of_mem _ (ih h)

theorem all_assign (p : String × α → Bool) (m : StdMap α) (k : String) (v : α)
    (hm : m.all p = true) (hv : p (k, v) = true) : (m.assign k v).all p = true := by
  induction m with
  | nil => simp [assign, hv]
  | cons kv m ih =>
    obtain ⟨k', v'⟩ := kv
    simp only [List.all_cons, Bool.and_eq_true] at hm
    unfold assign
    by_cases h1 : k = k'
    · simp [h1, hm.2]
      simpa [h1] using hv
    · by_cases h2 : key_lt k k' = true
      · simp [h1, h2, hv, hm.1]
        simpa using hm.2
      · simp [h1, h2, hm.1]
        simpa using ih hm.2

theorem all_erase (p : String × α → Bool) (m : StdMap α) (k : String)
    (hm : m.all p = true) : (m.erase k).all p = true := by
  simp only [erase, List.all_eq_true] at hm ⊢
  intro x hx
  exact hm x (List.mem_of_mem_filter hx)

theorem lex_lt_irrefl : ∀ a : List Nat, lex_lt a a = false
  | [] => rfl
  | x :: xs => by simp [lex_lt, lex_lt_irrefl xs]

theorem lex_lt_trans : ∀ a b c : List Nat, lex_lt a b = true → lex_lt b c = true →
    lex_lt a c = true
  | [], [], _, h, _ => by simp [lex_lt] at h
  | [], _ :: _, [], _, h => by simp [lex_lt] at h
  | [], _ :: _, _ :: _, _, _ => by simp [lex_lt]
  | _ :: _, [], _, h, _ => by simp [lex_lt] at h
  | _ :: _, _ :: _, [], _, h => by simp [lex_lt] at h
  | x :: xs, y :: ys, z :: zs, h1, h2 => by
    simp only [lex_lt, Bool.or_eq_true, Bool.and_eq_true, decide_eq_true_eq] at h1 h2 ⊢
    rcases h1 with h1 | ⟨e1, t1⟩
    · rcases h2 with h2 | ⟨e2, _⟩
      · exact Or.inl (lt_trans h1 h2)
      · exact Or.inl (e2 ▸ h1)
    · rcases h2 with h2 | ⟨e2, t2⟩
      · exact Or.inl (e1 ▸ h2)
      · exact Or.inr ⟨e1.trans e2, lex_lt_trans xs ys zs t1 t2⟩

theorem lex_lt_total : ∀ a b : List Nat, lex_lt a b = false → lex_lt b a = false → a = b
  | [], [], _, _ => rfl
  | [], _ :: _, h, _ => by simp [lex_lt] at h
  | _ :: _, [], _, h => by simp [lex_lt] at h
  | x :: xs, y :: ys, h1, h2 => by
    simp only [lex_lt, Bool.or_eq_false_iff, Bool.and_eq_false_iff, decide_eq_false_iff_not,
      not_lt] at h1 h2
    have hxy : x = y := le_antisymm h2.1 h1.1
    subst hxy
    have t1 : lex_lt xs ys = false := by
      rcases h1.2 with h | h
      · exact absurd rfl h
      · exact h
    have t2 : lex_lt ys xs = false := by
      rcases h2.2 with h | h
      · exact absurd rfl h
      · exact h
    rw [lex_lt_total xs ys t1 t2]

theorem key_lt_irrefl (a : String) : key_lt a a = false := lex_lt_irrefl _

theorem key_lt_trans (a b c : String) (h1 : key_lt a b = true) (h2 : key_lt b c = true) :
    key_lt a c = true := lex_lt_trans _ _ _ h1 h2

theorem char_toNat_injective : Function.Injective Char.toNat := by
  intro c d h
  apply Char.ext
  apply UInt32.ext
  exact h

theorem key_lt_total (a b : String) (h1 : key_lt a b = false) (h2 : key_lt b a = false) :
    a = b := by
  have h := lex_lt_total _ _ h1 h2
  exact String.ext (List.map_injective_iff.mpr char_toNat_injective h)

theorem ordered_nil : ordered ([] : StdMap α) := List.Pairwise.nil

theorem mem_assign (m : StdMap α) (k : String) (v : α) (x : String × α)
    (hx : x ∈ m.assign k v) : x = (k, v) ∨ x ∈ m := by
  induction m with
  | nil =>
    simp only [assign, List.mem_singleton] at hx
    exact Or.inl hx
  | cons kv m ih =>
    obtain ⟨k', v'⟩ := kv
    unfold assign at hx
    by_cases h1 : k = k'
    · simp only [h1, if_true, List.mem_cons] at hx
      rcases hx with hx | hx
      · exact Or.inl (by rw [hx, h1])
      · exact Or.inr (List.mem_cons_of_mem _ hx)
    · by_cases h2 : key_lt k k' = true
      · simp only [h1, h2, if_false, if_true, List.mem_cons] at hx
        rcases hx with hx | hx | hx
        · exact Or.inl hx
        · exact Or.inr (hx ▸ List.mem_cons_self _ _)
        · exact Or.inr (List.mem_cons_of_mem _ hx)
      · have h2' : key_lt k k' = false := by simpa using h2
        simp only [h1, h2', if_false, List.mem_cons, Bool.false_eq_true] at hx
        rcases hx with hx | hx
        · exact Or.inr (hx ▸ List.mem_cons_self _ _)
        · rcases ih hx with h | h
          · exact Or.inl h
          · exact Or.inr (List.mem_cons_of_mem _ h)

theorem ordered_assign (m : StdMap α) (k : String) (v : α) (h : ordered m) :
    ordered (m.assign k v) := by
  induction m with
  | nil => simp [assign, ordered]
  | cons kv m ih =>
    obtain ⟨k', v'⟩ := kv
    unfold ordered at h ih ⊢
    rw [List.pairwise_cons] at h
    unfold assign
    by_cases h1 : k = k'
    · simp only [h1, if_true]
      exact List.pairwise_cons.mpr ⟨h.1, h.2⟩
    · by_cases h2 : key_lt k k' = true
      · simp only [h1, h2, if_false, if_true]
        refine List.pairwise_cons.mpr ⟨?_, List.pairwise_cons.mpr ⟨h.1, h.2⟩⟩
        intro x hx
        rcases List.mem_cons.mp hx with hx | hx
        · rw [hx]
          exact h2
        · exact key_lt_trans _ _ _ h2 (h.1 x hx)
      · simp only [h1, h2, if_false]
        refine List.pairwise_cons.mpr ⟨?_, ih h.2⟩
        intro x hx
        rcases mem_assign m k v x hx with hx | hx
        · rw [hx]
          by_contra hc
          exact h1 (key_lt_total k k' (by simpa using h2) (by simpa using hc))
        · exact h.1 x hx

theorem ordered_erase (m : StdMap α) (k : String) (h : ordered m) : ordered (m.erase k) :=
  List.Pairwise.filter _ h

end StdMap

/-! ## Lemmas on the flag synchronisation -/

theorem AnyCast.toAny_injective {T : Type} [AnyCast T] (v w : T)
    (h : (AnyCast.toAny v : Any) = AnyCast.toAny w) : v = w := by
  have h1 := AnyCast.ofAny_toAny v
  rw [h, AnyCast.ofAny_toAny w] at h1
  exact (Option.some.inj h1).symm

theorem set_state_value_eq {T : Type} [AnyCast T] [DecidableEq T] (s : VariableState)
    (value : Option T) (flags : AnyMap)
    (hty : ∀ a, flags.find s.name = some a → ∃ l : T, AnyCast.toAny l = a)
    (hsz : s.get_size = 1) :
    set_state_value s value flags = .ok (apply_value s (value.map AnyCast.toAny) flags) := by
  unfold set_state_value read_anymap_param apply_value
  cases hfind : flags.find s.name with
  | none =>
    cases value with
    | none => simp
    | some v => simp [hsz]
  | some a =>
    obtain ⟨l, hl⟩ := hty a hfind
    subst hl
    simp only [AnyCast.ofAny_toAny]
    cases value with
    | none => simp
    | some v =>
      by_cases hvl : v = l
      · subst hvl
        simp
      · have hne : ¬ (AnyCast.toAny l : Any) = AnyCast.toAny v := fun e =>
          hvl (AnyCast.toAny_injective l v e).symm
        simp [hvl, hsz, hne]

theorem find_apply_value_self (s : VariableState) (value : Option Any) (flags : AnyMap) :
    (apply_value s value flags).2.find s.name = value := by
  unfold apply_value
  cases value with
  | none => simp [StdMap.find_erase_self]
  | some v =>
    by_cases h : flags.find s.name = some v
    · simp [h]
    · simp [h, StdMap.find_assign_self]

theorem find_apply_value_ne (s : VariableState) (value : Option Any) (flags : AnyMap)
    (n : String) (hn : n ≠ s.name) :
    (apply_value s value flags).2.find n = flags.find n := by
  unfold apply_value
  cases value with
  | none => simp [StdMap.find_erase_ne _ _ _ hn]
  | some v =>
    by_cases h : flags.find s.name = some v
    · simp [h]
    · simp [h, StdMap.find_assign_ne _ _ _ _ hn]

theorem apply_value_fst_congr (s : VariableState) (value : Option Any) (f1 f2 : AnyMap)
    (h : f1.find s.name = f2.find s.name) :
    (apply_value s value f1).1 = (apply_value s value f2).1 := by
  unfold apply_value
  cases value with
  | none => rfl
  | some v =>
    rw [h]
    by_cases h2 : f2.find s.name = some v <;> simp [h2]

theorem synced_congr (vals : StateValues) (s : VariableState) (f1 f2 : AnyMap)
    (h : f1.find s.name = f2.find s.name) : synced vals f1 s = synced vals f2 s := by
  unfold synced
  cases requested vals s.name with
  | none => rfl
  | some value => exact apply_value_fst_congr s value f1 f2 h

theorem names_distinct :
    add_special_tokens_name ≠ skip_special_tokens_name ∧
    add_special_tokens_name ≠ MAX_LENGTH_VAR_ID ∧
    add_special_tokens_name ≠ PAD_TO_MAX_LENGTH_VAR_ID ∧
    add_special_tokens_name ≠ IS_MAX_LENGTH_SET ∧
    skip_special_tokens_name ≠ MAX_LENGTH_VAR_ID ∧
    skip_special_tokens_name ≠ PAD_TO_MAX_LENGTH_VAR_ID ∧
    skip_special_tokens_name ≠ IS_MAX_LENGTH_SET ∧
    MAX_LENGTH_VAR_ID ≠ PAD_TO_MAX_LENGTH_VAR_ID ∧
    MAX_LENGTH_VAR_ID ≠ IS_MAX_LENGTH_SET ∧
    PAD_TO_MAX_LENGTH_VAR_ID ≠ IS_MAX_LENGTH_SET := by
  decide

theorem requested_type_ok (vals : StateValues) (n : String) (v : Any)
    (h : requested vals n = some (some v)) : state_flag_type_ok n v = true := by
  obtain ⟨h1, h2, h3, h4, h5, h6, h7, h8, h9, h10⟩ := names_distinct
  unfold requested at h
  unfold state_flag_type_ok
  by_cases e1 : n = add_special_tokens_name
  · subst e1
    simp only [if_true, Option.some.injEq, Option.map_eq_some'] at h
    obtain ⟨b, -, rfl⟩ := h
    simp
  · by_cases e2 : n = skip_special_tokens_name
    · subst e2
      simp only [e1, if_false, if_true, Option.some.injEq, Option.map_eq_some'] at h
      obtain ⟨b, -, rfl⟩ := h
      simp
    · by_cases e3 : n = MAX_LENGTH_VAR_ID
      · subst e3
        simp only [e1, e2, if_false, if_true, Option.some.injEq, Option.map_eq_some'] at h
        obtain ⟨b, -, rfl⟩ := h
        simp [e1, e2, h8, h9]
      · by_cases e4 : n = PAD_TO_MAX_LENGTH_VAR_ID
        · subst e4
          simp only [e1, e2, e3, if_false, if_true, Option.some.injEq, Option.map_eq_some'] at h
          obtain ⟨b, -, rfl⟩ := h
          simp
        · by_cases e5 : n = IS_MAX_LENGTH_SET
          · subst e5
            simp only [e1, e2, e3, e4, if_false, if_true, Option.some.injEq,
              Option.map_eq_some'] at h
            obtain ⟨b, -, rfl⟩ := h
            simp
          · simp [e1, e2, e3, e4, e5] at h

theorem well_typed_flags_find (flags : AnyMap) (h : well_typed_flags flags = true)
    (n : String) (a : Any) (hf : flags.find n = some a) : state_flag_type_ok n a = true := by
  unfold well_typed_flags at h
  rw [List.all_eq_true] at h
  exact h (n, a) (StdMap.mem_of_find flags n a hf)

theorem well_typed_apply_value (vals : StateValues) (s : VariableState) (value : Option Any)
    (flags : AnyMap) (h : well_typed_flags flags = true)
    (hr : requested vals s.name = some value) :
    well_typed_flags (apply_value s value flags).2 = true := by
  unfold apply_value
  cases value with
  | none => exact StdMap.all_erase _ flags s.name h
  | some v =>
    by_cases hf : flags.find s.name = some v
    · simpa [hf] using h
    · simp only [hf, if_false]
      exact StdMap.all_assign _ flags s.name v h (requested_type_ok vals s.name v hr)

theorem bool_of_type_ok (n : String) (a : Any)
    (hn : n = add_special_tokens_name ∨ n = skip_special_tokens_name
      ∨ n = PAD_TO_MAX_LENGTH_VAR_ID ∨ n = IS_MAX_LENGTH_SET)
    (h : state_flag_type_ok n a = true) : ∃ b : Bool, (AnyCast.toAny b : Any) = a := by
  unfold state_flag_type_ok at h
  rw [if_pos hn] at h
  cases a with
  | bool b => exact ⟨b, rfl⟩
  | i32 i => simp at h
  | str t => simp at h

theorem int_of_type_ok (a : Any) (h : state_flag_type_ok MAX_LENGTH_VAR_ID a = true) :
    ∃ i : Int, (AnyCast.toAny i : Any) = a := by
  unfold state_flag_type_ok at h
  rw [if_neg (by decide), if_pos rfl] at h
  cases a with
  | bool b => simp at h
  | i32 i => exact ⟨i, rfl⟩
  | str t => simp at h

theorem set_state_for_eq (vals : StateValues) (s : VariableState) (flags : AnyMap)
    (hw : well_typed_flags flags = true) (hsz : recognised s.name = true → s.get_size = 1) :
    set_state_for vals s flags = .ok (match requested vals s.name with
      | some value => apply_value s value flags
      | none => (s, flags)) := by
  have hty := well_typed_flags_find flags hw s.name
  unfold set_state_for requested
  by_cases e1 : s.name = add_special_tokens_name
  · rw [if_pos e1, if_pos e1]
    exact set_state_value_eq s _ flags
      (fun a ha => bool_of_type_ok _ a (Or.inl e1) (hty a ha)) (hsz (by simp [recognised, e1]))
  · rw [if_neg e1, if_neg e1]
    by_cases e2 : s.name = skip_special_tokens_name
    · rw [if_pos e2, if_pos e2]
      exact set_state_value_eq s _ flags
        (fun a ha => bool_of_type_ok _ a (Or.inr (Or.inl e2)) (hty a ha))
        (hsz (by simp [recognised, e2]))
    · rw [if_neg e2, if_neg e2]
      by_cases e3 : s.name = MAX_LENGTH_VAR_ID
      · rw [if_pos e3, if_pos e3]
        exact set_state_value_eq s _ flags
          (fun a ha => int_of_type_ok a (e3 ▸ hty a ha)) (hsz (by simp [recognised, e3]))
      · rw [if_neg e3, if_neg e3]
        by_cases e4 : s.name = PAD_TO_MAX_LENGTH_VAR_ID
        · rw [if_pos e4, if_pos e4]
          exact set_state_value_eq s _ flags
            (fun a ha => bool_of_type_ok _ a (Or.inr (Or.inr (Or.inl e4))) (hty a ha))
            (hsz (by simp [recognised, e4]))
        · rw [if_neg e4, if_neg e4]
          by_cases e5 : s.name = IS_MAX_LENGTH_SET
          · rw [if_pos e5, if_pos e5]
            exact set_state_value_eq s _ flags
              (fun a ha => bool_of_type_ok _ a (Or.inr (Or.inr (Or.inr e5))) (hty a ha))
              (hsz (by simp [recognised, e5]))
          · rw [if_neg e5, if_neg e5]

/-- The loop of `set_state_if_necessary` on a well-formed request: every
variable is synchronised against the flag map the loop started with, the loop
raises nothing, and the final flag map holds the requested value under each
recognised name the request exposes and the old entries elsewhere. -/
theorem set_states_eq (vals : StateValues) :
    ∀ (states : List VariableState) (flags : AnyMap),
      (states.map VariableState.name).Nodup →
      well_typed_flags flags = true →
      (∀ s ∈ states, recognised s.name = true → s.get_size = 1) →
      ∃ flags', set_states vals states flags = ((states.map (synced vals flags), flags'), .ok ())
        ∧ well_typed_flags flags' = true
        ∧ (∀ s ∈ states, ∀ value, requested vals s.name = some value →
            flags'.find s.name = value)
        ∧ (∀ n, (n ∉ states.map VariableState.name ∨ requested vals n = none) →
            flags'.find n = flags.find n) := by
  intro states
  induction states with
  | nil =>
    intro flags _ hw _
    exact ⟨flags, rfl, hw, by simp, by simp⟩
  | cons s rest ih =>
    intro flags hnd hw hsz
    rw [List.map_cons, List.nodup_cons] at hnd
    have hstep := set_state_for_eq vals s flags hw (hsz s (List.mem_cons_self _ _))
    cases hreq : requested vals s.name with
    | none =>
      rw [hreq] at hstep
      obtain ⟨flags', h1, h2, h3, h4⟩ := ih flags hnd.2 hw
        (fun t ht => hsz t (List.mem_cons_of_mem _ ht))
      refine ⟨flags', ?_, h2, ?_, ?_⟩
      · simp [set_states, hstep, h1, synced, hreq]
      · intro t ht value hv
        rcases List.mem_cons.mp ht with rfl | ht
        · rw [hreq] at hv
          exact absurd hv (by simp)
        · exact h3 t ht value hv
      · intro n hn
        apply h4
        rcases hn with hn | hn
        · left
          intro hmem
          exact hn (by simp [hmem])
        · exact Or.inr hn
    | some value =>
      rw [hreq] at hstep
      have hw1 := well_typed_apply_value vals s value flags hw hreq
      obtain ⟨flags', h1, h2, h3, h4⟩ := ih (apply_value s value flags).2 hnd.2 hw1
        (fun t ht => hsz t (List.mem_cons_of_mem _ ht))
      have hrest : ∀ t ∈ rest, t.name ≠ s.name := by
        intro t ht e
        exact hnd.1 (e ▸ List.mem_map_of_mem _ ht)
      have hmap : rest.map (synced vals (apply_value s value flags).2)
          = rest.map (synced vals flags) := by
        apply List.map_congr_left
        intro t ht
        exact synced_congr vals t _ _ (find_apply_value_ne s value flags t.name (hrest t ht))
      have hself : flags'.find s.name = value := by
        rw [h4 s.name (Or.inl hnd.1)]
        exact find_apply_value_self s value flags
      refine ⟨flags', ?_, h2, ?_, ?_⟩
      · simp [set_states, hstep, h1, hmap, synced, hreq]
      · intro t ht value' hv
        rcases List.mem_cons.mp ht with rfl | ht
        · rw [hreq] at hv
          rw [hself]
          exact Option.some.inj hv
        · exact h3 t ht value' hv
      · intro n hn
        by_cases hns : n = s.name
        · subst hns
          rcases hn with hn | hn
          · exact absurd (by simp) hn
          · rw [hreq] at hn
            exact absurd hn (by simp)
        · have hn' : n ∉ rest.map VariableState.name ∨ requested vals n = none := by
            rcases hn with hn | hn
            · left
              intro hmem
              exact hn (by simp [hmem])
            · exact Or.inr hn
          rw [h4 n hn']
          exact find_apply_value_ne s value flags n hns

theorem set_state_value_ok {T : Type} [AnyCast T] [DecidableEq T] (s : VariableState)
    (value : Option T) (flags : AnyMap) (r : VariableState × AnyMap)
    (h : set_state_value s value flags = .ok r) :
    r = apply_value s (value.map AnyCast.toAny) flags := by
  unfold set_state_value read_anymap_param at h
  unfold apply_value
  cases hfind : flags.find s.name with
  | none =>
    rw [hfind] at h
    cases value with
    | none =>
      simp at h
      simp [h]
    | some v =>
      by_cases hsz : s.get_size = 1
      · simp [hsz] at h
        simp [h]
      · simp [hsz] at h
  | some a =>
    rw [hfind] at h
    cases hcast : (AnyCast.ofAny a : Option T) with
    | none => simp [hcast] at h
    | some l =>
      have hl := AnyCast.toAny_ofAny a l hcast
      subst hl
      simp only [hcast] at h
      cases value with
      | none =>
        simp at h
        simp [h]
      | some v =>
        by_cases hvl : v = l
        · subst hvl
          simp at h
          simp [h]
        · have hne : ¬ (AnyCast.toAny l : Any) = AnyCast.toAny v := fun e =>
            hvl (AnyCast.toAny_injective l v e).symm
          by_cases hsz : s.get_size = 1
          · simp [hvl, hsz] at h
            simp [hne, h]
          · simp [hvl, hsz] at h

theorem set_state_value_stable {T : Type} [AnyCast T] [DecidableEq T] (s : VariableState)
    (value : Option T) (flags : AnyMap)
    (hf : flags.find s.name = value.map AnyCast.toAny) :
    set_state_value s value flags = .ok (apply_value s (value.map AnyCast.toAny) flags) := by
  unfold set_state_value read_anymap_param apply_value
  rw [hf]
  cases value with
  | none => simp
  | some v => simp [AnyCast.ofAny_toAny]

theorem apply_value_stable (s : VariableState) (value : Option Any) (flags : AnyMap)
    (hf : flags.find s.name = value) :
    (apply_value s value flags).2 = flags ∧
      (apply_value s value flags).1 = (if value = none then s.reset else s) := by
  unfold apply_value
  cases value with
  | none => simp [StdMap.erase_of_find_none flags s.name hf]
  | some v => simp [hf]

theorem set_state_for_cases (vals : StateValues) (s : VariableState) (flags : AnyMap) :
    (requested vals s.name = none ∧ set_state_for vals s flags = .ok (s, flags)) ∨
    (∃ value : Option Bool, requested vals s.name = some (value.map AnyCast.toAny) ∧
      set_state_for vals s flags = set_state_value s value flags) ∨
    (∃ value : Option Int, requested vals s.name = some (value.map AnyCast.toAny) ∧
      set_state_for vals s flags = set_state_value s value flags) := by
  unfold set_state_for requested
  by_cases e1 : s.name = add_special_tokens_name
  · rw [if_pos e1, if_pos e1]
    exact Or.inr (Or.inl ⟨vals.add_special_tokens_flag, rfl, rfl⟩)
  · rw [if_neg e1, if_neg e1]
    by_cases e2 : s.name = skip_special_tokens_name
    · rw [if_pos e2, if_pos e2]
      exact Or.inr (Or.inl ⟨vals.skip_special_tokens_flag, rfl, rfl⟩)
    · rw [if_neg e2, if_neg e2]
      by_cases e3 : s.name = MAX_LENGTH_VAR_ID
      · rw [if_pos e3, if_pos e3]
        exact Or.inr (Or.inr ⟨vals.max_length_val, rfl, rfl⟩)
      · rw [if_neg e3, if_neg e3]
        by_cases e4 : s.name = PAD_TO_MAX_LENGTH_VAR_ID
        · rw [if_pos e4, if_pos e4]
          exact Or.inr (Or.inl ⟨vals.pad_to_max_length_val, rfl, rfl⟩)
        · rw [if_neg e4, if_neg e4]
          by_cases e5 : s.name = IS_MAX_LENGTH_SET
          · rw [if_pos e5, if_pos e5]
            exact Or.inr (Or.inl ⟨vals.is_max_length_set_val, rfl, rfl⟩)
          · rw [if_neg e5, if_neg e5]
            exact Or.inl ⟨rfl, rfl⟩

/-- A step of the loop that does not raise is `apply_value` with the requested
value (or nothing, for a name that is not recognised). -/
theorem set_state_for_ok (vals : StateValues) (s : VariableState) (flags : AnyMap)
    (r : VariableState × AnyMap) (h : set_state_for vals s flags = .ok r) :
    r = (match requested vals s.name with
      | some value => apply_value s value flags
      | none => (s, flags)) := by
  rcases set_state_for_cases vals s flags with ⟨h1, h2⟩ | ⟨value, h1, h2⟩ | ⟨value, h1, h2⟩
  · rw [h2] at h
    rw [h1]
    exact (Except.ok.inj h).symm
  · rw [h2] at h
    rw [h1]
    exact set_state_value_ok s value flags r h
  · rw [h2] at h
    rw [h1]
    exact set_state_value_ok s value flags r h

/-- A step of the loop on a variable whose recorded value is already the
requested one raises nothing and leaves the flag map as it is. -/
theorem set_state_for_stable (vals : StateValues) (s : VariableState) (flags : AnyMap)
    (value : Option Any) (hr : requested vals s.name = some value)
    (hf : flags.find s.name = value) :
    set_state_for vals s flags = .ok (if value = none then s.reset else s, flags) := by
  have hst := apply_value_stable s value flags hf
  have hval : apply_value s value flags = (if value = none then s.reset else s, flags) :=
    Prod.ext hst.2 hst.1
  rcases set_state_for_cases vals s flags with ⟨h1, _⟩ | ⟨value', h1, h2⟩ | ⟨value', h1, h2⟩
  · rw [hr] at h1
    exact absurd h1 (by simp)
  · rw [hr] at h1
    have e := Option.some.inj h1
    subst e
    rw [h2, set_state_value_stable s value' flags hf, hval]
  · rw [hr] at h1
    have e := Option.some.inj h1
    subst e
    rw [h2, set_state_value_stable s value' flags hf, hval]

theorem apply_value_fst (s : VariableState) (value : Option Any) (flags : AnyMap) :
    (apply_value s value flags).1.name = s.name ∧
      (apply_value s value flags).1.shape = s.shape ∧
      s.set_calls ≤ (apply_value s value flags).1.set_calls ∧
      (apply_value s value flags).1.set_calls ≤ s.set_calls + 1 := by
  unfold apply_value
  cases value with
  | none => simp [VariableState.reset]
  | some v =>
    by_cases h : flags.find s.name = some v <;> simp [h, VariableState.set_state]

/-- What a step that does not raise does to the name, the shape and the
`set_state` counter of the variable. -/
theorem set_state_for_fst (vals : StateValues) (s : VariableState) (flags : AnyMap)
    (r : VariableState × AnyMap) (h : set_state_for vals s flags = .ok r) :
    r.1.name = s.name ∧ r.1.shape = s.shape ∧ s.set_calls ≤ r.1.set_calls ∧
      r.1.set_calls ≤ s.set_calls + 1 := by
  have hr := set_state_for_ok vals s flags r h
  subst hr
  cases requested vals s.name with
  | none => simp
  | some value => exact apply_value_fst s value flags

/-- An entry that already holds the requested value holds it after a step. -/
theorem set_state_for_keeps (vals : StateValues) (s : VariableState) (flags : AnyMap)
    (r : VariableState × AnyMap) (h : set_state_for vals s flags = .ok r)
    (n : String) (value : Option Any) (hr : requested vals n = some value)
    (hf : flags.find n = value) : r.2.find n = value := by
  have hr2 := set_state_for_ok vals s flags r h
  subst hr2
  by_cases hn : n = s.name
  · subst hn
    rw [hr]
    exact find_apply_value_self s value flags
  · cases hreq : requested vals s.name with
    | none => simpa using hf
    | some value' =>
      simp only
      rw [find_apply_value_ne s value' flags n hn]
      exact hf

theorem set_states_keeps (vals : StateValues) (n : String) (value : Option Any)
    (hr : requested vals n = some value) :
    ∀ (states : List VariableState) (flags : AnyMap), flags.find n = value →
      (set_states vals states flags).1.2.find n = value := by
  intro states
  induction states with
  | nil =>
    intro flags hf
    simpa [set_states] using hf
  | cons s rest ih =>
    intro flags hf
    unfold set_states
    cases hstep : set_state_for vals s flags with
    | error e => simpa using hf
    | ok r =>
      obtain ⟨s', flags'⟩ := r
      simp only
      exact ih flags' (set_state_for_keeps vals s flags (s', flags') hstep n value hr hf)

/-- The variables after the loop, position by position: same name and shape, and
at most one more call of `set_state`. -/
theorem set_states_fst (vals : StateValues) :
    ∀ (states : List VariableState) (flags : AnyMap),
      List.Forall₂ (fun s s' => s'.name = s.name ∧ s'.shape = s.shape ∧
          s.set_calls ≤ s'.set_calls ∧ s'.set_calls ≤ s.set_calls + 1)
        states (set_states vals states flags).1.1 := by
  intro states
  induction states with
  | nil =>
    intro flags
    simp [set_states]
  | cons s rest ih =>
    intro flags
    unfold set_states
    cases hstep : set_state_for vals s flags with
    | error e =>
      simp only
      exact List.forall₂_same.mpr (fun x _ => ⟨rfl, rfl, le_refl _, Nat.le_succ _⟩)
    | ok r =>
      obtain ⟨s', flags'⟩ := r
      simp only
      exact List.Forall₂.cons (set_state_for_fst vals s flags (s', flags') hstep) (ih flags')

/-- Running the loop a second time, on what the first run left: the flag map
and the outcome are those of the first run, and no variable sees a further
call of `set_state` or holds another value. -/
theorem set_states_twice (vals : StateValues) :
    ∀ (states : List VariableState) (flags : AnyMap),
      ∃ states2,
        set_states vals (set_states vals states flags).1.1 (set_states vals states flags).1.2
          = ((states2, (set_states vals states flags).1.2), (set_states vals states flags).2)
        ∧ List.Forall₂ (fun s1 s2 => s2.name = s1.name ∧ s2.set_calls = s1.set_calls ∧
            s2.state = s1.state) (set_states vals states flags).1.1 states2 := by
  intro states
  induction states with
  | nil =>
    intro flags
    exact ⟨[], by simp [set_states], by simp [set_states]⟩
  | cons s rest ih =>
    intro flags
    cases hstep : set_state_for vals s flags with
    | error e =>
      refine ⟨s :: rest, ?_, ?_⟩
      · simp [set_states, hstep]
      · simp only [set_states, hstep]
        exact List.forall₂_same.mpr (fun x _ => ⟨rfl, rfl, rfl⟩)
    | ok r =>
      obtain ⟨s', flags'⟩ := r
      obtain ⟨states2, h1, h2⟩ := ih flags'
      have hr := set_state_for_ok vals s flags (s', flags') hstep
      have hname := (set_state_for_fst vals s flags (s', flags') hstep).1
      simp only at hname
      cases hreq : requested vals s.name with
      | none =>
        rw [hreq] at hr
        have hs : s' = s := congrArg Prod.fst hr
        subst hs
        have hstep2 : set_state_for vals s' (set_states vals rest flags').1.2
            = .ok (s', (set_states vals rest flags').1.2) := by
          rcases set_state_for_cases vals s' (set_states vals rest flags').1.2 with
            ⟨_, h⟩ | ⟨v, h, _⟩ | ⟨v, h, _⟩
          · exact h
          · rw [hreq] at h
            exact absurd h (by simp)
          · rw [hreq] at h
            exact absurd h (by simp)
        refine ⟨s' :: states2, ?_, ?_⟩
        · simp [set_states, hstep, hstep2, h1]
        · simp only [set_states, hstep]
          exact List.Forall₂.cons ⟨rfl, rfl, rfl⟩ h2
      | some value =>
        rw [hreq] at hr
        simp only at hr
        have hf : flags'.find s.name = value := by
          have := find_apply_value_self s value flags
          rw [← hr] at this
          exact this
        have hkeep := set_states_keeps vals s.name value hreq rest flags' hf
        have hstep2 := set_state_for_stable vals s' (set_states vals rest flags').1.2 value
          (by rw [hname]; exact hreq) (by rw [hname]; exact hkeep)
        refine ⟨(if value = none then s'.reset else s') :: states2, ?_, ?_⟩
        · simp [set_states, hstep, hstep2, h1]
        · simp only [set_states, hstep]
          refine List.Forall₂.cons ?_ h2
          by_cases hv : value = none
          · subst hv
            have hs : s' = s.reset := by
              have := congrArg Prod.fst hr
              simpa [apply_value] using this
            simp [hs, VariableState.reset]
          · simp [hv]

theorem forall₂_chain {α β γ : Type} {R : α → β → Prop} {S : β → γ → Prop}
    {Q : α → γ → Prop} (hQ : ∀ a b c, R a b → S b c → Q a c) :
    ∀ (l1 : List α) (l2 : List β) (l3 : List γ),
      List.Forall₂ R l1 l2 → List.Forall₂ S l2 l3 → List.Forall₂ Q l1 l3 := by
  intro l1 l2 l3 h1
  induction h1 generalizing l3 with
  | nil =>
    intro h2
    cases h2
    exact List.Forall₂.nil
  | cons hab _ ih =>
    intro h2
    cases h2 with
    | cons hbc h2' => exact List.Forall₂.cons (hQ _ _ _ hab hbc) (ih _ h2')

theorem RequestFlags.entry_put (m : RequestFlags) (id : Nat) (flags : AnyMap) :
    (m.put id flags).entry id = flags := by
  simp [RequestFlags.put, RequestFlags.entry]

theorem RequestFlags.put_put (m : RequestFlags) (id : Nat) (flags : AnyMap) :
    (m.put id flags).put id flags = m.put id flags := by
  funext i
  by_cases h : i = id <;> simp [RequestFlags.put, h]

theorem read_anymap_param_ok {T : Type} [AnyCast T] (m : AnyMap) (n : String)
    (p x : Option T) (h : read_anymap_param m n p = .ok x) :
    (m.find n = none → x = p) ∧ (∀ a, m.find n = some a → x.map AnyCast.toAny = some a) := by
  unfold read_anymap_param at h
  cases hf : m.find n with
  | none =>
    rw [hf] at h
    simp only at h
    exact ⟨fun _ => (Except.ok.inj h).symm, fun a ha => by simp at ha⟩
  | some a =>
    rw [hf] at h
    simp only at h
    cases hc : (AnyCast.ofAny a : Option T) with
    | none => simp [hc] at h
    | some v =>
      rw [hc] at h
      simp only at h
      have hx : x = some v := (Except.ok.inj h).symm
      refine ⟨fun hn => by simp at hn, fun a' ha' => ?_⟩
      have : a' = a := (Option.some.inj ha').symm
      subst this
      rw [hx]
      simp [AnyCast.toAny_ofAny a' v hc]

/-- When the option map is read without a failed cast, the requested values are
those `option_request` describes. -/
theorem requested_of_options (params : AnyMap) (vals : StateValues)
    (h : read_state_values params = .ok vals) (n : String) :
    requested vals n = option_request params n := by
  unfold read_state_values at h
  cases h1 : (read_anymap_param params add_special_tokens_name (some true) :
      Except Error (Option Bool)) with
  | error e => simp [h1] at h
  | ok x1 =>
    cases h2 : (read_anymap_param params skip_special_tokens_name (some true) :
        Except Error (Option Bool)) with
    | error e => simp [h1, h2] at h
    | ok x2 =>
      cases h3 : (read_anymap_param params pad_to_max_length_name (some false) :
          Except Error (Option Bool)) with
      | error e => simp [h1, h2, h3] at h
      | ok x3 =>
        cases h4 : (read_anymap_param params max_length_name (none : Option Int) :
            Except Error (Option Int)) with
        | error e => simp [h1, h2, h3, h4] at h
        | ok x4 =>
          simp only [h1, h2, h3, h4] at h
          have hv := (Except.ok.inj h).symm
          subst hv
          have r1 := read_anymap_param_ok _ _ _ _ h1
          have r2 := read_anymap_param_ok _ _ _ _ h2
          have r3 := read_anymap_param_ok _ _ _ _ h3
          have r4 := read_anymap_param_ok _ _ _ _ h4
          have e1 : x1.map Any.bool
              = some ((params.find add_special_tokens_name).getD (Any.bool true)) := by
            cases hf : params.find add_special_tokens_name with
            | none => simp [r1.1 hf]
            | some a => simpa using r1.2 a hf
          have e2 : x2.map Any.bool
              = some ((params.find skip_special_tokens_name).getD (Any.bool true)) := by
            cases hf : params.find skip_special_tokens_name with
            | none => simp [r2.1 hf]
            | some a => simpa using r2.2 a hf
          have e3 : x3.map Any.bool
              = some ((params.find pad_to_max_length_name).getD (Any.bool false)) := by
            cases hf : params.find pad_to_max_length_name with
            | none => simp [r3.1 hf]
            | some a => simpa using r3.2 a hf
          have e4 : x4.map Any.i32 = params.find max_length_name := by
            cases hf : params.find max_length_name with
            | none => simp [r4.1 hf]
            | some a => simpa using r4.2 a hf
          have e5 : x4.isSome = (params.find max_length_name).isSome := by
            rw [← e4]
            cases x4 <;> rfl
          unfold requested option_request
          simp only [e1, e2, e3, e4, e5, Option.map_some']

theorem well_typed_options_find (params : AnyMap) (h : well_typed_options params = true)
    (n : String) (a : Any) (hf : params.find n = some a) : option_type_ok n a = true := by
  unfold well_typed_options at h
  rw [List.all_eq_true] at h
  exact h (n, a) (StdMap.mem_of_find params n a hf)

theorem read_bool_option (params : AnyMap) (h : well_typed_options params = true)
    (n : String) (hn : n = add_special_tokens_name ∨ n = skip_special_tokens_name
      ∨ n = pad_to_max_length_name) (p : Option Bool) :
    ∃ x, read_anymap_param params n p = .ok x := by
  unfold read_anymap_param
  cases hf : params.find n with
  | none => exact ⟨p, rfl⟩
  | some a =>
    have ht := well_typed_options_find params h n a hf
    unfold option_type_ok at ht
    rw [if_pos hn] at ht
    cases a with
    | bool b => exact ⟨some b, rfl⟩
    | i32 i => simp at ht
    | str t => simp at ht

theorem read_int_option (params : AnyMap) (h : well_typed_options params = true)
    (p : Option Int) : ∃ x, read_anymap_param params max_length_name p = .ok x := by
  unfold read_anymap_param
  cases hf : params.find max_length_name with
  | none => exact ⟨p, rfl⟩
  | some a =>
    have ht := well_typed_options_find params h max_length_name a hf
    unfold option_type_ok at ht
    rw [if_neg (by decide), if_pos rfl] at ht
    cases a with
    | bool b => simp at ht
    | i32 i => exact ⟨some i, rfl⟩
    | str t => simp at ht

/-- A well-typed option map is read without a failed cast. -/
theorem read_state_values_typed (params : AnyMap) (h : well_typed_options params = true) :
    ∃ vals, read_state_values params = .ok vals := by
  obtain ⟨x1, h1⟩ := read_bool_option params h add_special_tokens_name (Or.inl rfl) (some true)
  obtain ⟨x2, h2⟩ := read_bool_option params h skip_special_tokens_name (Or.inr (Or.inl rfl))
    (some true)
  obtain ⟨x3, h3⟩ := read_bool_option params h pad_to_max_length_name (Or.inr (Or.inr rfl))
    (some false)
  obtain ⟨x4, h4⟩ := read_int_option params h none
  unfold read_state_values
  rw [h1, h2, h3, h4]
  exact ⟨_, rfl⟩

theorem apply_value_ordered (s : VariableState) (value : Option Any) (flags : AnyMap)
    (h : flags.ordered) : (apply_value s value flags).2.ordered := by
  unfold apply_value
  cases value with
  | none => exact StdMap.ordered_erase flags s.name h
  | some v =>
    by_cases hf : flags.find s.name = some v
    · simpa [hf] using h
    · simp only [hf, if_false]
      exact StdMap.ordered_assign flags s.name v h

theorem set_states_ordered (vals : StateValues) :
    ∀ (states : List VariableState) (flags : AnyMap), flags.ordered →
      (set_states vals states flags).1.2.ordered := by
  intro states
  induction states with
  | nil =>
    intro flags h
    simpa [set_states] using h
  | cons s rest ih =>
    intro flags h
    unfold set_states
    cases hstep : set_state_for vals s flags with
    | error e => simpa using h
    | ok r =>
      obtain ⟨s', flags'⟩ := r
      simp only
      apply ih
      have hr := set_state_for_ok vals s flags (s', flags') hstep
      have hfl : flags' = (match requested vals s.name with
          | some value => apply_value s value flags
          | none => (s, flags)).2 := congrArg Prod.snd hr
      rw [hfl]
      cases requested vals s.name with
      | none => exact h
      | some value => exact apply_value_ordered s value flags h

/-- The synchronisation on a well-formed request with a well-typed flag map, for
an option map that is read without a failed cast: it raises nothing, every
variable is `synced`, and the flag map of the request holds the requested value
under each recognised name the request exposes and its old entries elsewhere. -/
theorem set_state_if_necessary_eq_read (self : TokenizerImpl) (req : InferRequest)
    (params : AnyMap) (vals : StateValues) (h24 : self.m_older_than_24_5 = false)
    (hreq : well_formed_request req) (hvals : read_state_values params = .ok vals)
    (hf : well_typed_flags (self.m_request_to_state_flags.entry req.id) = true) :
    ∃ flags',
      (∀ n, requested vals n = option_request params n) ∧
      set_state_if_necessary self req params
        = (({ self with
                m_request_to_state_flags := self.m_request_to_state_flags.put req.id flags' },
            { req with states :=
                (req.states.map (synced vals (self.m_request_to_state_flags.entry req.id))) }),
           .ok ()) ∧
      well_typed_flags flags' = true ∧
      (∀ s ∈ req.states, ∀ value, requested vals s.name = some value →
        flags'.find s.name = value) ∧
      (∀ n, (n ∉ req.states.map VariableState.name ∨ requested vals n = none) →
        flags'.find n = (self.m_request_to_state_flags.entry req.id).find n) ∧
      ((self.m_request_to_state_flags.entry req.id).ordered → flags'.ordered) := by
  obtain ⟨flags', h1, h2, h3, h4⟩ := set_states_eq vals req.states
    (self.m_request_to_state_flags.entry req.id) hreq.1 hf hreq.2
  refine ⟨flags', requested_of_options params vals hvals, ?_, h2, h3, h4, ?_⟩
  · unfold set_state_if_necessary
    simp [h24, hvals, h1]
  · intro ho
    have := set_states_ordered vals req.states (self.m_request_to_state_flags.entry req.id) ho
    rw [h1] at this
    exact this

/-- The synchronisation on a well-formed request, with well-typed options and a
well-typed flag map: it raises nothing, every variable is `synced`, and the
flag map of the request holds the requested value under each recognised name
the request exposes and its old entries elsewhere. -/
theorem set_state_if_necessary_eq (self : TokenizerImpl) (req : InferRequest)
    (params : AnyMap) (h24 : self.m_older_than_24_5 = false) (hreq : well_formed_request req)
    (hp : well_typed_options params = true)
    (hf : well_typed_flags (self.m_request_to_state_flags.entry req.id) = true) :
    ∃ vals flags',
      (∀ n, requested vals n = option_request params n) ∧
      set_state_if_necessary self req params
        = (({ self with
                m_request_to_state_flags := self.m_request_to_state_flags.put req.id flags' },
            { req with states :=
                (req.states.map (synced vals (self.m_request_to_state_flags.entry req.id))) }),
           .ok ()) ∧
      well_typed_flags flags' = true ∧
      (∀ s ∈ req.states, ∀ value, requested vals s.name = some value →
        flags'.find s.name = value) ∧
      (∀ n, (n ∉ req.states.map VariableState.name ∨ requested vals n = none) →
        flags'.find n = (self.m_request_to_state_flags.entry req.id).find n) ∧
      ((self.m_request_to_state_flags.entry req.id).ordered → flags'.ordered) := by
  obtain ⟨vals, hvals⟩ := read_state_values_typed params hp
  exact ⟨vals, set_state_if_necessary_eq_read self req params vals h24 hreq hvals hf⟩

/-- C1 (as amended): on a well-formed request of a tokenizer that is not older
than 24.5, with well-typed options and flag map, the synchronisation raises
nothing and, for each of the variables add_special_tokens,
skip_special_tokens, max_length and pad_to_max_length the request exposes:
a value supplied by the caller is recorded, and is set on the variable exactly
when it differs from the recorded one (or none is recorded); an omitted
max_length resets the variable and removes its entry; an omitted switch
counts as its default (true, true, false), which is recorded and set like a
supplied value. -/
theorem C1_flag_synchronisation (self : TokenizerImpl) (req : InferRequest) (params : AnyMap)
    (h24 : self.m_older_than_24_5 = false) (hreq : well_formed_request req)
    (hp : well_typed_options params = true)
    (hf : well_typed_flags (self.m_request_to_state_flags.entry req.id) = true) :
    ∃ self' req',
      set_state_if_necessary self req params = ((self', req'), .ok ()) ∧
      req'.states.length = req.states.length ∧
      ∀ (i : Nat) (s : VariableState), req.states[i]? = some s →
        ∃ s', req'.states[i]? = some s' ∧
        ∀ var key dflt,
          (var, key, dflt) ∈
            [(add_special_tokens_name, add_special_tokens_name, some true),
             (skip_special_tokens_name, skip_special_tokens_name, some true),
             (MAX_LENGTH_VAR_ID, max_length_name, none),
             (PAD_TO_MAX_LENGTH_VAR_ID, pad_to_max_length_name, some false)] →
          s.name = var →
          (∀ v, params.find key = some v →
            (self'.m_request_to_state_flags.entry req.id).find var = some v ∧
            ((self.m_request_to_state_flags.entry req.id).find var ≠ some v →
              s' = s.set_state v) ∧
            ((self.m_request_to_state_flags.entry req.id).find var = some v → s' = s)) ∧
          (params.find key = none →
            match dflt with
            | none => s' = s.reset ∧
                (self'.m_request_to_state_flags.entry req.id).find var = none
            | some d =>
              (self'.m_request_to_state_flags.entry req.id).find var = some (Any.bool d) ∧
              ((self.m_request_to_state_flags.entry req.id).find var ≠ some (Any.bool d) →
                s' = s.set_state (Any.bool d)) ∧
              ((self.m_request_to_state_flags.entry req.id).find var = some (Any.bool d) →
                s' = s)) := by
  obtain ⟨vals, flags', hreqd, hrun, _, hfind, _, _⟩ :=
    set_state_if_necessary_eq self req params h24 hreq hp hf
  obtain ⟨d1, d2, d3, d4, d5, d6, d7, d8, d9, d10⟩ := names_distinct
  refine ⟨_, _, hrun, by simp, ?_⟩
  intro i s hs
  have hmem : s ∈ req.states := List.getElem?_mem hs
  refine ⟨synced vals (self.m_request_to_state_flags.entry req.id) s, by simp [hs], ?_⟩
  intro var key dflt hvar hname
  simp only [RequestFlags.entry_put]
  -- what is requested for this variable, and what follows from it
  have key_fact : ∀ value, option_request params s.name = some value →
      flags'.find var = value ∧
      synced vals (self.m_request_to_state_flags.entry req.id) s
        = (apply_value s value (self.m_request_to_state_flags.entry req.id)).1 := by
    intro value hv
    rw [← hreqd] at hv
    refine ⟨hname ▸ hfind s hmem value hv, ?_⟩
    simp [synced, hv]
  have some_fact : ∀ v, option_request params s.name = some (some v) →
      flags'.find var = some v ∧
      ((self.m_request_to_state_flags.entry req.id).find var ≠ some v →
        synced vals (self.m_request_to_state_flags.entry req.id) s = s.set_state v) ∧
      ((self.m_request_to_state_flags.entry req.id).find var = some v →
        synced vals (self.m_request_to_state_flags.entry req.id) s = s) := by
    intro v hv
    obtain ⟨k1, k2⟩ := key_fact (some v) hv
    refine ⟨k1, ?_, ?_⟩
    · intro hne
      rw [k2]
      rw [← hname] at hne
      simp [apply_value, hne]
    · intro he
      rw [k2]
      rw [← hname] at he
      simp [apply_value, he]
  simp only [List.mem_cons, Prod.mk.injEq, List.mem_singleton, List.not_mem_nil, or_false] at hvar
  rcases hvar with ⟨rfl, rfl, rfl⟩ | ⟨rfl, rfl, rfl⟩ | ⟨rfl, rfl, rfl⟩ | ⟨rfl, rfl, rfl⟩
  · have hopt : option_request params s.name
        = some (some ((params.find add_special_tokens_name).getD (Any.bool true))) := by
      simp [option_request, hname]
    refine ⟨fun v hv => ?_, fun hv => ?_⟩
    · rw [hv] at hopt
      exact some_fact v hopt
    · rw [hv] at hopt
      exact some_fact _ hopt
  · have hopt : option_request params s.name
        = some (some ((params.find skip_special_tokens_name).getD (Any.bool true))) := by
      simp [option_request, hname, d1.symm]
    refine ⟨fun v hv => ?_, fun hv => ?_⟩
    · rw [hv] at hopt
      exact some_fact v hopt
    · rw [hv] at hopt
      exact some_fact _ hopt
  · have hopt : option_request params s.name = some (params.find max_length_name) := by
      simp [option_request, hname, d2.symm, d5.symm]
    refine ⟨fun v hv => ?_, fun hv => ?_⟩
    · rw [hv] at hopt
      exact some_fact v hopt
    · rw [hv] at hopt
      obtain ⟨k1, k2⟩ := key_fact none hopt
      exact ⟨by rw [k2]; simp [apply_value], k1⟩
  · have hopt : option_request params s.name
        = some (some ((params.find pad_to_max_length_name).getD (Any.bool false))) := by
      simp [option_request, hname, d3.symm, d6.symm, d8.symm]
    refine ⟨fun v hv => ?_, fun hv => ?_⟩
    · rw [hv] at hopt
      exact some_fact v hopt
    · rw [hv] at hopt
      exact some_fact _ hopt

/-- C1 (counterexample): on a fresh request, a synchronisation whose option map
omits add_special_tokens does not reset the add_special_tokens variable and
does not leave its entry out of the flag map: the variable is set to true by
one call of set_state and true is recorded. -/
theorem C1_omitted_switch_is_set :
    StdMap.find ([] : AnyMap) add_special_tokens_name = none ∧
    (set_state_if_necessary fresh_session fresh_request []).2 = .ok () ∧
    (set_state_if_necessary fresh_session fresh_request []).1.2.states[0]?
      = some { name := "add_special_tokens", shape := [], state := some (Any.bool true),
               set_calls := 1, reset_calls := 0 } ∧
    (set_state_if_necessary fresh_session fresh_request []).1.2.states[0]?
      ≠ fresh_request.states[0]?.map VariableState.reset ∧
    ((set_state_if_necessary fresh_session fresh_request []).1.1.m_request_to_state_flags.entry
        fresh_request.id).find add_special_tokens_name ≠ none := by
  decide

theorem fresh_request_well_formed : well_formed_request fresh_request := by
  unfold well_formed_request
  decide

/-- C1 (witness): the amended statement applied to a fresh request and the
option map that sets add_special_tokens to false. -/
theorem C1_flag_synchronisation_witness :
    fresh_session.m_older_than_24_5 = false ∧ well_formed_request fresh_request ∧
    well_typed_options [("add_special_tokens", Any.bool false)] = true ∧
    well_typed_flags (fresh_session.m_request_to_state_flags.entry fresh_request.id) = true ∧
    ∃ self' req',
      set_state_if_necessary fresh_session fresh_request [("add_special_tokens", Any.bool false)]
        = ((self', req'), .ok ()) ∧
      req'.states.length = fresh_request.states.length := by
  refine ⟨rfl, fresh_request_well_formed, by decide, by decide, ?_⟩
  obtain ⟨self', req', h1, h2, _⟩ := C1_flag_synchronisation fresh_session fresh_request
    [("add_special_tokens", Any.bool false)] rfl fresh_request_well_formed (by decide) (by decide)
  exact ⟨self', req', h1, h2⟩

/-- The parts of the result of a synchronisation that is not skipped and whose
option map is read without a failed cast. -/
theorem set_state_if_necessary_parts (self : TokenizerImpl) (req : InferRequest)
    (params : AnyMap) (vals : StateValues) (h24 : self.m_older_than_24_5 = false)
    (hvals : read_state_values params = .ok vals) :
    (set_state_if_necessary self req params).1.1.m_request_to_state_flags
      = self.m_request_to_state_flags.put req.id
          (set_states vals req.states (self.m_request_to_state_flags.entry req.id)).1.2 ∧
    (set_state_if_necessary self req params).1.1.m_older_than_24_5 = false ∧
    (set_state_if_necessary self req params).1.2.id = req.id ∧
    (set_state_if_necessary self req params).1.2.states
      = (set_states vals req.states (self.m_request_to_state_flags.entry req.id)).1.1 ∧
    (set_state_if_necessary self req params).2
      = (set_states vals req.states (self.m_request_to_state_flags.entry req.id)).2 := by
  simp [set_state_if_necessary, h24, hvals]

/-- C2: for every session, request and option map, a second synchronisation with
the same option map right after the first leaves the per-request flag maps as
the first run left them, calls set_state on no variable, and ends as the first
run ended; over the two runs every variable sees at most one call of
set_state. -/
theorem C2_synchronisation_idempotent (self : TokenizerImpl) (req : InferRequest)
    (params : AnyMap) :
    (set_state_if_necessary (set_state_if_necessary self req params).1.1
        (set_state_if_necessary self req params).1.2 params).1.1.m_request_to_state_flags
      = (set_state_if_necessary self req params).1.1.m_request_to_state_flags ∧
    (set_state_if_necessary (set_state_if_necessary self req params).1.1
        (set_state_if_necessary self req params).1.2 params).2
      = (set_state_if_necessary self req params).2 ∧
    List.Forall₂ (fun s1 s2 => s2.name = s1.name ∧ s2.set_calls = s1.set_calls ∧
        s2.state = s1.state)
      (set_state_if_necessary self req params).1.2.states
      (set_state_if_necessary (set_state_if_necessary self req params).1.1
        (set_state_if_necessary self req params).1.2 params).1.2.states ∧
    List.Forall₂ (fun s s2 => s2.name = s.name ∧ s2.set_calls ≤ s.set_calls + 1)
      req.states
      (set_state_if_necessary (set_state_if_necessary self req params).1.1
        (set_state_if_necessary self req params).1.2 params).1.2.states := by
  by_cases h24 : self.m_older_than_24_5 = true
  · have h1 : set_state_if_necessary self req params = ((self, req), .ok ()) := by
      simp [set_state_if_necessary, h24]
    rw [h1]
    dsimp only
    rw [h1]
    exact ⟨rfl, rfl, List.forall₂_same.mpr (fun _ _ => ⟨rfl, rfl, rfl⟩),
      List.forall₂_same.mpr (fun _ _ => ⟨rfl, Nat.le_succ _⟩)⟩
  · cases hvals : read_state_values params with
    | error e =>
      have h1 : set_state_if_necessary self req params = ((self, req), .error e) := by
        simp [set_state_if_necessary, h24, hvals]
      rw [h1]
      dsimp only
      rw [h1]
      exact ⟨rfl, rfl, List.forall₂_same.mpr (fun _ _ => ⟨rfl, rfl, rfl⟩),
        List.forall₂_same.mpr (fun _ _ => ⟨rfl, Nat.le_succ _⟩)⟩
    | ok vals =>
      have h24' : self.m_older_than_24_5 = false := by simpa using h24
      obtain ⟨states2, h2, h3⟩ := set_states_twice vals req.states
        (self.m_request_to_state_flags.entry req.id)
      have hfst := set_states_fst vals req.states (self.m_request_to_state_flags.entry req.id)
      obtain ⟨a1, a2, a3, a4, a5⟩ := set_state_if_necessary_parts self req params vals h24' hvals
      obtain ⟨b1, _, _, b4, b5⟩ := set_state_if_necessary_parts
        (set_state_if_necessary self req params).1.1
        (set_state_if_necessary self req params).1.2 params vals a2 hvals
      rw [a1, a3, a4, RequestFlags.entry_put, h2] at b1 b4 b5
      rw [b1, b4, b5, a1, a4, a5]
      refine ⟨RequestFlags.put_put _ _ _, rfl, h3, ?_⟩
      exact forall₂_chain (fun a b c hab hbc => ⟨hbc.1.trans hab.1, by
        rw [hbc.2.1]
        exact hab.2.2.2⟩) _ _ _ hfst h3

theorem option_request_none_iff (params : AnyMap) (n : String) :
    option_request params n = none ↔ recognised n = false := by
  unfold option_request
  by_cases e1 : n = add_special_tokens_name
  · rw [if_pos e1]
    simp [recognised, e1]
  · rw [if_neg e1]
    by_cases e2 : n = skip_special_tokens_name
    · rw [if_pos e2]
      simp [recognised, e2]
    · rw [if_neg e2]
      by_cases e3 : n = MAX_LENGTH_VAR_ID
      · rw [if_pos e3]
        simp [recognised, e3]
      · rw [if_neg e3]
        by_cases e4 : n = PAD_TO_MAX_LENGTH_VAR_ID
        · rw [if_pos e4]
          simp [recognised, e4]
        · rw [if_neg e4]
          by_cases e5 : n = IS_MAX_LENGTH_SET
          · rw [if_pos e5]
            simp [recognised, e5]
          · rw [if_neg e5]
            simp [recognised, e1, e2, e3, e4, e5]

theorem synced_name_shape (vals : StateValues) (flags : AnyMap) (s : VariableState) :
    (synced vals flags s).name = s.name ∧ (synced vals flags s).shape = s.shape := by
  unfold synced
  cases requested vals s.name with
  | none => exact ⟨rfl, rfl⟩
  | some value =>
    have := apply_value_fst s value flags
    exact ⟨this.1, this.2.1⟩

/-- A variable that holds what the flag map records holds the requested value
after the synchronisation. -/
theorem synced_state (vals : StateValues) (flags : AnyMap) (s : VariableState)
    (value : Option Any) (hr : requested vals s.name = some value)
    (hc : s.state = flags.find s.name) : (synced vals flags s).state = value := by
  unfold synced
  rw [hr]
  simp only [apply_value]
  cases value with
  | none => rfl
  | some v =>
    by_cases hf : flags.find s.name = some v
    · simp [hf, hc]
    · simp [hf, VariableState.set_state]

/-- One synchronisation from a coherent request, for an option map that is read
without a failed cast: it raises nothing and leaves a coherent request with the
same identity and names, in which every variable holds the requested value and
the flag map records exactly the requested values of the request's variables. -/
theorem set_state_if_necessary_coherent_read (self : TokenizerImpl) (req : InferRequest)
    (params : AnyMap) (vals : StateValues) (h24 : self.m_older_than_24_5 = false)
    (hvals : read_state_values params = .ok vals)
    (hc : coherent req (self.m_request_to_state_flags.entry req.id)) :
    (set_state_if_necessary self req params).2 = .ok () ∧
    (set_state_if_necessary self req params).1.1.m_older_than_24_5 = false ∧
    (set_state_if_necessary self req params).1.2.id = req.id ∧
    (set_state_if_necessary self req params).1.2.states.map VariableState.name
      = req.states.map VariableState.name ∧
    coherent (set_state_if_necessary self req params).1.2
      ((set_state_if_necessary self req params).1.1.m_request_to_state_flags.entry req.id) ∧
    (∀ s ∈ (set_state_if_necessary self req params).1.2.states,
      s.state = (option_request params s.name).join) ∧
    (∀ n, ((set_state_if_necessary self req params).1.1.m_request_to_state_flags.entry
        req.id).find n
      = if n ∈ req.states.map VariableState.name then (option_request params n).join
        else none) := by
  obtain ⟨hwf, hty, hord, hrec, hunrec, hkeys⟩ := hc
  obtain ⟨flags', hreqd, hrun, hty', hfind, hother, hord'⟩ :=
    set_state_if_necessary_eq_read self req params vals h24 hwf hvals hty
  rw [hrun]
  simp only [RequestFlags.entry_put]
  have hnames : (req.states.map
      (synced vals (self.m_request_to_state_flags.entry req.id))).map VariableState.name
      = req.states.map VariableState.name := by
    rw [List.map_map]
    apply List.map_congr_left
    intro s _
    exact (synced_name_shape vals _ s).1
  have hstate : ∀ s ∈ req.states,
      (synced vals (self.m_request_to_state_flags.entry req.id) s).state
        = (option_request params s.name).join := by
    intro s hs
    cases hr : requested vals s.name with
    | none =>
      have hrn : recognised s.name = false := by
        rw [← option_request_none_iff params, ← hreqd]
        exact hr
      rw [← hreqd, hr]
      simp only [synced, hr, Option.join]
      exact hunrec s hs hrn
    | some value =>
      have hrn : recognised s.name = true := by
        by_contra hcon
        have : recognised s.name = false := by simpa using hcon
        rw [← option_request_none_iff params, ← hreqd, hr] at this
        exact absurd this (by simp)
      rw [← hreqd, hr]
      simp only [Option.join]
      exact synced_state vals _ s value hr (hrec s hs hrn)
  have hflags : ∀ n, flags'.find n
      = if n ∈ req.states.map VariableState.name then (option_request params n).join
        else none := by
    intro n
    by_cases hn : n ∈ req.states.map VariableState.name
    · rw [if_pos hn]
      obtain ⟨s, hs, rfl⟩ := List.mem_map.mp hn
      cases hr : requested vals s.name with
      | none =>
        rw [hother s.name (Or.inr hr), ← hreqd, hr]
        simp only [Option.join]
        apply hkeys
        right
        rw [← option_request_none_iff params, ← hreqd]
        exact hr
      | some value =>
        rw [hfind s hs value hr, ← hreqd, hr]
        rfl
    · rw [if_neg hn, hother n (Or.inl hn)]
      exact hkeys n (Or.inl hn)
  refine ⟨trivial, h24, trivial, hnames, ⟨⟨?_, ?_⟩, hty', hord' hord, ?_, ?_, ?_⟩, ?_, hflags⟩
  · show ((req.states.map _).map VariableState.name).Nodup
    rw [hnames]
    exact hwf.1
  · intro s' hs' hr'
    obtain ⟨s, hs, rfl⟩ := List.mem_map.mp hs'
    have := synced_name_shape vals (self.m_request_to_state_flags.entry req.id) s
    unfold VariableState.get_size
    rw [this.2]
    rw [this.1] at hr'
    exact hwf.2 s hs hr'
  · intro s' hs' hr'
    obtain ⟨s, hs, rfl⟩ := List.mem_map.mp hs'
    have hn := (synced_name_shape vals (self.m_request_to_state_flags.entry req.id) s).1
    rw [hstate s hs, hn, hflags s.name, if_pos (List.mem_map_of_mem _ hs)]
  · intro s' hs' hr'
    obtain ⟨s, hs, rfl⟩ := List.mem_map.mp hs'
    have hn := (synced_name_shape vals (self.m_request_to_state_flags.entry req.id) s).1
    rw [hn] at hr'
    rw [hstate s hs, (option_request_none_iff params s.name).mpr hr']
    rfl
  · intro n hn
    rw [hflags n]
    show (if n ∈ req.states.map VariableState.name then _ else _) = _
    rcases hn with hn | hn
    · have hn' : n ∉ req.states.map VariableState.name := by
        intro hmem
        apply hn
        show n ∈ (req.states.map _).map VariableState.name
        rw [hnames]
        exact hmem
      rw [if_neg hn']
    · rw [(option_request_none_iff params n).mpr hn]
      simp [Option.join]
  · intro s' hs'
    obtain ⟨s, hs, rfl⟩ := List.mem_map.mp hs'
    have hn := (synced_name_shape vals (self.m_request_to_state_flags.entry req.id) s).1
    rw [hstate s hs, hn]

/-- A request whose variables are all in their reset state and for which no
flag map has been created yet is coherent with the empty flag map. -/
theorem coherent_fresh (self : TokenizerImpl) (req : InferRequest)
    (hflags : self.m_request_to_state_flags req.id = none) (hwf : well_formed_request req)
    (hstates : ∀ s ∈ req.states, s.state = none) :
    coherent req (self.m_request_to_state_flags.entry req.id) := by
  have he : self.m_request_to_state_flags.entry req.id = [] := by
    simp [RequestFlags.entry, hflags]
  rw [he]
  refine ⟨hwf, rfl, StdMap.ordered_nil, ?_, ?_, ?_⟩
  · intro s hs _
    rw [hstates s hs]
    rfl
  · intro s hs _
    exact hstates s hs
  · intro n _
    rfl

/-- The call encode(text, {add_special_tokens: false}) issued twice on the same
request: the numbers of set_state calls per variable after the first call are
those after the second. -/
theorem encode_twice_sets_once :
    ((TokenizerImpl.encode example_backend ready_session 0 "text"
        [("add_special_tokens", Any.bool false)]).1.m_ireq_queue_tokenizer.map
      (fun queue => queue.map (fun req => req.states.map (fun s => (s.name, s.set_calls)))))
      = some [[("add_special_tokens", 1), ("max_length", 0), ("pad_to_max_length", 1),
          ("is_max_length_set", 1)]] ∧
    ((TokenizerImpl.encode example_backend
        (TokenizerImpl.encode example_backend ready_session 0 "text"
          [("add_special_tokens", Any.bool false)]).1 0 "text"
        [("add_special_tokens", Any.bool false)]).1.m_ireq_queue_tokenizer.map
      (fun queue => queue.map (fun req => req.states.map (fun s => (s.name, s.set_calls)))))
      = some [[("add_special_tokens", 1), ("max_length", 0), ("pad_to_max_length", 1),
          ("is_max_length_set", 1)]] := by
  decide

theorem check_arguments_ok_iff (parameters : AnyMap) (allowed : List String) :
    check_arguments parameters allowed = .ok () ↔
      ∀ key ∈ StdMap.keys parameters, key ∈ allowed := by
  induction parameters with
  | nil => simp [check_arguments, StdMap.keys]
  | cons kv rest ih =>
    obtain ⟨key, value⟩ := kv
    unfold check_arguments
    by_cases h : key ∈ allowed
    · rw [if_pos h, ih]
      simp [StdMap.keys, h]
    · rw [if_neg h]
      simp [StdMap.keys, h]

theorem check_arguments_error (parameters : AnyMap) (allowed : List String)
    (h : ∃ key ∈ StdMap.keys parameters, key ∉ allowed) :
    ∃ key, key ∈ StdMap.keys parameters ∧ key ∉ allowed ∧
      check_arguments parameters allowed = .error (Error.unacceptable_key key) := by
  induction parameters with
  | nil =>
    obtain ⟨key, hk, _⟩ := h
    simp [StdMap.keys] at hk
  | cons kv rest ih =>
    obtain ⟨key, value⟩ := kv
    unfold check_arguments
    by_cases hkey : key ∈ allowed
    · rw [if_pos hkey]
      obtain ⟨k, hk, hna⟩ := h
      have hk' : k ∈ StdMap.keys rest := by
        simp only [StdMap.keys, List.map_cons, List.mem_cons] at hk
        rcases hk with hk | hk
        · exact absurd (hk ▸ hkey) hna
        · exact hk
      obtain ⟨k2, m2, n2, e2⟩ := ih ⟨k, hk', hna⟩
      exact ⟨k2, by simp only [StdMap.keys, List.map_cons]; exact List.mem_cons_of_mem _ m2,
        n2, e2⟩
    · rw [if_neg hkey]
      exact ⟨key, by simp [StdMap.keys], hkey, rfl⟩

/-- C4: check_arguments raises exactly when some key of the option map is not
among the allowed names. The encode overloads check against
add_special_tokens, max_length, pad_to_max_length and the decode overloads
against skip_special_tokens, before anything else: with a key that is not
allowed, each of them raises unacceptable_key and returns the session (its
queues of requests, their state variables, the per-request flag maps) as it
received it. -/
theorem C4_option_allow_list (B : Backend) (m_pimpl : TokenizerImpl) (slot : Nat)
    (params : AnyMap) (allowed : List String) (prompt : String) (prompts prompts_2 : List String)
    (pairs : List (String × String)) (tokens : List Int) (tensor : Tensor)
    (lines : List (List Int)) :
    ((∃ e, check_arguments params allowed = .error e) ↔
      ∃ key ∈ StdMap.keys params, key ∉ allowed) ∧
    encode_argnames = ["add_special_tokens", "max_length", "pad_to_max_length"] ∧
    decode_argnames = ["skip_special_tokens"] ∧
    ((∃ key ∈ StdMap.keys params, key ∉ encode_argnames) →
      ∃ key, key ∈ StdMap.keys params ∧ key ∉ encode_argnames ∧
        Tokenizer.encode B m_pimpl slot prompt params
          = (m_pimpl, .error (Error.unacceptable_key key)) ∧
        Tokenizer.encode_pairs B m_pimpl slot pairs params
          = (m_pimpl, .error (Error.unacceptable_key key)) ∧
        Tokenizer.encode_two B m_pimpl slot prompts prompts_2 params
          = (m_pimpl, .error (Error.unacceptable_key key)) ∧
        Tokenizer.encode_batch B m_pimpl slot prompts params
          = (m_pimpl, .error (Error.unacceptable_key key)) ∧
        Tokenizer.encode_initializer_list B m_pimpl slot prompts params
          = (m_pimpl, .error (Error.unacceptable_key key))) ∧
    ((∃ key ∈ StdMap.keys params, key ∉ decode_argnames) →
      ∃ key, key ∈ StdMap.keys params ∧ key ∉ decode_argnames ∧
        Tokenizer.decode B m_pimpl slot tokens params
          = (m_pimpl, .error (Error.unacceptable_key key)) ∧
        Tokenizer.decode_tensor B m_pimpl slot tensor params
          = (m_pimpl, .error (Error.unacceptable_key key)) ∧
        Tokenizer.decode_batch B m_pimpl slot lines params
          = (m_pimpl, .error (Error.unacceptable_key key))) := by
  refine ⟨⟨?_, ?_⟩, rfl, rfl, ?_, ?_⟩
  · rintro ⟨e, he⟩
    by_contra hcon
    have hall : ∀ key ∈ StdMap.keys params, key ∈ allowed := by
      intro key hk
      by_contra hna
      exact hcon ⟨key, hk, hna⟩
    rw [(check_arguments_ok_iff params allowed).mpr hall] at he
    exact absurd he (by simp)
  · intro h
    obtain ⟨key, _, _, he⟩ := check_arguments_error params allowed h
    exact ⟨_, he⟩
  · intro h
    obtain ⟨key, hk, hna, he⟩ := check_arguments_error params encode_argnames h
    refine ⟨key, hk, hna, ?_, ?_, ?_, ?_, ?_⟩ <;>
      simp [Tokenizer.encode, Tokenizer.encode_pairs, Tokenizer.encode_two,
        Tokenizer.encode_batch, Tokenizer.encode_initializer_list, he]
  · intro h
    obtain ⟨key, hk, hna, he⟩ := check_arguments_error params decode_argnames h
    refine ⟨key, hk, hna, ?_, ?_, ?_⟩ <;>
      simp [Tokenizer.decode, Tokenizer.decode_tensor, Tokenizer.decode_batch, he]

/-- C4 (witness): an encode call and a decode call with the key top_k. -/
theorem C4_option_allow_list_witness :
    (∃ key ∈ StdMap.keys [("top_k", Any.i32 5)], key ∉ encode_argnames) ∧
    (∃ key ∈ StdMap.keys [("top_k", Any.i32 5)], key ∉ decode_argnames) ∧
    (∃ key, Tokenizer.encode example_backend ready_session 0 "text" [("top_k", Any.i32 5)]
      = (ready_session, .error (Error.unacceptable_key key))) ∧
    (∃ key, Tokenizer.decode example_backend ready_session 0 [1, 2] [("top_k", Any.i32 5)]
      = (ready_session, .error (Error.unacceptable_key key))) := by
  have hw := C4_option_allow_list example_backend ready_session 0 [("top_k", Any.i32 5)] []
    "text" [] [] [] [1, 2] ⟨ElementType.i64, [1, 2], [1, 2]⟩ []
  have he : ∃ key ∈ StdMap.keys [("top_k", Any.i32 5)], key ∉ encode_argnames :=
    ⟨"top_k", by decide, by decide⟩
  have hd : ∃ key ∈ StdMap.keys [("top_k", Any.i32 5)], key ∉ decode_argnames :=
    ⟨"top_k", by decide, by decide⟩
  obtain ⟨k1, _, _, h1, _⟩ := hw.2.2.2.1 he
  obtain ⟨k2, _, _, h2, _⟩ := hw.2.2.2.2 hd
  exact ⟨he, hd, ⟨k1, h1⟩, ⟨k2, h2⟩⟩

theorem read_anymap_param_error {T : Type} [AnyCast T] (m : AnyMap) (n : String)
    (p : Option T) (e : Error) (h : read_anymap_param m n p = .error e) : is_sync_error e := by
  unfold read_anymap_param at h
  cases hf : m.find n with
  | none => simp [hf] at h
  | some a =>
    rw [hf] at h
    simp only at h
    cases hc : (AnyCast.ofAny a : Option T) with
    | none =>
      rw [hc] at h
      exact Or.inl ⟨n, (Except.error.inj h).symm⟩
    | some v => simp [hc] at h

theorem set_state_value_error {T : Type} [AnyCast T] [DecidableEq T] (s : VariableState)
    (value : Option T) (flags : AnyMap) (e : Error)
    (h : set_state_value s value flags = .error e) : is_sync_error e := by
  unfold set_state_value at h
  cases hr : (read_anymap_param flags s.name (none : Option T)) with
  | error e' =>
    rw [hr] at h
    simp only at h
    rw [← Except.error.inj h]
    exact read_anymap_param_error _ _ _ _ hr
  | ok last =>
    rw [hr] at h
    simp only at h
    split at h
    · cases value with
      | none => simp at h
      | some v =>
        simp only at h
        split at h
        · simp at h
        · exact Or.inr (Except.error.inj h).symm
    · split at h <;> simp at h

theorem set_state_for_error (vals : StateValues) (s : VariableState) (flags : AnyMap)
    (e : Error) (h : set_state_for vals s flags = .error e) : is_sync_error e := by
  rcases set_state_for_cases vals s flags with ⟨_, h2⟩ | ⟨value, _, h2⟩ | ⟨value, _, h2⟩
  · rw [h2] at h
    simp at h
  · rw [h2] at h
    exact set_state_value_error s value flags e h
  · rw [h2] at h
    exact set_state_value_error s value flags e h

theorem set_states_error (vals : StateValues) :
    ∀ (states : List VariableState) (flags : AnyMap) (e : Error),
      (set_states vals states flags).2 = .error e → is_sync_error e := by
  intro states
  induction states with
  | nil =>
    intro flags e h
    simp [set_states] at h
  | cons s rest ih =>
    intro flags e h
    unfold set_states at h
    cases hstep : set_state_for vals s flags with
    | error e' =>
      rw [hstep] at h
      simp only at h
      rw [← Except.error.inj h]
      exact set_state_for_error vals s flags e' hstep
    | ok r =>
      rw [hstep] at h
      simp only at h
      exact ih r.2 e h

theorem read_state_values_error (params : AnyMap) (e : Error)
    (h : read_state_values params = .error e) : is_sync_error e := by
  unfold read_state_values at h
  cases h1 : (read_anymap_param params add_special_tokens_name (some true) :
      Except Error (Option Bool)) with
  | error e1 =>
    rw [h1] at h
    simp only at h
    rw [← Except.error.inj h]
    exact read_anymap_param_error _ _ _ _ h1
  | ok x1 =>
    cases h2 : (read_anymap_param params skip_special_tokens_name (some true) :
        Except Error (Option Bool)) with
    | error e2 =>
      rw [h1, h2] at h
      simp only at h
      rw [← Except.error.inj h]
      exact read_anymap_param_error _ _ _ _ h2
    | ok x2 =>
      cases h3 : (read_anymap_param params pad_to_max_length_name (some false) :
          Except Error (Option Bool)) with
      | error e3 =>
        rw [h1, h2, h3] at h
        simp only at h
        rw [← Except.error.inj h]
        exact read_anymap_param_error _ _ _ _ h3
      | ok x3 =>
        cases h4 : (read_anymap_param params max_length_name (none : Option Int) :
            Except Error (Option Int)) with
        | error e4 =>
          rw [h1, h2, h3, h4] at h
          simp only at h
          rw [← Except.error.inj h]
          exact read_anymap_param_error _ _ _ _ h4
        | ok x4 =>
          rw [h1, h2, h3, h4] at h
          simp at h

/-- The synchronisation raises nothing but a failed cast or the one-element
assertion. -/
theorem set_state_if_necessary_error (self : TokenizerImpl) (req : InferRequest)
    (params : AnyMap) (e : Error) (h : (set_state_if_necessary self req params).2 = .error e) :
    is_sync_error e := by
  unfold set_state_if_necessary at h
  by_cases h24 : self.m_older_than_24_5 = true
  · simp [h24] at h
  · cases hv : read_state_values params with
    | error e' =>
      simp only [h24, hv] at h
      rw [← Except.error.inj h]
      exact read_state_values_error params e' hv
    | ok vals =>
      simp only [h24, hv] at h
      exact set_states_error vals _ _ e h

theorem is_sync_error_ne_prompts_size (e : Error) (h : is_sync_error e) :
    e ≠ Error.prompts_size := by
  rcases h with ⟨n, rfl⟩ | rfl <;> simp

/-- Taking a request, synchronising it and running inference on it does not
raise the size error, when the inference step does not. -/
theorem with_request_ne_prompts_size {α : Type} (self : TokenizerImpl) (side : Bool)
    (slot : Nat) (params : AnyMap) (run : InferRequest → Except Error α)
    (hrun : ∀ req, run req ≠ .error Error.prompts_size) :
    (with_request self side slot params run).2 ≠ .error Error.prompts_size := by
  unfold with_request
  cases hq : (if side then self.m_ireq_queue_tokenizer else self.m_ireq_queue_detokenizer) with
  | none =>
    simp only
    cases side <;> simp
  | some queue =>
    simp only
    cases hs : queue[slot]? with
    | none => simp
    | some req =>
      simp only
      cases hr : (set_state_if_necessary self req params).2 with
      | error e =>
        simp only
        intro hcon
        exact is_sync_error_ne_prompts_size e
          (set_state_if_necessary_error self req params e hr) (Except.error.inj hcon)
      | ok u =>
        simp only
        exact hrun _

/-- C5: on a session with a tokenizer graph, encode(prompts_1, prompts_2)
raises the size error exactly when the two lists differ in length and neither
has length 1, and then returns the session as it received it; the overload
taking a list of pairs calls it with two lists of the length of the list of
pairs and never raises the size error. -/
theorem C5_paired_input_length (B : Backend) (self : TokenizerImpl) (slot : Nat)
    (prompts_1 prompts_2 : List String) (pairs : List (String × String)) (params : AnyMap)
    (h : self.m_ireq_queue_tokenizer.isSome = true) :
    ((TokenizerImpl.encode_two B self slot prompts_1 prompts_2 params).2
        = .error Error.prompts_size ↔
      (prompts_1.length ≠ prompts_2.length ∧ prompts_1.length ≠ 1 ∧ prompts_2.length ≠ 1)) ∧
    ((prompts_1.length ≠ prompts_2.length ∧ prompts_1.length ≠ 1 ∧ prompts_2.length ≠ 1) →
      TokenizerImpl.encode_two B self slot prompts_1 prompts_2 params
        = (self, .error Error.prompts_size)) ∧
    TokenizerImpl.encode_pairs B self slot pairs params
      = TokenizerImpl.encode_two B self slot (pairs.map Prod.fst) (pairs.map Prod.snd) params ∧
    (pairs.map Prod.fst).length = pairs.length ∧
    (pairs.map Prod.snd).length = pairs.length ∧
    (TokenizerImpl.encode_pairs B self slot pairs params).2 ≠ .error Error.prompts_size := by
  obtain ⟨queue, hq⟩ := Option.isSome_iff_exists.mp h
  have key : ∀ (p1 p2 : List String),
      ((TokenizerImpl.encode_two B self slot p1 p2 params).2 = .error Error.prompts_size ↔
        (p1.length ≠ p2.length ∧ p1.length ≠ 1 ∧ p2.length ≠ 1)) ∧
      ((p1.length ≠ p2.length ∧ p1.length ≠ 1 ∧ p2.length ≠ 1) →
        TokenizerImpl.encode_two B self slot p1 p2 params
          = (self, .error Error.prompts_size)) := by
    intro p1 p2
    unfold TokenizerImpl.encode_two
    rw [hq]
    simp only
    by_cases hc : p1.length = p2.length ∨ p1.length = 1 ∨ p2.length = 1
    · rw [if_pos hc]
      have hne := with_request_ne_prompts_size self true slot params
        (fun infer_request =>
          match from_backend (B.tokenizer_infer infer_request.states p1 (some p2)) with
          | .error e => (.error e : Except Error TokenizedInputs)
          | .ok out =>
            .ok { input_ids := out.1, attention_mask := out.2.1, token_type_ids := out.2.2 })
        (fun req => by
          cases hb : B.tokenizer_infer req.states p1 (some p2) <;> simp [from_backend, hb])
      constructor
      · constructor
        · intro hcon
          exact absurd hcon hne
        · rintro ⟨a, b, c⟩
          rcases hc with hc | hc | hc
          · exact absurd hc a
          · exact absurd hc b
          · exact absurd hc c
      · rintro ⟨a, b, c⟩
        rcases hc with hc | hc | hc
        · exact absurd hc a
        · exact absurd hc b
        · exact absurd hc c
    · rw [if_neg hc]
      push_neg at hc
      exact ⟨⟨fun _ => hc, fun _ => rfl⟩, fun _ => rfl⟩
  have hpairs : TokenizerImpl.encode_pairs B self slot pairs params
      = TokenizerImpl.encode_two B self slot (pairs.map Prod.fst) (pairs.map Prod.snd)
          params := by
    unfold TokenizerImpl.encode_pairs
    rw [hq]
  refine ⟨(key prompts_1 prompts_2).1, (key prompts_1 prompts_2).2, hpairs, by simp, by simp, ?_⟩
  rw [hpairs]
  intro hcon
  have := ((key (pairs.map Prod.fst) (pairs.map Prod.snd)).1.mp hcon).1
  simp at this

/-- C5 (witness): three prompts against two on a session with a tokenizer. -/
theorem C5_paired_input_length_witness :
    ready_session.m_ireq_queue_tokenizer.isSome = true ∧
    TokenizerImpl.encode_two example_backend ready_session 0 ["a", "b", "c"] ["x", "y"] []
      = (ready_session, .error Error.prompts_size) :=
  ⟨rfl, (C5_paired_input_length example_backend ready_session 0 ["a", "b", "c"] ["x", "y"] []
    [] rfl).2.1 (by decide)⟩

/-! ## Special-token resolution -/

/-- C6 (the code at the failing input): with the eos token resolved to "</s>"
and id 2 and no pad token in any source, resolution ends with the pad token
string "</s>" but the pad token id still -1 when tokenizer_config.json has no
added_tokens_decoder table, and with neither when tokenizer_config.json is
missing. -/
theorem C6_pad_id_not_resolved :
    (resolve_special_tokens fresh_session no_pad_dir).2 = .ok () ∧
    (resolve_special_tokens fresh_session no_pad_dir).1.m_eos_token = "</s>" ∧
    (resolve_special_tokens fresh_session no_pad_dir).1.m_eos_token_id = 2 ∧
    (resolve_special_tokens fresh_session no_pad_dir).1.m_pad_token = "</s>" ∧
    (resolve_special_tokens fresh_session no_pad_dir).1.m_pad_token_id = -1 ∧
    (resolve_special_tokens fresh_session no_pad_no_tokenizer_config_dir).2 = .ok () ∧
    (resolve_special_tokens fresh_session no_pad_no_tokenizer_config_dir).1.m_eos_token
      = "</s>" ∧
    (resolve_special_tokens fresh_session no_pad_no_tokenizer_config_dir).1.m_eos_token_id
      = 2 ∧
    (resolve_special_tokens fresh_session no_pad_no_tokenizer_config_dir).1.m_pad_token = "" ∧
    (resolve_special_tokens fresh_session no_pad_no_tokenizer_config_dir).1.m_pad_token_id
      = -1 := by
  decide

theorem scan_token_id_frame (id : Int) (content : Json) (token key : String) (id' : Int)
    (h : scan_token_id id content token key = .ok id') (hid : id ≠ -1) : id' = id := by
  unfold scan_token_id at h
  rw [if_neg (fun hc => hid hc.1)] at h
  exact (Except.ok.inj h).symm

/-- The loop over `added_tokens_decoder` changes no token string and no token id
that is different from -1. -/
theorem scan_added_tokens_frame : ∀ (items : List (String × Json)) (self : TokenizerImpl),
    (scan_added_tokens self items).1.m_pad_token = self.m_pad_token ∧
    (scan_added_tokens self items).1.m_bos_token = self.m_bos_token ∧
    (scan_added_tokens self items).1.m_eos_token = self.m_eos_token ∧
    (self.m_pad_token_id ≠ -1 →
      (scan_added_tokens self items).1.m_pad_token_id = self.m_pad_token_id) ∧
    (self.m_bos_token_id ≠ -1 →
      (scan_added_tokens self items).1.m_bos_token_id = self.m_bos_token_id) ∧
    (self.m_eos_token_id ≠ -1 →
      (scan_added_tokens self items).1.m_eos_token_id = self.m_eos_token_id) := by
  intro items
  induction items with
  | nil =>
    intro self
    simp [scan_added_tokens]
  | cons kv rest ih =>
    intro self
    obtain ⟨key, value⟩ := kv
    unfold scan_added_tokens
    cases hc : value.member "content" with
    | none => exact ih self
    | some content =>
      simp only
      cases h1 : scan_token_id self.m_pad_token_id content self.m_pad_token key with
      | error e => simp
      | ok pad_id =>
        simp only
        cases h2 : scan_token_id self.m_bos_token_id content self.m_bos_token key with
        | error e =>
          simp only
          exact ⟨trivial, trivial, trivial,
            fun hid => scan_token_id_frame _ _ _ _ _ h1 hid, fun _ => trivial, fun _ => trivial⟩
        | ok bos_id =>
          simp only
          cases h3 : scan_token_id self.m_eos_token_id content self.m_eos_token key with
          | error e =>
            simp only
            exact ⟨trivial, trivial, trivial,
              fun hid => scan_token_id_frame _ _ _ _ _ h1 hid,
              fun hid => scan_token_id_frame _ _ _ _ _ h2 hid, fun _ => trivial⟩
          | ok eos_id =>
            simp only
            obtain ⟨i1, i2, i3, i4, i5, i6⟩ := ih
              { self with m_pad_token_id := pad_id, m_bos_token_id := bos_id,
                          m_eos_token_id := eos_id }
            refine ⟨i1, i2, i3, ?_, ?_, ?_⟩
            · intro hid
              have e := scan_token_id_frame _ _ _ _ _ h1 hid
              rw [← e]
              exact i4 (by simpa [e] using hid)
            · intro hid
              have e := scan_token_id_frame _ _ _ _ _ h2 hid
              rw [← e]
              exact i5 (by simpa [e] using hid)
            · intro hid
              have e := scan_token_id_frame _ _ _ _ _ h3 hid
              rw [← e]
              exact i6 (by simpa [e] using hid)

theorem read_token_str_frame (data : Json) (key val : String) (h : val ≠ "") :
    read_token_str data key val = val := by
  simp [read_token_str, h]

theorem read_token_content_str_frame (data : Json) (key val : String) (h : val ≠ "") :
    read_token_content_str data key val = val := by
  simp [read_token_content_str, h]

/-- Lines 505-527 change no token id and no token string that is not empty. -/
theorem read_token_strings_frame (self : TokenizerImpl) (data : Json) :
    (read_token_strings self data).m_pad_token_id = self.m_pad_token_id ∧
    (read_token_strings self data).m_bos_token_id = self.m_bos_token_id ∧
    (read_token_strings self data).m_eos_token_id = self.m_eos_token_id ∧
    (self.m_pad_token ≠ "" → (read_token_strings self data).m_pad_token = self.m_pad_token) ∧
    (self.m_bos_token ≠ "" → (read_token_strings self data).m_bos_token = self.m_bos_token) ∧
    (self.m_eos_token ≠ "" → (read_token_strings self data).m_eos_token = self.m_eos_token) := by
  unfold read_token_strings
  simp only
  split
  · rename_i hc
    refine ⟨rfl, rfl, rfl, fun h => ?_, fun h => ?_, fun h => ?_⟩
    · rw [read_token_str_frame data _ _ h, read_token_content_str_frame data _ _ h] at hc
      exact absurd hc.1 h
    · simp only
      rw [read_token_str_frame data _ _ h, read_token_content_str_frame data _ _ h]
    · simp only
      rw [read_token_str_frame data _ _ h, read_token_content_str_frame data _ _ h]
  · refine ⟨rfl, rfl, rfl, fun h => ?_, fun h => ?_, fun h => ?_⟩
    · simp only
      rw [read_token_str_frame data _ _ h, read_token_content_str_frame data _ _ h]
    · simp only
      rw [read_token_str_frame data _ _ h, read_token_content_str_frame data _ _ h]
    · simp only
      rw [read_token_str_frame data _ _ h, read_token_content_str_frame data _ _ h]

/-- Lines 529-556 change no token string and no token id different from -1. -/
theorem read_token_ids_frame (self : TokenizerImpl) (data : Json) :
    (read_token_ids self data).1.m_pad_token = self.m_pad_token ∧
    (read_token_ids self data).1.m_bos_token = self.m_bos_token ∧
    (read_token_ids self data).1.m_eos_token = self.m_eos_token ∧
    (self.m_pad_token_id ≠ -1 →
      (read_token_ids self data).1.m_pad_token_id = self.m_pad_token_id) ∧
    (self.m_bos_token_id ≠ -1 →
      (read_token_ids self data).1.m_bos_token_id = self.m_bos_token_id) ∧
    (self.m_eos_token_id ≠ -1 →
      (read_token_ids self data).1.m_eos_token_id = self.m_eos_token_id) := by
  unfold read_token_ids
  split
  · simp
  · cases hdec : data.member "added_tokens_decoder" with
    | none => simp
    | some decoder =>
      simp only
      obtain ⟨f1, f2, f3, f4, f5, f6⟩ := scan_added_tokens_frame decoder.items self
      cases hscan : (scan_added_tokens self decoder.items).2 with
      | error e => exact ⟨f1, f2, f3, f4, f5, f6⟩
      | ok u =>
        simp only
        split
        · rename_i hfall
          exact ⟨f1, f2, f3, fun h => absurd (f4 h ▸ hfall.1) h, f5, f6⟩
        · exact ⟨f1, f2, f3, f4, f5, f6⟩

/-- `read_tokenizer_config_if_necessary` changes no special-token id that is
different from -1 and no special-token string that is not empty. -/
theorem read_tokenizer_config_frame (self : TokenizerImpl) (dir : ModelDir) :
    (self.m_pad_token_id ≠ -1 →
      (read_tokenizer_config_if_necessary self dir).1.m_pad_token_id = self.m_pad_token_id) ∧
    (self.m_bos_token_id ≠ -1 →
      (read_tokenizer_config_if_necessary self dir).1.m_bos_token_id = self.m_bos_token_id) ∧
    (self.m_eos_token_id ≠ -1 →
      (read_tokenizer_config_if_necessary self dir).1.m_eos_token_id = self.m_eos_token_id) ∧
    (self.m_pad_token ≠ "" →
      (read_tokenizer_config_if_necessary self dir).1.m_pad_token = self.m_pad_token) ∧
    (self.m_bos_token ≠ "" →
      (read_tokenizer_config_if_necessary self dir).1.m_bos_token = self.m_bos_token) ∧
    (self.m_eos_token ≠ "" →
      (read_tokenizer_config_if_necessary self dir).1.m_eos_token = self.m_eos_token) := by
  unfold read_tokenizer_config_if_necessary
  split
  · simp
  · cases hcfg : dir.tokenizer_config_json with
    | none => simp
    | some data =>
      simp only
      obtain ⟨a1, a2, a3, a4, a5, a6⟩ := read_token_strings_frame self data
      obtain ⟨b1, b2, b3, b4, b5, b6⟩ := read_token_ids_frame (read_token_strings self data) data
      rw [a1] at b4
      rw [a2] at b5
      rw [a3] at b6
      exact ⟨b4, b5, b6, fun h => b1.trans (a4 h), fun h => b2.trans (a5 h),
        fun h => b3.trans (a6 h)⟩

theorem read_special_tokens_map_ids (self : TokenizerImpl) (dir : ModelDir) :
    (read_special_tokens_map self dir).m_pad_token_id = self.m_pad_token_id ∧
    (read_special_tokens_map self dir).m_bos_token_id = self.m_bos_token_id ∧
    (read_special_tokens_map self dir).m_eos_token_id = self.m_eos_token_id := by
  unfold read_special_tokens_map
  cases dir.special_tokens_map_json <;> simp

/-- C7: read_tokenizer_config_if_necessary changes no special-token id that is
different from -1 on entry and no special-token string that is not empty on
entry, whatever tokenizer_config.json holds. Hence an id different from -1 that
config.json gives for a token is the id resolution ends with, and the id the
session keeps when the model metadata has no entry for it, whatever id
added_tokens_decoder lists for that token. -/
theorem C7_no_overwrite (self : TokenizerImpl) (dir : ModelDir) (data : Json)
    (rt_info : AnyMap) (pad bos eos : Int) :
    ((self.m_pad_token_id ≠ -1 →
        (read_tokenizer_config_if_necessary self dir).1.m_pad_token_id = self.m_pad_token_id) ∧
      (self.m_bos_token_id ≠ -1 →
        (read_tokenizer_config_if_necessary self dir).1.m_bos_token_id = self.m_bos_token_id) ∧
      (self.m_eos_token_id ≠ -1 →
        (read_tokenizer_config_if_necessary self dir).1.m_eos_token_id = self.m_eos_token_id) ∧
      (self.m_pad_token ≠ "" →
        (read_tokenizer_config_if_necessary self dir).1.m_pad_token = self.m_pad_token) ∧
      (self.m_bos_token ≠ "" →
        (read_tokenizer_config_if_necessary self dir).1.m_bos_token = self.m_bos_token) ∧
      (self.m_eos_token ≠ "" →
        (read_tokenizer_config_if_necessary self dir).1.m_eos_token = self.m_eos_token)) ∧
    (dir.config_json = some data →
      (data.member "pad_token_id" = some (Json.number pad) → pad ≠ -1 →
        (resolve_special_tokens self dir).1.m_pad_token_id = pad ∧
        (rt_info.find "pad_token_id" = none →
          find_or_fallback rt_info "pad_token_id"
            (resolve_special_tokens self dir).1.m_pad_token_id = .ok pad)) ∧
      (data.member "bos_token_id" = some (Json.number bos) → bos ≠ -1 →
        (resolve_special_tokens self dir).1.m_bos_token_id = bos ∧
        (rt_info.find "bos_token_id" = none →
          find_or_fallback rt_info "bos_token_id"
            (resolve_special_tokens self dir).1.m_bos_token_id = .ok bos)) ∧
      (data.member "eos_token_id" = some (Json.number eos) → eos ≠ -1 →
        (resolve_special_tokens self dir).1.m_eos_token_id = eos ∧
        (rt_info.find "eos_token_id" = none →
          find_or_fallback rt_info "eos_token_id"
            (resolve_special_tokens self dir).1.m_eos_token_id = .ok eos))) := by
  refine ⟨read_tokenizer_config_frame self dir, ?_⟩
  intro hcfg
  obtain ⟨m1, m2, m3⟩ := read_special_tokens_map_ids (read_config self dir) dir
  obtain ⟨f1, f2, f3, _, _, _⟩ := read_tokenizer_config_frame
    (read_special_tokens_map (read_config self dir) dir) dir
  rw [m1] at f1
  rw [m2] at f2
  rw [m3] at f3
  have c1 : data.member "pad_token_id" = some (Json.number pad) →
      (read_config self dir).m_pad_token_id = pad := by
    intro h
    simp [read_config, hcfg, read_json_param_int, h]
  have c2 : data.member "bos_token_id" = some (Json.number bos) →
      (read_config self dir).m_bos_token_id = bos := by
    intro h
    simp [read_config, hcfg, read_json_param_int, h]
  have c3 : data.member "eos_token_id" = some (Json.number eos) →
      (read_config self dir).m_eos_token_id = eos := by
    intro h
    simp [read_config, hcfg, read_json_param_int, h]
  refine ⟨fun h hne => ?_, fun h hne => ?_, fun h hne => ?_⟩
  · have e : (resolve_special_tokens self dir).1.m_pad_token_id = pad := by
      unfold resolve_special_tokens
      rw [f1 (by rw [c1 h]; exact hne), c1 h]
    exact ⟨e, fun hrt => by simp [find_or_fallback, hrt, e]⟩
  · have e : (resolve_special_tokens self dir).1.m_bos_token_id = bos := by
      unfold resolve_special_tokens
      rw [f2 (by rw [c2 h]; exact hne), c2 h]
    exact ⟨e, fun hrt => by simp [find_or_fallback, hrt, e]⟩
  · have e : (resolve_special_tokens self dir).1.m_eos_token_id = eos := by
      unfold resolve_special_tokens
      rw [f3 (by rw [c3 h]; exact hne), c3 h]
    exact ⟨e, fun hrt => by simp [find_or_fallback, hrt, e]⟩

/-- C7 (witness): config.json gives the eos token id 2 and added_tokens_decoder
lists the eos token under 7; resolution ends with 2. -/
theorem C7_no_overwrite_witness :
    conflicting_dir.config_json = some (Json.object [("eos_token_id", Json.number 2)]) ∧
    (Json.object [("eos_token_id", Json.number 2)]).member "eos_token_id"
      = some (Json.number 2) ∧
    (resolve_special_tokens fresh_session conflicting_dir).1.m_eos_token = "</s>" ∧
    (resolve_special_tokens fresh_session conflicting_dir).1.m_eos_token_id = 2 :=
  ⟨rfl, rfl, by decide,
    (((C7_no_overwrite fresh_session conflicting_dir
      (Json.object [("eos_token_id", Json.number 2)]) [] 0 0 2).2 rfl).2.2 rfl
        (by decide)).1⟩

/-! ## Names of cache parameters -/

theorem digitChar_value (k : Nat) (h : k < 10) : (Nat.digitChar k).toNat - 48 = k := by
  interval_cases k <;> rfl

theorem toDigitsCore_append : ∀ (fuel n : Nat) (ds : List Char),
    Nat.toDigitsCore 10 fuel n ds = Nat.toDigitsCore 10 fuel n [] ++ ds := by
  intro fuel
  induction fuel with
  | zero =>
    intro n ds
    simp [Nat.toDigitsCore]
  | succ fuel ih =>
    intro n ds
    simp only [Nat.toDigitsCore]
    by_cases h : n / 10 = 0
    · simp [h]
    · simp only [h, if_false]
      rw [ih (n / 10) (Nat.digitChar (n % 10) :: ds), ih (n / 10) [Nat.digitChar (n % 10)]]
      simp

theorem digits_value_toDigitsCore : ∀ (fuel n : Nat), n < fuel →
    digits_value (Nat.toDigitsCore 10 fuel n []) = n := by
  intro fuel
  induction fuel with
  | zero =>
    intro n h
    exact absurd h (Nat.not_lt_zero n)
  | succ fuel ih =>
    intro n h
    simp only [Nat.toDigitsCore]
    by_cases h0 : n / 10 = 0
    · simp only [h0, if_true]
      have hlt : n < 10 := by omega
      simp only [digits_value, List.foldl_cons, List.foldl_nil]
      rw [digitChar_value (n % 10) (Nat.mod_lt n (by decide))]
      omega
    · simp only [h0, if_false]
      rw [toDigitsCore_append]
      have hlt : n / 10 < fuel := by omega
      have := ih (n / 10) hlt
      simp only [digits_value, List.foldl_append, List.foldl_cons, List.foldl_nil] at this ⊢
      rw [this, digitChar_value (n % 10) (Nat.mod_lt n (by decide))]
      omega

/-- `std::to_string` gives different strings for different numbers. -/
theorem toString_nat_injective (a b : Nat) (h : toString a = toString b) : a = b := by
  have ha := digits_value_toDigitsCore (a + 1) a (Nat.lt_succ_self a)
  have hb := digits_value_toDigitsCore (b + 1) b (Nat.lt_succ_self b)
  have hd : (Nat.toDigits 10 a) = (Nat.toDigits 10 b) := by
    have := congrArg String.data h
    simpa [toString, Nat.repr, List.asString] using this
  unfold Nat.toDigits at hd
  rw [hd] at ha
  exact ha.symm.trans hb

theorem key_cache_name_injective (a b : Nat) (h : key_cache_name a = key_cache_name b) :
    a = b := by
  unfold key_cache_name at h
  have := congrArg String.data h
  simp only [String.data_append, List.append_cancel_left_eq] at this
  exact toString_nat_injective a b (String.ext this)

theorem value_cache_name_injective (a b : Nat)
    (h : value_cache_name a = value_cache_name b) : a = b := by
  unfold value_cache_name at h
  have := congrArg String.data h
  simp only [String.data_append, List.append_cancel_left_eq] at this
  exact toString_nat_injective a b (String.ext this)

theorem starts_with_key_cache_name (i : Nat) :
    starts_with "key_cache." (key_cache_name i) = true := by
  simp [starts_with, key_cache_name, String.data_append]

theorem starts_with_value_cache_name (i : Nat) :
    starts_with "value_cache." (value_cache_name i) = true := by
  simp [starts_with, key_cache_name, value_cache_name, String.data_append]

theorem not_key_of_value (name : String) (h : starts_with "value_cache." name = true) :
    starts_with "key_cache." name = false := by
  unfold starts_with at h ⊢
  cases hn : name.data with
  | nil =>
    rw [hn] at h
    simp [List.isPrefixOf] at h
  | cons c cs =>
    rw [hn] at h
    by_contra hc
    have hc' : "key_cache.".data.isPrefixOf (c :: cs) = true := by simpa using hc
    have e1 : c = 'v' := by
      have := h
      simp only [show "value_cache.".data = 'v' :: "alue_cache.".data from rfl,
        List.isPrefixOf, Bool.and_eq_true, beq_iff_eq] at this
      exact this.1.symm
    have e2 : c = 'k' := by
      have := hc'
      simp only [show "key_cache.".data = 'k' :: "ey_cache.".data from rfl,
        List.isPrefixOf, Bool.and_eq_true, beq_iff_eq] at this
      exact this.1.symm
    rw [e1] at e2
    exact absurd e2 (by decide)

/-! ## The maps of cache parameters -/

/-- What the maps built by the loop over the parameters hold: positions of
parameters of the graph that carry the name they are stored under, in ordered
maps. -/
theorem collect_cache_params_sound (all : List Parameter) :
    ∀ (params : List Parameter) (pos : Nat) (maps : StdMap Nat × StdMap Nat),
      all.drop pos = params →
      (maps.1.ordered ∧ maps.2.ordered ∧
        (∀ n j, maps.1.find n = some j → ∃ p, all[j]? = some p ∧ p.friendly_name = n ∧
          starts_with "key_cache." n = true) ∧
        (∀ n j, maps.2.find n = some j → ∃ p, all[j]? = some p ∧ p.friendly_name = n ∧
          starts_with "value_cache." n = true)) →
      ((collect_cache_params params pos maps).1.ordered ∧
        (collect_cache_params params pos maps).2.ordered ∧
        (∀ n j, (collect_cache_params params pos maps).1.find n = some j →
          ∃ p, all[j]? = some p ∧ p.friendly_name = n ∧ starts_with "key_cache." n = true) ∧
        (∀ n j, (collect_cache_params params pos maps).2.find n = some j →
          ∃ p, all[j]? = some p ∧ p.friendly_name = n ∧
            starts_with "value_cache." n = true)) := by
  intro params
  induction params with
  | nil =>
    intro pos maps _ h
    simpa [collect_cache_params] using h
  | cons param rest ih =>
    intro pos maps hdrop h
    obtain ⟨o1, o2, k, v⟩ := h
    have hpos : all[pos]? = some param := by
      have := congrArg (fun l => l[0]?) hdrop
      simpa [List.getElem?_drop] using this
    have hrest : all.drop (pos + 1) = rest := by
      have := congrArg (fun l => l.drop 1) hdrop
      simpa [List.drop_drop, Nat.add_comm] using this
    unfold collect_cache_params
    by_cases hk : starts_with "key_cache." param.friendly_name = true
    · rw [if_pos hk]
      apply ih (pos + 1) _ hrest
      refine ⟨StdMap.ordered_assign _ _ _ o1, o2, ?_, v⟩
      intro n j hf
      by_cases hn : n = param.friendly_name
      · subst hn
        rw [StdMap.find_assign_self] at hf
        have : pos = j := Option.some.inj hf
        subst this
        exact ⟨param, hpos, rfl, hk⟩
      · rw [StdMap.find_assign_ne _ _ _ _ hn] at hf
        exact k n j hf
    · rw [if_neg hk]
      by_cases hv : starts_with "value_cache." param.friendly_name = true
      · rw [if_pos hv]
        apply ih (pos + 1) _ hrest
        refine ⟨o1, StdMap.ordered_assign _ _ _ o2, k, ?_⟩
        intro n j hf
        by_cases hn : n = param.friendly_name
        · subst hn
          rw [StdMap.find_assign_self] at hf
          have : pos = j := Option.some.inj hf
          subst this
          exact ⟨param, hpos, rfl, hv⟩
        · rw [StdMap.find_assign_ne _ _ _ _ hn] at hf
          exact v n j hf
      · rw [if_neg hv]
        exact ih (pos + 1) maps hrest ⟨o1, o2, k, v⟩

/-- Every parameter with the key prefix has its name in the key map, and every
parameter with the value prefix (and not the key prefix) has its name in the
value map; names already in a map stay in it. -/
theorem collect_cache_params_complete :
    ∀ (params : List Parameter) (pos : Nat) (maps : StdMap Nat × StdMap Nat),
      (∀ n, (maps.1.find n).isSome = true →
        ((collect_cache_params params pos maps).1.find n).isSome = true) ∧
      (∀ n, (maps.2.find n).isSome = true →
        ((collect_cache_params params pos maps).2.find n).isSome = true) ∧
      (∀ p ∈ params, starts_with "key_cache." p.friendly_name = true →
        ((collect_cache_params params pos maps).1.find p.friendly_name).isSome = true) ∧
      (∀ p ∈ params, starts_with "value_cache." p.friendly_name = true →
        ((collect_cache_params params pos maps).2.find p.friendly_name).isSome = true) := by
  intro params
  induction params with
  | nil =>
    intro pos maps
    simp [collect_cache_params]
  | cons param rest ih =>
    intro pos maps
    have keep : ∀ (m : StdMap Nat) (k n : String) (j : Nat), (m.find n).isSome = true →
        ((m.assign k j).find n).isSome = true := by
      intro m k n j h
      by_cases hn : n = k
      · subst hn
        simp [StdMap.find_assign_self]
      · rw [StdMap.find_assign_ne _ _ _ _ hn]
        exact h
    unfold collect_cache_params
    by_cases hk : starts_with "key_cache." param.friendly_name = true
    · rw [if_pos hk]
      obtain ⟨i1, i2, i3, i4⟩ := ih (pos + 1)
        (maps.1.assign param.friendly_name pos, maps.2)
      refine ⟨fun n h => i1 n (keep _ _ _ _ h), i2, ?_, ?_⟩
      · intro p hp hpk
        rcases List.mem_cons.mp hp with rfl | hp
        · exact i1 _ (by simp [StdMap.find_assign_self])
        · exact i3 p hp hpk
      · intro p hp hpv
        rcases List.mem_cons.mp hp with rfl | hp
        · rw [not_key_of_value _ hpv] at hk
          exact absurd hk (by simp)
        · exact i4 p hp hpv
    · rw [if_neg hk]
      by_cases hv : starts_with "value_cache." param.friendly_name = true
      · rw [if_pos hv]
        obtain ⟨i1, i2, i3, i4⟩ := ih (pos + 1)
          (maps.1, maps.2.assign param.friendly_name pos)
        refine ⟨i1, fun n h => i2 n (keep _ _ _ _ h), ?_, ?_⟩
        · intro p hp hpk
          rcases List.mem_cons.mp hp with rfl | hp
          · exact absurd hpk hk
          · exact i3 p hp hpk
        · intro p hp hpv
          rcases List.mem_cons.mp hp with rfl | hp
          · exact i2 _ (by simp [StdMap.find_assign_self])
          · exact i4 p hp hpv
      · rw [if_neg hv]
        obtain ⟨i1, i2, i3, i4⟩ := ih (pos + 1) maps
        refine ⟨i1, i2, ?_, ?_⟩
        · intro p hp hpk
          rcases List.mem_cons.mp hp with rfl | hp
          · exact absurd hpk hk
          · exact i3 p hp hpk
        · intro p hp hpv
          rcases List.mem_cons.mp hp with rfl | hp
          · exact absurd hpv hv
          · exact i4 p hp hpv

theorem StdMap.mem_keys_iff {α : Type} (m : StdMap α) (k : String) :
    k ∈ m.keys ↔ (m.find k).isSome = true := by
  induction m with
  | nil => simp [StdMap.keys, StdMap.find]
  | cons kv m ih =>
    obtain ⟨k', v'⟩ := kv
    by_cases h : k' = k
    · simp [StdMap.keys, StdMap.find, h]
    · have h' : ¬ k = k' := fun e => h e.symm
      simp only [StdMap.keys, List.map_cons, List.mem_cons, StdMap.find, h, h', if_false,
        false_or]
      exact ih

theorem StdMap.keys_nodup {α : Type} (m : StdMap α) (h : m.ordered) : m.keys.Nodup := by
  induction m with
  | nil => simp [StdMap.keys]
  | cons kv m ih =>
    obtain ⟨k', v'⟩ := kv
    unfold StdMap.ordered at h
    rw [List.pairwise_cons] at h
    simp only [StdMap.keys, List.map_cons, List.nodup_cons]
    refine ⟨?_, ih h.2⟩
    intro hmem
    obtain ⟨x, hx, hxk⟩ := List.mem_map.mp hmem
    have := h.1 x hx
    rw [hxk] at this
    simp only at this
    rw [StdMap.key_lt_irrefl] at this
    exact absurd this (by simp)

/-- A map whose keys are exactly the names of the layers `0 .. n-1` has `n`
entries. -/
theorem StdMap.size_of_keys {α : Type} (m : StdMap α) (h : m.ordered) (name : Nat → String)
    (hinj : ∀ a b, name a = name b → a = b) (n : Nat)
    (hsub : ∀ k, (m.find k).isSome = true ↔ ∃ i, i < n ∧ k = name i) : m.size = n := by
  have hn : ((List.range n).map name).Nodup :=
    (List.nodup_range n).map (fun a b e => hinj a b e)
  have hperm : m.keys.Perm ((List.range n).map name) := by
    rw [List.perm_ext_iff_of_nodup (StdMap.keys_nodup m h) hn]
    intro k
    rw [StdMap.mem_keys_iff, hsub]
    simp only [List.mem_map, List.mem_range]
    constructor
    · rintro ⟨i, hi, rfl⟩
      exact ⟨i, hi, rfl⟩
    · rintro ⟨i, hi, rfl⟩
      exact ⟨i, hi, rfl⟩
  have := hperm.length_eq
  simpa [StdMap.keys, StdMap.size] using this

/-- A map with `n` entries that holds the names of the layers `0 .. n-1` holds
nothing else. -/
theorem StdMap.keys_of_size {α : Type} (m : StdMap α) (name : Nat → String)
    (hinj : ∀ a b, name a = name b → a = b) (n : Nat) (hsize : m.size = n)
    (hsub : ∀ i, i < n → (m.find (name i)).isSome = true) (k : String)
    (hk : (m.find k).isSome = true) : ∃ i, i < n ∧ k = name i := by
  have hn : ((List.range n).map name).Nodup :=
    (List.nodup_range n).map (fun a b e => hinj a b e)
  have hsubset : (List.range n).map name ⊆ m.keys := by
    intro x hx
    obtain ⟨i, hi, rfl⟩ := List.mem_map.mp hx
    exact (StdMap.mem_keys_iff m _).mpr (hsub i (List.mem_range.mp hi))
  have hsp : ((List.range n).map name).Subperm m.keys := List.subperm_of_subset hn hsubset
  have hlen : m.keys.length ≤ ((List.range n).map name).length := by
    simp [StdMap.keys, ← hsize, StdMap.size]
  have hperm := hsp.perm_of_length_le hlen
  have : k ∈ (List.range n).map name := hperm.symm.subset ((StdMap.mem_keys_iff m k).mpr hk)
  obtain ⟨i, hi, rfl⟩ := List.mem_map.mp this
  exact ⟨i, List.mem_range.mp hi, rfl⟩

/-! ## The two loops over the layers -/

theorem cache_param_ok (parameters : List Parameter) (m : StdMap Nat) (name : String)
    (r : Nat × Parameter) (h : cache_param parameters m name = .ok r) :
    m.find name = some r.1 ∧ parameters[r.1]? = some r.2 := by
  unfold cache_param at h
  cases hf : m.find name with
  | none => simp [hf] at h
  | some pos =>
    rw [hf] at h
    simp only at h
    cases hp : parameters[pos]? with
    | none => simp [hp] at h
    | some param =>
      rw [hp] at h
      simp only at h
      have := Except.ok.inj h
      subst this
      exact ⟨rfl, hp⟩

theorem cache_param_eq (parameters : List Parameter) (m : StdMap Nat) (name : String)
    (pos : Nat) (param : Parameter) (hf : m.find name = some pos)
    (hp : parameters[pos]? = some param) :
    cache_param parameters m name = .ok (pos, param) := by
  simp [cache_param, hf, hp]

/-- What a successful pass of the first loop body has read. -/
theorem kv_head_config_ok (parameters : List Parameter) (ks vs : StdMap Nat) (idx : Nat)
    (c : KVHeadConfig) (h : kv_head_config parameters ks vs idx = .ok c) :
    ∃ jk k jv v,
      ks.find (key_cache_name idx) = some jk ∧ parameters[jk]? = some k ∧
      vs.find (value_cache_name idx) = some jv ∧ parameters[jv]? = some v ∧
      get_length_at k.partial_shape 1 = .ok c.num_k_heads ∧
      get_length_at k.partial_shape 2 = .ok c.k_head_size ∧
      get_length_at v.partial_shape 1 = .ok c.num_v_heads ∧
      get_length_at v.partial_shape 2 = .ok c.v_head_size := by
  unfold kv_head_config at h
  cases h1 : cache_param parameters ks (key_cache_name idx) with
  | error e => simp [h1] at h
  | ok k =>
    rw [h1] at h
    simp only at h
    cases h2 : get_length_at k.2.partial_shape 1 with
    | error e => simp [h2] at h
    | ok a =>
      rw [h2] at h
      simp only at h
      cases h3 : get_length_at k.2.partial_shape 2 with
      | error e => simp [h3] at h
      | ok b =>
        rw [h3] at h
        simp only at h
        cases h4 : cache_param parameters vs (value_cache_name idx) with
        | error e => simp [h4] at h
        | ok v =>
          rw [h4] at h
          simp only at h
          cases h5 : get_length_at v.2.partial_shape 1 with
          | error e => simp [h5] at h
          | ok a' =>
            rw [h5] at h
            simp only at h
            cases h6 : get_length_at v.2.partial_shape 2 with
            | error e => simp [h6] at h
            | ok b' =>
              rw [h6] at h
              simp only at h
              have hc := Except.ok.inj h
              subst hc
              obtain ⟨k1, k2⟩ := cache_param_ok _ _ _ _ h1
              obtain ⟨v1, v2⟩ := cache_param_ok _ _ _ _ h4
              exact ⟨k.1, k.2, v.1, v.2, k1, k2, v1, v2, h2, h3, h5, h6⟩

/-- The first loop body succeeds when both parameters are found and dimensions
1 and 2 of their shapes are static. -/
theorem kv_head_config_eq (parameters : List Parameter) (ks vs : StdMap Nat) (idx : Nat)
    (jk jv : Nat) (k v : Parameter) (a b a' b' : Nat)
    (h1 : ks.find (key_cache_name idx) = some jk) (h2 : parameters[jk]? = some k)
    (h3 : vs.find (value_cache_name idx) = some jv) (h4 : parameters[jv]? = some v)
    (h5 : get_length_at k.partial_shape 1 = .ok a) (h6 : get_length_at k.partial_shape 2 = .ok b)
    (h7 : get_length_at v.partial_shape 1 = .ok a')
    (h8 : get_length_at v.partial_shape 2 = .ok b') :
    kv_head_config parameters ks vs idx
      = .ok { num_v_heads := a', num_k_heads := a, v_head_size := b', k_head_size := b } := by
  unfold kv_head_config
  rw [cache_param_eq _ _ _ _ _ h1 h2, cache_param_eq _ _ _ _ _ h3 h4]
  simp only
  rw [h5, h6, h7, h8]

/-- A table the first loop returns has one entry per layer, entry `i` being what
the loop body returns for layer `idx + i`. -/
theorem kv_cache_config_from_ok (parameters : List Parameter) (ks vs : StdMap Nat) :
    ∀ (count idx : Nat) (table : List KVHeadConfig),
      kv_cache_config_from parameters ks vs idx count = .ok table →
      table.length = count ∧
      ∀ i, i < count → ∃ c, table[i]? = some c ∧
        kv_head_config parameters ks vs (idx + i) = .ok c := by
  intro count
  induction count with
  | zero =>
    intro idx table h
    simp only [kv_cache_config_from] at h
    have := Except.ok.inj h
    subst this
    exact ⟨rfl, fun i hi => absurd hi (Nat.not_lt_zero i)⟩
  | succ count ih =>
    intro idx table h
    simp only [kv_cache_config_from] at h
    cases h1 : kv_head_config parameters ks vs idx with
    | error e => simp [h1] at h
    | ok c =>
      rw [h1] at h
      simp only at h
      cases h2 : kv_cache_config_from parameters ks vs (idx + 1) count with
      | error e => simp [h2] at h
      | ok rest =>
        rw [h2] at h
        simp only at h
        have := Except.ok.inj h
        subst this
        obtain ⟨l, r⟩ := ih (idx + 1) rest h2
        refine ⟨by simp [l], ?_⟩
        intro i hi
        cases i with
        | zero => exact ⟨c, by simp, h1⟩
        | succ i =>
          obtain ⟨c', hc1, hc2⟩ := r i (by omega)
          refine ⟨c', by simpa using hc1, ?_⟩
          rw [show idx + (i + 1) = idx + 1 + i by omega]
          exact hc2

/-- The first loop returns a table when its body succeeds for every layer. -/
theorem kv_cache_config_from_eq (parameters : List Parameter) (ks vs : StdMap Nat) :
    ∀ (count idx : Nat),
      (∀ i, i < count → ∃ c, kv_head_config parameters ks vs (idx + i) = .ok c) →
      ∃ table, kv_cache_config_from parameters ks vs idx count = .ok table := by
  intro count
  induction count with
  | zero =>
    intro idx _
    exact ⟨[], rfl⟩
  | succ count ih =>
    intro idx h
    obtain ⟨c, hc⟩ := h 0 (Nat.succ_pos count)
    obtain ⟨rest, hrest⟩ := ih (idx + 1) (fun i hi => by
      obtain ⟨c', hc'⟩ := h (i + 1) (by omega)
      exact ⟨c', by rw [show idx + 1 + i = idx + (i + 1) by omega]; exact hc'⟩)
    refine ⟨c :: rest, ?_⟩
    simp only [kv_cache_config_from]
    rw [Nat.add_zero] at hc
    rw [hc, hrest]

theorem reset_cache_param_erased (p : Parameter) : is_erased (reset_cache_param p) :=
  ⟨rfl, rfl⟩

theorem reset_cache_param_idem (p : Parameter) :
    reset_cache_param (reset_cache_param p) = reset_cache_param p := rfl

theorem reset_rel_refl (l : List Parameter) : reset_rel l l :=
  ⟨rfl, fun _ _ h => Or.inl h⟩

theorem reset_rel_trans (a b c : List Parameter) (h1 : reset_rel a b) (h2 : reset_rel b c) :
    reset_rel a c := by
  refine ⟨h2.1.trans h1.1, ?_⟩
  intro j p hp
  rcases h1.2 j p hp with h | h
  · exact h2.2 j p h
  · rcases h2.2 j _ h with h' | h'
    · exact Or.inr h'
    · exact Or.inr (by rw [h', reset_cache_param_idem])

/-- Resetting the parameter in position `j`. -/
theorem reset_rel_set (l : List Parameter) (j : Nat) (p : Parameter) (hp : l[j]? = some p) :
    reset_rel l (l.set j (reset_cache_param p)) ∧
      (l.set j (reset_cache_param p))[j]? = some (reset_cache_param p) := by
  have hj : j < l.length := (List.getElem?_eq_some.mp hp).1
  refine ⟨⟨by simp, ?_⟩, List.getElem?_set_self hj⟩
  intro i q hq
  by_cases hij : j = i
  · subst hij
    rw [hp] at hq
    have := Option.some.inj hq
    subst this
    exact Or.inr (List.getElem?_set_self hj)
  · rw [List.getElem?_set_ne hij]
    exact Or.inl hq

/-- A parameter that is erased is erased after further steps of the loop. -/
theorem reset_rel_erased (a b : List Parameter) (h : reset_rel a b) (j : Nat) (p : Parameter)
    (hp : a[j]? = some p) (he : is_erased p) : ∃ p', b[j]? = some p' ∧ is_erased p' := by
  rcases h.2 j p hp with h' | h'
  · exact ⟨p, h', he⟩
  · exact ⟨_, h', reset_cache_param_erased p⟩

/-- The second loop, when every layer finds its two parameters: it raises
nothing, every parameter is left as it was or reset, and the parameters the
maps hold for the layers `idx .. idx + count - 1` are erased. -/
theorem reset_cache_params_spec (ks vs : StdMap Nat) :
    ∀ (count : Nat) (parameters : List Parameter) (idx : Nat),
      (∀ i, i < count → ∃ jk jv, ks.find (key_cache_name (idx + i)) = some jk ∧
        vs.find (value_cache_name (idx + i)) = some jv ∧
        jk < parameters.length ∧ jv < parameters.length) →
      (reset_cache_params ks vs parameters idx count).2 = .ok () ∧
      reset_rel parameters (reset_cache_params ks vs parameters idx count).1 ∧
      ∀ i, i < count → ∀ j,
        (ks.find (key_cache_name (idx + i)) = some j ∨
          vs.find (value_cache_name (idx + i)) = some j) →
        ∃ p', (reset_cache_params ks vs parameters idx count).1[j]? = some p' ∧
          is_erased p' := by
  intro count
  induction count with
  | zero =>
    intro parameters idx _
    exact ⟨rfl, reset_rel_refl _, fun i hi => absurd hi (Nat.not_lt_zero i)⟩
  | succ count ih =>
    intro parameters idx h
    obtain ⟨jk, jv, fk, fv, lk, lv⟩ := h 0 (Nat.succ_pos count)
    rw [Nat.add_zero] at fk fv
    obtain ⟨k, hk⟩ : ∃ k, parameters[jk]? = some k :=
      ⟨parameters[jk], List.getElem?_eq_getElem lk⟩
    obtain ⟨v, hv⟩ : ∃ v, parameters[jv]? = some v :=
      ⟨parameters[jv], List.getElem?_eq_getElem lv⟩
    obtain ⟨r1, e1⟩ := reset_rel_set parameters jk k hk
    have hv1 : ∃ v1, (parameters.set jk (reset_cache_param k))[jv]? = some v1 := by
      rcases r1.2 jv v hv with h' | h'
      · exact ⟨_, h'⟩
      · exact ⟨_, h'⟩
    obtain ⟨v1, hv1⟩ := hv1
    have hgetD : (parameters.set jk (reset_cache_param k)).getD jv v = v1 := by
      simp [List.getD_eq_getElem?_getD, hv1]
    obtain ⟨r2, e2⟩ := reset_rel_set (parameters.set jk (reset_cache_param k)) jv v1 hv1
    have r12 := reset_rel_trans _ _ _ r1 r2
    have ek : ∃ p', ((parameters.set jk (reset_cache_param k)).set jv
        (reset_cache_param v1))[jk]? = some p' ∧ is_erased p' :=
      reset_rel_erased _ _ r2 jk _ e1 (reset_cache_param_erased k)
    have hnext : ∀ i, i < count → ∃ jk' jv', ks.find (key_cache_name (idx + 1 + i)) = some jk' ∧
        vs.find (value_cache_name (idx + 1 + i)) = some jv' ∧
        jk' < ((parameters.set jk (reset_cache_param k)).set jv (reset_cache_param v1)).length ∧
        jv' < ((parameters.set jk (reset_cache_param k)).set jv
          (reset_cache_param v1)).length := by
      intro i hi
      obtain ⟨a, b, ha, hb, la, lb⟩ := h (i + 1) (by omega)
      refine ⟨a, b, ?_, ?_, by simpa using la, by simpa using lb⟩
      · rw [show idx + 1 + i = idx + (i + 1) by omega]
        exact ha
      · rw [show idx + 1 + i = idx + (i + 1) by omega]
        exact hb
    obtain ⟨i1, i2, i3⟩ := ih ((parameters.set jk (reset_cache_param k)).set jv
      (reset_cache_param v1)) (idx + 1) hnext
    have hunf : reset_cache_params ks vs parameters idx (count + 1)
        = reset_cache_params ks vs ((parameters.set jk (reset_cache_param k)).set jv
            (reset_cache_param v1)) (idx + 1) count := by
      simp only [reset_cache_params]
      rw [cache_param_eq _ _ _ _ _ fk hk, cache_param_eq _ _ _ _ _ fv hv]
      simp only
      rw [hgetD]
    rw [hunf]
    refine ⟨i1, reset_rel_trans _ _ _ r12 i2, ?_⟩
    intro i hi j hj
    cases i with
    | zero =>
      rw [Nat.add_zero] at hj
      rcases hj with hj | hj
      · rw [fk] at hj
        have := Option.some.inj hj
        subst this
        obtain ⟨p', hp', he'⟩ := ek
        exact reset_rel_erased _ _ i2 jk p' hp' he'
      · rw [fv] at hj
        have := Option.some.inj hj
        subst this
        exact reset_rel_erased _ _ i2 jv _ e2 (reset_cache_param_erased v1)
    | succ i =>
      apply i3 i (by omega) j
      rw [show idx + 1 + i = idx + (i + 1) by omega]
      exact hj

/-! ## apply_paged_attention_transformations -/

/-- What a successful call has gone through. -/
theorem apply_paged_attention_transformations_ok
    (SDPAToPagedAttention : Bool → Bool → Bool → Model → Model)
    (validate : Model → Except String Unit) (model : Model) (control rotation : Bool)
    (table : List KVHeadConfig)
    (h : (apply_paged_attention_transformations SDPAToPagedAttention validate model control
      rotation).2 = .ok table) :
    model.m_variables ≠ [] ∧
    (collect_cache_params (SDPAToPagedAttention control control rotation model).m_parameters 0
      ([], [])).1.size
      = (collect_cache_params (SDPAToPagedAttention control control rotation model).m_parameters
          0 ([], [])).2.size ∧
    0 < (collect_cache_params (SDPAToPagedAttention control control rotation model).m_parameters
      0 ([], [])).1.size ∧
    kv_cache_config_from (SDPAToPagedAttention control control rotation model).m_parameters
      (collect_cache_params (SDPAToPagedAttention control control rotation model).m_parameters 0
        ([], [])).1
      (collect_cache_params (SDPAToPagedAttention control control rotation model).m_parameters 0
        ([], [])).2 0
      (collect_cache_params (SDPAToPagedAttention control control rotation model).m_parameters 0
        ([], [])).1.size = .ok table ∧
    (apply_paged_attention_transformations SDPAToPagedAttention validate model control
      rotation).1.m_parameters
      = (reset_cache_params
          (collect_cache_params
            (SDPAToPagedAttention control control rotation model).m_parameters 0 ([], [])).1
          (collect_cache_params
            (SDPAToPagedAttention control control rotation model).m_parameters 0 ([], [])).2
          (SDPAToPagedAttention control control rotation model).m_parameters 0
          (collect_cache_params
            (SDPAToPagedAttention control control rotation model).m_parameters 0
            ([], [])).1.size).1 := by
  unfold apply_paged_attention_transformations at h
  by_cases hv : model.m_variables = []
  · simp [hv] at h
  · simp only [hv, if_false] at h
    split at h
    · rename_i hsize
      split at h
      · simp at h
      · rename_i kv hkv
        split at h
        · simp at h
        · split at h
          · simp at h
          · rename_i hreset u hval
            have ht : kv = table := Except.ok.inj h
            subst ht
            refine ⟨hv, hsize.1, hsize.2, hkv, ?_⟩
            unfold apply_paged_attention_transformations
            simp only [hv, if_false]
            rw [if_pos hsize]
            simp only [hkv, hreset, hval]
    · simp at h

theorem is_cache_param_iff (p : Parameter) :
    is_cache_param p = true ↔
      (starts_with "key_cache." p.friendly_name = true ∨
        starts_with "value_cache." p.friendly_name = true) := by
  simp [is_cache_param]

/-- With distinct cache names, a cache name is carried by one position only. -/
theorem distinct_cache_names_index (parameters : List Parameter)
    (hd : distinct_cache_names parameters) (i j : Nat) (p q : Parameter)
    (hp : parameters[i]? = some p) (hq : parameters[j]? = some q)
    (hname : p.friendly_name = q.friendly_name) (hc : is_cache_param p = true) : i = j := by
  unfold distinct_cache_names at hd
  rw [List.pairwise_iff_getElem] at hd
  obtain ⟨hi, rfl⟩ := List.getElem?_eq_some.mp hp
  obtain ⟨hj, rfl⟩ := List.getElem?_eq_some.mp hq
  have hcq : is_cache_param parameters[j] = true := by
    unfold is_cache_param at hc ⊢
    rw [← hname]
    exact hc
  rcases Nat.lt_trichotomy i j with hlt | heq | hgt
  · exact absurd hname (hd i j hi hj hlt hc)
  · exact heq
  · exact absurd hname.symm (hd j i hj hi hgt hcq)

/-- The maps built from the parameters of a graph: ordered, sound, complete. -/
theorem collect_cache_params_top (parameters : List Parameter) :
    (collect_cache_params parameters 0 ([], [])).1.ordered ∧
    (collect_cache_params parameters 0 ([], [])).2.ordered ∧
    (∀ n j, (collect_cache_params parameters 0 ([], [])).1.find n = some j →
      ∃ p, parameters[j]? = some p ∧ p.friendly_name = n ∧
        starts_with "key_cache." n = true) ∧
    (∀ n j, (collect_cache_params parameters 0 ([], [])).2.find n = some j →
      ∃ p, parameters[j]? = some p ∧ p.friendly_name = n ∧
        starts_with "value_cache." n = true) ∧
    (∀ p ∈ parameters, starts_with "key_cache." p.friendly_name = true →
      ((collect_cache_params parameters 0 ([], [])).1.find p.friendly_name).isSome = true) ∧
    (∀ p ∈ parameters, starts_with "value_cache." p.friendly_name = true →
      ((collect_cache_params parameters 0 ([], [])).2.find p.friendly_name).isSome = true) := by
  obtain ⟨s1, s2, s3, s4⟩ := collect_cache_params_sound parameters parameters 0 ([], [])
    (List.drop_zero _)
    ⟨StdMap.ordered_nil, StdMap.ordered_nil, fun n j h => by simp [StdMap.find] at h,
      fun n j h => by simp [StdMap.find] at h⟩
  obtain ⟨_, _, c3, c4⟩ := collect_cache_params_complete parameters 0 ([], [])
  exact ⟨s1, s2, s3, s4, c3, c4⟩

/-- After a successful first loop, every layer has found its two parameters at
positions of the parameter list. -/
theorem found_of_kv_cache_config (parameters : List Parameter) (ks vs : StdMap Nat)
    (count : Nat) (table : List KVHeadConfig)
    (h : kv_cache_config_from parameters ks vs 0 count = .ok table) :
    ∀ i, i < count → ∃ jk jv, ks.find (key_cache_name (0 + i)) = some jk ∧
      vs.find (value_cache_name (0 + i)) = some jv ∧
      jk < parameters.length ∧ jv < parameters.length := by
  intro i hi
  obtain ⟨c, _, hc⟩ := (kv_cache_config_from_ok parameters ks vs count 0 table h).2 i hi
  obtain ⟨jk, k, jv, v, h1, h2, h3, h4, _⟩ := kv_head_config_ok parameters ks vs (0 + i) c hc
  exact ⟨jk, jv, h1, h3, (List.getElem?_eq_some.mp h2).1, (List.getElem?_eq_some.mp h4).1⟩

theorem get_length_at_erased (p : Parameter) (h : is_erased p) :
    get_length_at p.partial_shape 1 = .error Error.dynamic_dimension := by
  rw [h.2]
  rfl

/-- Every entry of a table the first loop computes from the maps of a parameter
list holds dimensions 1 and 2 of a parameter named key_cache.i and of a
parameter named value_cache.i of that list. -/
theorem kv_cache_config_entries (parameters : List Parameter) (table : List KVHeadConfig)
    (count : Nat)
    (hkv : kv_cache_config_from parameters (collect_cache_params parameters 0 ([], [])).1
      (collect_cache_params parameters 0 ([], [])).2 0 count = .ok table) :
    ∀ (i : Nat) (c : KVHeadConfig), table[i]? = some c →
      ∃ k v, k ∈ parameters ∧ v ∈ parameters ∧
        k.friendly_name = key_cache_name i ∧ v.friendly_name = value_cache_name i ∧
        get_length_at k.partial_shape 1 = .ok c.num_k_heads ∧
        get_length_at k.partial_shape 2 = .ok c.k_head_size ∧
        get_length_at v.partial_shape 1 = .ok c.num_v_heads ∧
        get_length_at v.partial_shape 2 = .ok c.v_head_size := by
  obtain ⟨_, _, s3, s4, _, _⟩ := collect_cache_params_top parameters
  obtain ⟨hlen, hentries⟩ := kv_cache_config_from_ok _ _ _ _ 0 table hkv
  intro i c hc
  have hi : i < table.length := (List.getElem?_eq_some.mp hc).1
  rw [hlen] at hi
  obtain ⟨c', hc1, hc2⟩ := hentries i hi
  rw [hc] at hc1
  have := Option.some.inj hc1
  subst this
  rw [Nat.zero_add] at hc2
  obtain ⟨jk, k, jv, v, h1, h2, h3, h4, h5, h6, h7, h8⟩ := kv_head_config_ok _ _ _ i c hc2
  obtain ⟨pk, hpk, nk, _⟩ := s3 _ _ h1
  obtain ⟨pv, hpv, nv, _⟩ := s4 _ _ h3
  rw [h2] at hpk
  rw [h4] at hpv
  have ek := Option.some.inj hpk
  have ev := Option.some.inj hpv
  subst ek
  subst ev
  exact ⟨k, v, List.getElem?_mem h2, List.getElem?_mem h4, nk, nv, h5, h6, h7, h8⟩

/-- C9: whenever apply_paged_attention_transformations returns a table, entry i
holds dimensions 1 and 2 of the shapes that a parameter named key_cache.i and a
parameter named value_cache.i of the rewritten graph declare before the
erasure: the table is the one the first loop computes on the parameters as the
structural rewrite left them. The erasure that follows leaves the table as it
is, and the same loop on the returned graph fails on a dynamic dimension. -/
theorem C9_head_geometry_before_erasure
    (SDPAToPagedAttention : Bool → Bool → Bool → Model → Model)
    (validate : Model → Except String Unit) (model : Model) (control rotation : Bool)
    (table : List KVHeadConfig)
    (h : (apply_paged_attention_transformations SDPAToPagedAttention validate model control
      rotation).2 = .ok table) :
    (∀ (i : Nat) (c : KVHeadConfig), table[i]? = some c →
      ∃ k v, k ∈ (SDPAToPagedAttention control control rotation model).m_parameters ∧
        v ∈ (SDPAToPagedAttention control control rotation model).m_parameters ∧
        k.friendly_name = key_cache_name i ∧ v.friendly_name = value_cache_name i ∧
        get_length_at k.partial_shape 1 = .ok c.num_k_heads ∧
        get_length_at k.partial_shape 2 = .ok c.k_head_size ∧
        get_length_at v.partial_shape 1 = .ok c.num_v_heads ∧
        get_length_at v.partial_shape 2 = .ok c.v_head_size) ∧
    kv_cache_config_from (SDPAToPagedAttention control control rotation model).m_parameters
      (collect_cache_params (SDPAToPagedAttention control control rotation model).m_parameters 0
        ([], [])).1
      (collect_cache_params (SDPAToPagedAttention control control rotation model).m_parameters 0
        ([], [])).2 0 table.length = .ok table ∧
    kv_cache_config_from
      (apply_paged_attention_transformations SDPAToPagedAttention validate model control
        rotation).1.m_parameters
      (collect_cache_params (SDPAToPagedAttention control control rotation model).m_parameters 0
        ([], [])).1
      (collect_cache_params (SDPAToPagedAttention control control rotation model).m_parameters 0
        ([], [])).2 0 table.length = .error Error.dynamic_dimension := by
  obtain ⟨_, _, hpos, hkv, hfinal⟩ :=
    apply_paged_attention_transformations_ok SDPAToPagedAttention validate model control
      rotation table h
  obtain ⟨hlen, _⟩ := kv_cache_config_from_ok _ _ _ _ 0 table hkv
  have hfound := found_of_kv_cache_config _ _ _ _ table hkv
  obtain ⟨_, _, r3⟩ := reset_cache_params_spec _ _ _ _ 0 hfound
  rw [hlen]
  refine ⟨kv_cache_config_entries _ table _ hkv, hkv, ?_⟩
  · rw [hfinal]
    obtain ⟨n, hn⟩ : ∃ n, (collect_cache_params
        (SDPAToPagedAttention control control rotation model).m_parameters 0
        ([], [])).1.size = n + 1 := ⟨_, (Nat.succ_pred_eq_of_pos hpos).symm⟩
    obtain ⟨jk, jv, fk, _, _, _⟩ := hfound 0 hpos
    obtain ⟨p', hp', he'⟩ := r3 0 hpos jk (Or.inl fk)
    rw [Nat.add_zero] at fk
    rw [hn] at hp' ⊢
    simp only [kv_cache_config_from, kv_head_config]
    rw [cache_param_eq _ _ _ _ _ fk hp']
    simp only
    rw [get_length_at_erased p' he']

/-- C9 (witness): the two-layer graph. -/
theorem C9_head_geometry_before_erasure_witness :
    (apply_paged_attention_transformations rewrite_done validate_ok two_layer_model false
      false).2 = .ok [⟨8, 8, 32, 64⟩, ⟨4, 4, 96, 128⟩] ∧
    kv_cache_config_from
      (apply_paged_attention_transformations rewrite_done validate_ok two_layer_model false
        false).1.m_parameters
      (collect_cache_params (rewrite_done false false false two_layer_model).m_parameters 0
        ([], [])).1
      (collect_cache_params (rewrite_done false false false two_layer_model).m_parameters 0
        ([], [])).2 0 2 = .error Error.dynamic_dimension :=
  ⟨by decide,
    (C9_head_geometry_before_erasure rewrite_done validate_ok two_layer_model false false
      [⟨8, 8, 32, 64⟩, ⟨4, 4, 96, 128⟩] (by decide)).2.2⟩

/-- C10 (counterexample): on a graph in which two parameters carry the friendly
name key_cache.0, the call returns a table and the first of the two keeps its
element type and its shape. -/
theorem C10_duplicate_name_not_erased :
    (apply_paged_attention_transformations rewrite_done validate_ok duplicate_name_model false
      false).2 = .ok [⟨8, 4, 64, 32⟩] ∧
    (apply_paged_attention_transformations rewrite_done validate_ok duplicate_name_model false
      false).1.m_parameters[0]? = some (cache_parameter "key_cache.0" 8 64) ∧
    starts_with "key_cache." (cache_parameter "key_cache.0" 8 64).friendly_name = true ∧
    (cache_parameter "key_cache.0" 8 64).element_type ≠ ElementType.dynamic ∧
    (cache_parameter "key_cache.0" 8 64).partial_shape ≠ PartialShape.dynamic 4 := by
  decide

/-- C10 (as amended): whenever apply_paged_attention_transformations returns a
table and no cache parameter of the rewritten graph shares its friendly name
with another parameter, every parameter of the returned graph whose friendly
name starts with key_cache. or value_cache. has the dynamic element type and a
shape of rank 4 with four dynamic dimensions, whatever it had before. -/
theorem C10_cache_parameters_erased
    (SDPAToPagedAttention : Bool → Bool → Bool → Model → Model)
    (validate : Model → Except String Unit) (model : Model) (control rotation : Bool)
    (table : List KVHeadConfig)
    (h : (apply_paged_attention_transformations SDPAToPagedAttention validate model control
      rotation).2 = .ok table)
    (hd : distinct_cache_names (SDPAToPagedAttention control control rotation model).m_parameters) :
    ∀ p ∈ (apply_paged_attention_transformations SDPAToPagedAttention validate model control
        rotation).1.m_parameters,
      (starts_with "key_cache." p.friendly_name = true ∨
        starts_with "value_cache." p.friendly_name = true) →
      p.element_type = ElementType.dynamic ∧
      p.partial_shape = some [Dimension.dynamic, Dimension.dynamic, Dimension.dynamic,
        Dimension.dynamic] := by
  obtain ⟨_, hsize, hpos, hkv, hfinal⟩ :=
    apply_paged_attention_transformations_ok SDPAToPagedAttention validate model control
      rotation table h
  obtain ⟨o1, o2, s3, s4, c3, c4⟩ := collect_cache_params_top
    (SDPAToPagedAttention control control rotation model).m_parameters
  have hfound := found_of_kv_cache_config _ _ _ _ table hkv
  obtain ⟨_, r2, r3⟩ := reset_cache_params_spec _ _ _ _ 0 hfound
  rw [hfinal]
  intro p' hp' hprefix
  obtain ⟨j, hj⟩ := List.getElem?_of_mem hp'
  have hjlt : j < (SDPAToPagedAttention control control rotation model).m_parameters.length := by
    rw [← r2.1]
    exact (List.getElem?_eq_some.mp hj).1
  obtain ⟨p, hp⟩ : ∃ p, (SDPAToPagedAttention control control rotation model).m_parameters[j]?
      = some p := ⟨_, List.getElem?_eq_getElem hjlt⟩
  have hname : p'.friendly_name = p.friendly_name := by
    rcases r2.2 j p hp with e | e
    · rw [hj] at e
      rw [Option.some.inj e]
    · rw [hj] at e
      rw [Option.some.inj e]
      rfl
  rw [hname] at hprefix
  have hmem : p ∈ (SDPAToPagedAttention control control rotation model).m_parameters :=
    List.getElem?_mem hp
  have hcache : is_cache_param p = true := (is_cache_param_iff p).mpr hprefix
  have herased : ∃ q, (reset_cache_params
      (collect_cache_params (SDPAToPagedAttention control control rotation model).m_parameters
        0 ([], [])).1
      (collect_cache_params (SDPAToPagedAttention control control rotation model).m_parameters
        0 ([], [])).2
      (SDPAToPagedAttention control control rotation model).m_parameters 0
      (collect_cache_params (SDPAToPagedAttention control control rotation model).m_parameters
        0 ([], [])).1.size).1[j]? = some q ∧ is_erased q := by
    rcases hprefix with hk | hv
    · obtain ⟨i, hi, hni⟩ := StdMap.keys_of_size _ key_cache_name key_cache_name_injective _ rfl
        (fun i hi => by
          obtain ⟨jk, _, fk, _⟩ := hfound i hi
          rw [Nat.zero_add] at fk
          simp [fk]) p.friendly_name (c3 p hmem hk)
      obtain ⟨jk, _, fk, _⟩ := hfound i hi
      obtain ⟨p0, hp0, hn0, _⟩ := s3 _ _ fk
      have hjk : j = jk := distinct_cache_names_index _ hd j jk p p0 hp hp0
        (by rw [hn0, Nat.zero_add, hni]) hcache
      subst hjk
      exact r3 i hi j (Or.inl fk)
    · obtain ⟨i, hi, hni⟩ := StdMap.keys_of_size _ value_cache_name value_cache_name_injective
        _ hsize.symm
        (fun i hi => by
          obtain ⟨_, jv, _, fv, _⟩ := hfound i hi
          rw [Nat.zero_add] at fv
          simp [fv]) p.friendly_name (c4 p hmem hv)
      obtain ⟨_, jv, _, fv, _⟩ := hfound i hi
      obtain ⟨p0, hp0, hn0, _⟩ := s4 _ _ fv
      have hjv : j = jv := distinct_cache_names_index _ hd j jv p p0 hp hp0
        (by rw [hn0, Nat.zero_add, hni]) hcache
      subst hjv
      exact r3 i hi j (Or.inr fv)
  obtain ⟨q, hq, he⟩ := herased
  rw [hj] at hq
  have := Option.some.inj hq
  subst this
  exact he

/-- C10 (witness): the two-layer graph, whose cache names are distinct. -/
theorem C10_cache_parameters_erased_witness :
    (apply_paged_attention_transformations rewrite_done validate_ok two_layer_model false
      false).2 = .ok [⟨8, 8, 32, 64⟩, ⟨4, 4, 96, 128⟩] ∧
    distinct_cache_names (rewrite_done false false false two_layer_model).m_parameters ∧
    ∀ p ∈ (apply_paged_attention_transformations rewrite_done validate_ok two_layer_model false
        false).1.m_parameters,
      (starts_with "key_cache." p.friendly_name = true ∨
        starts_with "value_cache." p.friendly_name = true) →
      p.element_type = ElementType.dynamic ∧
      p.partial_shape = some [Dimension.dynamic, Dimension.dynamic, Dimension.dynamic,
        Dimension.dynamic] :=
  ⟨by decide, by unfold distinct_cache_names; decide,
    C10_cache_parameters_erased rewrite_done validate_ok two_layer_model false false
      [⟨8, 8, 32, 64⟩, ⟨4, 4, 96, 128⟩] (by decide) (by unfold distinct_cache_names; decide)⟩

/-- C8 (counterexample): a rewritten graph with one layer, named key_cache.0 and
value_cache.0, whose key cache parameter declares zero heads: the table has one
entry and its num_k_heads is 0. -/
theorem C8_zero_heads_returned :
    zero_heads_model.m_parameters.map Parameter.friendly_name
      = [key_cache_name 0, value_cache_name 0] ∧
    (apply_paged_attention_transformations rewrite_done validate_ok zero_heads_model false
      false).2 = .ok [⟨8, 0, 64, 64⟩] ∧
    ¬ (0 < (KVHeadConfig.mk 8 0 64 64).num_k_heads) := by
  decide

/-- C8 (as amended): for a stateful graph whose rewritten form has the key cache
parameters key_cache.0 .. key_cache.(N-1) and the value cache parameters
value_cache.0 .. value_cache.(N-1), N at least 1, all with static dimensions 1
and 2, and which validation accepts (the one call of the validation, on the
graph as the reset loop over the N layers leaves it, raises nothing),
apply_paged_attention_transformations returns a table of exactly N entries in
ascending layer order: entry i holds dimensions 1 and 2 of the shapes of
key_cache.i and value_cache.i, as declared (so each value is positive exactly
when the declared dimension is). -/
theorem C8_head_table
    (SDPAToPagedAttention : Bool → Bool → Bool → Model → Model)
    (validate : Model → Except String Unit) (model : Model) (control rotation : Bool) (N : Nat)
    (hvars : model.m_variables ≠ []) (hN : 0 < N)
    (hkeys : (((SDPAToPagedAttention control control rotation model).m_parameters.filter
        (fun p => starts_with "key_cache." p.friendly_name)).map Parameter.friendly_name).Perm
      ((List.range N).map key_cache_name))
    (hvalues : (((SDPAToPagedAttention control control rotation model).m_parameters.filter
        (fun p => starts_with "value_cache." p.friendly_name)).map Parameter.friendly_name).Perm
      ((List.range N).map value_cache_name))
    (hstatic : ∀ p ∈ (SDPAToPagedAttention control control rotation model).m_parameters,
      is_cache_param p = true →
      ∃ a b, get_length_at p.partial_shape 1 = .ok a ∧ get_length_at p.partial_shape 2 = .ok b)
    (hvalid : validate
        { (SDPAToPagedAttention control control rotation model) with
          m_parameters :=
            (reset_cache_params
              (collect_cache_params
                (SDPAToPagedAttention control control rotation model).m_parameters 0 ([], [])).1
              (collect_cache_params
                (SDPAToPagedAttention control control rotation model).m_parameters 0 ([], [])).2
              (SDPAToPagedAttention control control rotation model).m_parameters 0 N).1 }
      = .ok ()) :
    ∃ table,
      (apply_paged_attention_transformations SDPAToPagedAttention validate model control
        rotation).2 = .ok table ∧
      table.length = N ∧
      ∀ i, i < N → ∃ c k v, table[i]? = some c ∧
        k ∈ (SDPAToPagedAttention control control rotation model).m_parameters ∧
        v ∈ (SDPAToPagedAttention control control rotation model).m_parameters ∧
        k.friendly_name = key_cache_name i ∧ v.friendly_name = value_cache_name i ∧
        get_length_at k.partial_shape 1 = .ok c.num_k_heads ∧
        get_length_at k.partial_shape 2 = .ok c.k_head_size ∧
        get_length_at v.partial_shape 1 = .ok c.num_v_heads ∧
        get_length_at v.partial_shape 2 = .ok c.v_head_size := by
  obtain ⟨o1, o2, s3, s4, c3, c4⟩ := collect_cache_params_top
    (SDPAToPagedAttention control control rotation model).m_parameters
  have hk : ∀ n, ((collect_cache_params
      (SDPAToPagedAttention control control rotation model).m_parameters 0 ([], [])).1.find
        n).isSome = true ↔ ∃ i, i < N ∧ n = key_cache_name i := by
    intro n
    constructor
    · intro hs
      obtain ⟨j, hj⟩ := Option.isSome_iff_exists.mp hs
      obtain ⟨p, hp, hn, hpre⟩ := s3 n j hj
      have hmem : n ∈ ((SDPAToPagedAttention control control rotation model).m_parameters.filter
          (fun p => starts_with "key_cache." p.friendly_name)).map Parameter.friendly_name := by
        rw [List.mem_map]
        exact ⟨p, List.mem_filter.mpr ⟨List.getElem?_mem hp, by rw [hn]; exact hpre⟩, hn⟩
      have := hkeys.subset hmem
      obtain ⟨i, hi, rfl⟩ := List.mem_map.mp this
      exact ⟨i, List.mem_range.mp hi, rfl⟩
    · rintro ⟨i, hi, rfl⟩
      have : key_cache_name i ∈ (List.range N).map key_cache_name :=
        List.mem_map.mpr ⟨i, List.mem_range.mpr hi, rfl⟩
      obtain ⟨p, hp, hn⟩ := List.mem_map.mp (hkeys.symm.subset this)
      obtain ⟨hp1, hp2⟩ := List.mem_filter.mp hp
      rw [← hn]
      exact c3 p hp1 hp2
  have hv : ∀ n, ((collect_cache_params
      (SDPAToPagedAttention control control rotation model).m_parameters 0 ([], [])).2.find
        n).isSome = true ↔ ∃ i, i < N ∧ n = value_cache_name i := by
    intro n
    constructor
    · intro hs
      obtain ⟨j, hj⟩ := Option.isSome_iff_exists.mp hs
      obtain ⟨p, hp, hn, hpre⟩ := s4 n j hj
      have hmem : n ∈ ((SDPAToPagedAttention control control rotation model).m_parameters.filter
          (fun p => starts_with "value_cache." p.friendly_name)).map
            Parameter.friendly_name := by
        rw [List.mem_map]
        exact ⟨p, List.mem_filter.mpr ⟨List.getElem?_mem hp, by rw [hn]; exact hpre⟩, hn⟩
      have := hvalues.subset hmem
      obtain ⟨i, hi, rfl⟩ := List.mem_map.mp this
      exact ⟨i, List.mem_range.mp hi, rfl⟩
    · rintro ⟨i, hi, rfl⟩
      have : value_cache_name i ∈ (List.range N).map value_cache_name :=
        List.mem_map.mpr ⟨i, List.mem_range.mpr hi, rfl⟩
      obtain ⟨p, hp, hn⟩ := List.mem_map.mp (hvalues.symm.subset this)
      obtain ⟨hp1, hp2⟩ := List.mem_filter.mp hp
      rw [← hn]
      exact c4 p hp1 hp2
  have hsk := StdMap.size_of_keys _ o1 key_cache_name key_cache_name_injective N hk
  have hsv := StdMap.size_of_keys _ o2 value_cache_name value_cache_name_injective N hv
  have hbody : ∀ i, i < N → ∃ c, kv_head_config
      (SDPAToPagedAttention control control rotation model).m_parameters
      (collect_cache_params (SDPAToPagedAttention control control rotation model).m_parameters
        0 ([], [])).1
      (collect_cache_params (SDPAToPagedAttention control control rotation model).m_parameters
        0 ([], [])).2 (0 + i) = .ok c := by
    intro i hi
    rw [Nat.zero_add]
    obtain ⟨jk, fk⟩ := Option.isSome_iff_exists.mp ((hk _).mpr ⟨i, hi, rfl⟩)
    obtain ⟨jv, fv⟩ := Option.isSome_iff_exists.mp ((hv _).mpr ⟨i, hi, rfl⟩)
    obtain ⟨k, hk1, hk2, hk3⟩ := s3 _ _ fk
    obtain ⟨v, hv1, hv2, hv3⟩ := s4 _ _ fv
    obtain ⟨a, b, ha, hb⟩ := hstatic k (List.getElem?_mem hk1)
      ((is_cache_param_iff k).mpr (Or.inl (by rw [hk2]; exact hk3)))
    obtain ⟨a', b', ha', hb'⟩ := hstatic v (List.getElem?_mem hv1)
      ((is_cache_param_iff v).mpr (Or.inr (by rw [hv2]; exact hv3)))
    exact ⟨_, kv_head_config_eq _ _ _ i jk jv k v a b a' b' fk hk1 fv hv1 ha hb ha' hb'⟩
  obtain ⟨table, hkv⟩ := kv_cache_config_from_eq _ _ _ N 0 hbody
  have hfound := found_of_kv_cache_config _ _ _ _ table hkv
  obtain ⟨r1, _, _⟩ := reset_cache_params_spec _ _ _ _ 0 hfound
  obtain ⟨hlen, _⟩ := kv_cache_config_from_ok _ _ _ _ 0 table hkv
  refine ⟨table, ?_, hlen, ?_⟩
  · unfold apply_paged_attention_transformations
    simp only [hvars, if_false]
    rw [if_pos ⟨by rw [hsk, hsv], by rw [hsk]; exact hN⟩, hsk, hkv]
    simp only [r1, hvalid]
  · intro i hi
    have hi' : i < table.length := by
      rw [hlen]
      exact hi
    obtain ⟨c, hc⟩ : ∃ c, table[i]? = some c := ⟨table[i], List.getElem?_eq_getElem hi'⟩
    obtain ⟨k, v, e1, e2, e3, e4, e5, e6, e7, e8⟩ := kv_cache_config_entries _ table N hkv i c hc
    exact ⟨c, k, v, hc, e1, e2, e3, e4, e5, e6, e7, e8⟩

/-- C8 (witness): the two-layer graph, with a validation that accepts a graph
only when its cache parameters are erased (it rejects the graph as given). -/
theorem C8_head_table_witness :
    two_layer_model.m_variables ≠ [] ∧ 0 < 2 ∧
    validate_erased two_layer_model ≠ .ok () ∧
    ∃ table,
      (apply_paged_attention_transformations rewrite_done validate_erased two_layer_model false
        false).2 = .ok table ∧ table.length = 2 := by
  have hstatic : ∀ p ∈ (rewrite_done false false false two_layer_model).m_parameters,
      is_cache_param p = true →
      ∃ a b, get_length_at p.partial_shape 1 = .ok a ∧
        get_length_at p.partial_shape 2 = .ok b := by
    intro p hp hc
    simp only [rewrite_done, two_layer_model, List.mem_cons, List.mem_singleton,
      List.not_mem_nil, or_false] at hp
    rcases hp with rfl | rfl | rfl | rfl | rfl
    · exact absurd hc (by decide)
    · exact ⟨4, 128, rfl, rfl⟩
    · exact ⟨4, 96, rfl, rfl⟩
    · exact ⟨8, 64, rfl, rfl⟩
    · exact ⟨8, 32, rfl, rfl⟩
  obtain ⟨table, h1, h2, _⟩ := C8_head_table rewrite_done validate_erased two_layer_model false
    false 2 (by decide) (by decide) (by decide) (by decide) hstatic (by decide)
  exact ⟨by decide, by decide, by decide, table, h1, h2⟩

/-! ## Failures of apply_paged_attention_transformations -/

/-- The key map holds one entry for each distinct friendly name that starts with
key_cache., the value map one for each that starts with value_cache. -/
theorem collect_cache_params_size (parameters : List Parameter) :
    (collect_cache_params parameters 0 ([], [])).1.size
      = (cache_names "key_cache." parameters).dedup.length ∧
    (collect_cache_params parameters 0 ([], [])).2.size
      = (cache_names "value_cache." parameters).dedup.length := by
  obtain ⟨o1, o2, s3, s4, c3, c4⟩ := collect_cache_params_top parameters
  constructor
  · have hperm : (collect_cache_params parameters 0 ([], [])).1.keys.Perm
        (cache_names "key_cache." parameters).dedup := by
      rw [List.perm_ext_iff_of_nodup (StdMap.keys_nodup _ o1) (List.nodup_dedup _)]
      intro k
      rw [StdMap.mem_keys_iff, List.mem_dedup]
      constructor
      · intro hk
        obtain ⟨j, hj⟩ := Option.isSome_iff_exists.mp hk
        obtain ⟨p, hp, hn, hs⟩ := s3 k j hj
        refine List.mem_map.mpr ⟨p, List.mem_filter.mpr ⟨List.getElem?_mem hp, ?_⟩, hn⟩
        rw [hn]
        exact hs
      · intro hk
        obtain ⟨p, hp, hn⟩ := List.mem_map.mp hk
        obtain ⟨hp1, hp2⟩ := List.mem_filter.mp hp
        rw [← hn]
        exact c3 p hp1 hp2
    rw [← hperm.length_eq]
    simp [StdMap.size, StdMap.keys]
  · have hperm : (collect_cache_params parameters 0 ([], [])).2.keys.Perm
        (cache_names "value_cache." parameters).dedup := by
      rw [List.perm_ext_iff_of_nodup (StdMap.keys_nodup _ o2) (List.nodup_dedup _)]
      intro k
      rw [StdMap.mem_keys_iff, List.mem_dedup]
      constructor
      · intro hk
        obtain ⟨j, hj⟩ := Option.isSome_iff_exists.mp hk
        obtain ⟨p, hp, hn, hs⟩ := s4 k j hj
        refine List.mem_map.mpr ⟨p, List.mem_filter.mpr ⟨List.getElem?_mem hp, ?_⟩, hn⟩
        rw [hn]
        exact hs
      · intro hk
        obtain ⟨p, hp, hn⟩ := List.mem_map.mp hk
        obtain ⟨hp1, hp2⟩ := List.mem_filter.mp hp
        rw [← hn]
        exact c4 p hp1 hp2
    rw [← hperm.length_eq]
    simp [StdMap.size, StdMap.keys]

/-- With distinct cache names, the names that start with a cache prefix are as
many as the parameters that carry them. -/
theorem cache_names_nodup (pre : String) (parameters : List Parameter)
    (hpre : ∀ p : Parameter, starts_with pre p.friendly_name = true → is_cache_param p = true)
    (hd : distinct_cache_names parameters) :
    (cache_names pre parameters).dedup.length
      = (parameters.filter (fun p => starts_with pre p.friendly_name)).length := by
  have hn : (cache_names pre parameters).Nodup := by
    unfold cache_names List.Nodup
    rw [List.pairwise_map]
    have hsub : (parameters.filter (fun p => starts_with pre p.friendly_name)).Sublist
      parameters := List.filter_sublist _
    have h1 := hd.sublist hsub
    refine List.Pairwise.imp_of_mem ?_ h1
    intro p q hp _ hpq
    exact hpq (hpre p (List.mem_filter.mp hp).2)
  rw [hn.dedup]
  simp [cache_names]

/-- The failures before the first loop: the graph and the error. -/
theorem apply_paged_attention_transformations_count
    (SDPAToPagedAttention : Bool → Bool → Bool → Model → Model)
    (validate : Model → Except String Unit) (model : Model) (control rotation : Bool)
    (hv : model.m_variables ≠ [])
    (h : (cache_names "key_cache."
          (SDPAToPagedAttention control control rotation model).m_parameters).dedup.length
        ≠ (cache_names "value_cache."
          (SDPAToPagedAttention control control rotation model).m_parameters).dedup.length ∨
      (cache_names "key_cache."
          (SDPAToPagedAttention control control rotation model).m_parameters).dedup.length = 0) :
    apply_paged_attention_transformations SDPAToPagedAttention validate model control rotation
      = (SDPAToPagedAttention control control rotation model, .error Error.cache_params_count) := by
  obtain ⟨h1, h2⟩ := collect_cache_params_size
    (SDPAToPagedAttention control control rotation model).m_parameters
  unfold apply_paged_attention_transformations
  rw [if_neg hv]
  simp only
  rw [if_neg]
  rw [h1, h2]
  rintro ⟨e1, e2⟩
  rcases h with h | h
  · exact h e1
  · omega

/-- C11 (counterexample): a graph with two parameters whose name starts with
key_cache. and one whose name starts with value_cache.; the numbers differ and
the call returns a table. -/
theorem C11_unequal_numbers_accepted :
    (duplicate_name_model.m_parameters.filter
      (fun p => starts_with "key_cache." p.friendly_name)).length = 2 ∧
    (duplicate_name_model.m_parameters.filter
      (fun p => starts_with "value_cache." p.friendly_name)).length = 1 ∧
    ∃ table, (apply_paged_attention_transformations rewrite_done validate_ok duplicate_name_model
      false false).2 = .ok table := by
  refine ⟨by decide, by decide, [⟨8, 4, 64, 32⟩], by decide⟩

/-- C11 (as amended): apply_paged_attention_transformations fails with the graph
untouched whenever the graph declares no state variable; otherwise it fails on
the count assertion, no table returned, whenever the number of distinct friendly
names starting with key_cache. differs from the number of distinct friendly names
starting with value_cache. in the rewritten graph or there is no such name; with
distinct cache names these are the numbers of the key and of the value cache
parameters. -/
theorem C11_missing_cache_parameters
    (SDPAToPagedAttention : Bool → Bool → Bool → Model → Model)
    (validate : Model → Except String Unit) (model : Model) (control rotation : Bool) :
    (model.m_variables = [] →
      apply_paged_attention_transformations SDPAToPagedAttention validate model control rotation
        = (model, .error Error.not_stateful)) ∧
    (model.m_variables ≠ [] →
      ((cache_names "key_cache."
          (SDPAToPagedAttention control control rotation model).m_parameters).dedup.length
        ≠ (cache_names "value_cache."
          (SDPAToPagedAttention control control rotation model).m_parameters).dedup.length ∨
      (cache_names "key_cache."
          (SDPAToPagedAttention control control rotation model).m_parameters).dedup.length = 0) →
      apply_paged_attention_transformations SDPAToPagedAttention validate model control rotation
        = (SDPAToPagedAttention control control rotation model,
            .error Error.cache_params_count)) ∧
    (model.m_variables ≠ [] →
      distinct_cache_names (SDPAToPagedAttention control control rotation model).m_parameters →
      (((SDPAToPagedAttention control control rotation model).m_parameters.filter
          (fun p => starts_with "key_cache." p.friendly_name)).length
        ≠ ((SDPAToPagedAttention control control rotation model).m_parameters.filter
          (fun p => starts_with "value_cache." p.friendly_name)).length ∨
      ((SDPAToPagedAttention control control rotation model).m_parameters.filter
          (fun p => starts_with "key_cache." p.friendly_name)).length = 0) →
      apply_paged_attention_transformations SDPAToPagedAttention validate model control rotation
        = (SDPAToPagedAttention control control rotation model,
            .error Error.cache_params_count)) := by
  refine ⟨?_, ?_, ?_⟩
  · intro hv
    unfold apply_paged_attention_transformations
    rw [if_pos hv]
  · intro hv h
    exact apply_paged_attention_transformations_count SDPAToPagedAttention validate model control
      rotation hv h
  · intro hv hd h
    apply apply_paged_attention_transformations_count SDPAToPagedAttention validate model control
      rotation hv
    rw [cache_names_nodup "key_cache." _ (fun p hp => (is_cache_param_iff p).mpr (Or.inl hp)) hd,
      cache_names_nodup "value_cache." _ (fun p hp => (is_cache_param_iff p).mpr (Or.inr hp)) hd]
    exact h

/-- C11 (witness): a graph without state variables, a graph without cache
parameters, and a graph with one key and no value cache parameter. -/
theorem C11_missing_cache_parameters_witness :
    apply_paged_attention_transformations rewrite_done validate_ok
        { m_variables := [], m_parameters := two_layer_model.m_parameters } false false
      = ({ m_variables := [], m_parameters := two_layer_model.m_parameters },
          .error Error.not_stateful) ∧
    apply_paged_attention_transformations rewrite_done validate_ok no_cache_model false false
      = (no_cache_model, .error Error.cache_params_count) ∧
    apply_paged_attention_transformations rewrite_done validate_ok
        { m_variables := ["past_key_values.0.key"],
          m_parameters := [cache_parameter "key_cache.0" 8 64] } false false
      = ({ m_variables := ["past_key_values.0.key"],
           m_parameters := [cache_parameter "key_cache.0" 8 64] },
          .error Error.cache_params_count) :=
  ⟨(C11_missing_cache_parameters rewrite_done validate_ok
      { m_variables := [], m_parameters := two_layer_model.m_parameters } false false).1 rfl,
    (C11_missing_cache_parameters rewrite_done validate_ok no_cache_model false false).2.1
      (by decide) (Or.inr (by decide)),
    (C11_missing_cache_parameters rewrite_done validate_ok
      { m_variables := ["past_key_values.0.key"],
        m_parameters := [cache_parameter "key_cache.0" 8 64] } false false).2.2
      (by decide) (by unfold distinct_cache_names; simp [rewrite_done]) (Or.inl (by decide))⟩

/-- C12 (the code at the failing input): on a graph whose key cache parameters
are named key_cache.0 and key_cache.2, and on one whose only key cache parameter
is named key_cache.00, the first loop looks up a name the map does not hold and
reads the shape through the null pointer it gets; no assertion is raised before. -/
theorem C12_missing_name_dereferenced :
    apply_paged_attention_transformations rewrite_done validate_ok gap_model false false
      = (gap_model, .error (Error.null_dereference "key_cache.1")) ∧
    apply_paged_attention_transformations rewrite_done validate_ok padded_suffix_model false false
      = (padded_suffix_model, .error (Error.null_dereference "key_cache.0")) := by
  constructor <;> decide

/-! ## The replacement loop of patch_template -/

theorem replace_all_from_skip (f t : List Char) (s : List Char) (k : Nat) :
    replace_all_from f t k s = replace_all_from f t 0 (s.drop k) := by
  induction s generalizing k with
  | nil => cases k <;> simp [replace_all_from]
  | cons c rest ih =>
    cases k with
    | zero => simp
    | succ k => simp [replace_all_from, ih k]

theorem replace_all_from_cons (f t : List Char) (hf : f ≠ []) (c : Char) (rest : List Char) :
    replace_all_from f t 0 (c :: rest)
      = if f.isPrefixOf (c :: rest) then t ++ replace_all_from f t 0 ((c :: rest).drop f.length)
        else c :: replace_all_from f t 0 rest := by
  have hlen : 0 < f.length := List.length_pos.mpr hf
  obtain ⟨n, hn⟩ : ∃ n, f.length = n + 1 := ⟨f.length - 1, by omega⟩
  rw [replace_all_from]
  rw [replace_all_from_skip f t rest (f.length - 1)]
  simp [hn]

theorem find_at_none (f t : List Char) (hf : f ≠ []) (rest : List Char) (i : Nat)
    (h : find_at f rest i = none) : replace_all_from f t 0 rest = rest := by
  induction rest generalizing i with
  | nil => simp [replace_all_from]
  | cons c rest ih =>
    unfold find_at at h
    split at h
    · exact absurd h (by simp)
    · rename_i hp
      rw [replace_all_from_cons f t hf, if_neg hp, ih (i + 1) h]

theorem find_at_some (f t : List Char) (hf : f ≠ []) (rest : List Char) (i j : Nat)
    (h : find_at f rest i = some j) :
    i ≤ j ∧ (j - i) + f.length ≤ rest.length ∧
      f.isPrefixOf (rest.drop (j - i)) = true ∧
      replace_all_from f t 0 rest
        = rest.take (j - i) ++ t ++ replace_all_from f t 0 (rest.drop (j - i + f.length)) := by
  induction rest generalizing i with
  | nil =>
    unfold find_at at h
    split at h
    · rename_i hp
      rw [List.isPrefixOf_iff_prefix] at hp
      exact absurd (List.prefix_nil.mp hp) hf
    · exact absurd h (by simp)
  | cons c rest ih =>
    unfold find_at at h
    split at h
    · rename_i hp
      injection h with h
      subst h
      have hl := (List.isPrefixOf_iff_prefix.mp hp).length_le
      refine ⟨le_refl _, by simpa using hl, by simpa using hp, ?_⟩
      rw [replace_all_from_cons f t hf, if_pos hp]
      simp
    · rename_i hp
      obtain ⟨h1, h2, h3, h4⟩ := ih (i + 1) h
      have e : j - i = (j - (i + 1)) + 1 := by omega
      refine ⟨by omega, by simp only [List.length_cons]; omega, ?_, ?_⟩
      · rw [e, List.drop_succ_cons]
        exact h3
      · rw [replace_all_from_cons f t hf, if_neg hp, h4, e]
        simp [List.drop_succ_cons, Nat.add_right_comm]

/-- The loop from position `pos` on leaves the text before `pos` as it is and
replaces in the text after it as one replace-all pass does. -/
theorem replace_loop_eq (f t : List Char) (hf : f ≠ []) (n : Nat) :
    ∀ (s : List Char) (pos : Nat), s.length - pos ≤ n → pos ≤ s.length →
      replace_loop f t hf s pos = s.take pos ++ replace_all_from f t 0 (s.drop pos) := by
  induction n with
  | zero =>
    intro s pos hn hpos
    have e : pos = s.length := by omega
    subst e
    rw [replace_loop]
    split
    · simp [replace_all_from]
    · rename_i found h
      unfold string_find at h
      rw [if_neg (by omega)] at h
      have := (find_at_some f t hf _ _ _ h).2.1
      simp only [List.drop_length, List.length_nil] at this
      have hlen : 0 < f.length := List.length_pos.mpr hf
      omega
  | succ n ih =>
    intro s pos hn hpos
    rw [replace_loop]
    split
    · rename_i h
      unfold string_find at h
      rw [if_neg (by omega)] at h
      rw [find_at_none f t hf _ _ h, List.take_append_drop]
    · rename_i found h
      unfold string_find at h
      rw [if_neg (by omega)] at h
      obtain ⟨h1, h2, _, h4⟩ := find_at_some f t hf _ _ _ h
      have hlen : 0 < f.length := List.length_pos.mpr hf
      simp only [List.length_drop] at h2
      simp only
      rw [ih _ _ (by simp only [string_replace, List.length_append, List.length_take,
        List.length_drop]; omega) (by simp only [string_replace, List.length_append,
        List.length_take, List.length_drop]; omega)]
      rw [h4]
      have e1 : List.take (found + t.length) (string_replace s found f.length t)
          = List.take found s ++ t := by
        unfold string_replace
        rw [List.take_append_eq_append_take]
        have : (List.take found s ++ t).length = found + t.length := by
          simp only [List.length_append, List.length_take]; omega
        rw [← this, List.take_length]
        simp
      have e2 : List.drop (found + t.length) (string_replace s found f.length t)
          = List.drop (found + f.length) s := by
        unfold string_replace
        have : (List.take found s ++ t).length = found + t.length := by
          simp only [List.length_append, List.length_take]; omega
        rw [← this, List.drop_left]
      rw [e1, e2]
      have e3 : List.take (found - pos) (List.drop pos s) = List.drop pos (List.take found s) := by
        rw [List.drop_take]
      have e4 : List.drop (found - pos + f.length) (List.drop pos s)
          = List.drop (found + f.length) s := by
        rw [List.drop_drop]
        congr 1
        omega
      rw [e3, e4]
      have e5 : List.take pos s = List.take pos (List.take found s) := by
        rw [List.take_take, Nat.min_eq_left h1]
      rw [e5]
      simp only [← List.append_assoc, List.take_append_drop]

/-- The loop over the entries is the sequence of the replace-all passes. -/
theorem replace_entries_eq (entries : List (String × String))
    (h : ∀ e ∈ entries, e.1.data ≠ []) (s : List Char) :
    replace_entries entries h s = entries.foldl (fun acc e => replace_all e.1 e.2 acc) s := by
  induction entries generalizing s with
  | nil => rfl
  | cons e rest ih =>
    rw [replace_entries, ih, List.foldl_cons]
    rw [replace_loop_eq e.1.data e.2.data _ s.length s 0 (by omega) (by omega)]
    simp [replace_all]

theorem patch_template_eq (t : String) :
    patch_template t
      = String.mk (replace_str_map.foldl (fun acc e => replace_all e.1 e.2 acc) t.data) := by
  unfold patch_template
  rw [replace_entries_eq]

/-- C17: patch_template is the sequence of seven replace-all passes in the order
of the table, the first pass applied first; each pass scans from left to right,
replaces an occurrence that starts at the scanned character by the replacement
and resumes after the occurrence, so that the inserted text is not scanned, and
copies the character otherwise. -/
theorem C17_patch_template_passes (t : String) :
    patch_template t = String.mk
      (replace_all "messages[1:]" "slice(messages, 1)"
        (replace_all "= none" "= undefined"
          (replace_all "is none" "is undefined"
            (replace_all "is not none" "is defined"
              (replace_all ".strip()" ""
                (replace_all "\x7b'" "\x7b '"
                  (replace_all "'\x7d" "' \x7d" t.data))))))) ∧
    ∀ e ∈ replace_str_map,
      replace_all e.1 e.2 [] = [] ∧
      ∀ (c : Char) (rest : List Char),
        replace_all e.1 e.2 (c :: rest)
          = if e.1.data.isPrefixOf (c :: rest) then
              e.2.data ++ replace_all e.1 e.2 ((c :: rest).drop e.1.data.length)
            else c :: replace_all e.1 e.2 rest := by
  constructor
  · rw [patch_template_eq]
    rfl
  · intro e he
    have hne : e.1.data ≠ [] := by
      revert e
      decide
    exact ⟨by simp [replace_all, replace_all_from],
      fun c rest => replace_all_from_cons e.1.data e.2.data hne c rest⟩

/-- C17 (witness): the first pass on the empty text and on a text that starts
with its pattern. -/
theorem C17_patch_template_passes_witness :
    replace_all "'\x7d" "' \x7d" [] = [] ∧
    replace_all "'\x7d" "' \x7d" "'\x7d\x7d".data = "' \x7d".data ++ replace_all "'\x7d" "' \x7d" "\x7d".data :=
  ⟨((C17_patch_template_passes "x").2 ("'\x7d", "' \x7d") (by decide)).1,
    ((C17_patch_template_passes "x").2 ("'\x7d", "' \x7d") (by decide)).2 _ _⟩

/-! ## Patterns in the patched text -/

/-- No rest of the pattern starts a text that starts with the inserted text. -/
theorem no_overlap_start_spec (p t : List Char) (h : no_overlap_start p t = true) (k : Nat)
    (hk : k < p.length) (w : List Char) : ¬ (p.drop k <+: t ++ w) := by
  intro hp
  unfold no_overlap_start at h
  rw [List.all_eq_true] at h
  have := h k (List.mem_range.mpr hk)
  simp only [Bool.and_eq_true, Bool.not_eq_true', ← Bool.not_eq_true,
    List.isPrefixOf_iff_prefix] at this
  rcases List.prefix_or_prefix_of_prefix hp (List.prefix_append t w) with h1 | h1
  · exact this.1 h1
  · exact this.2 h1

/-- When a rest of the pattern starts the output of a pass, it starts the input
of the pass. -/
theorem prefix_of_replace_all (f t p : List Char) (hf : f ≠ [])
    (h1 : no_overlap_start p t = true) :
    ∀ (q : List Char) (k : Nat), q = p.drop k → ∀ s : List Char,
      q <+: replace_all_from f t 0 s → q <+: s := by
  intro q
  induction q with
  | nil => intro _ _ s _; exact List.nil_prefix
  | cons a q ih =>
    intro k hq s hs
    have hk : k < p.length := by
      by_contra hge
      rw [List.drop_eq_nil_of_le (by omega)] at hq
      exact absurd hq (by simp)
    have hq' : q = p.drop (k + 1) := by
      have := congrArg List.tail hq
      simpa using this
    cases s with
    | nil =>
      simp [replace_all_from] at hs
    | cons c cs =>
      rw [replace_all_from_cons f t hf] at hs
      split at hs
      · rw [hq] at hs
        exact absurd hs (no_overlap_start_spec p t h1 k hk _)
      · rw [List.cons_prefix_cons] at hs ⊢
        exact ⟨hs.1, ih (k + 1) hq' cs hs.2⟩

theorem infix_append_cases (p t w : List Char) (h : p <:+: t ++ w) :
    p <:+: w ∨ ∃ j, j < t.length ∧ p <+: t.drop j ++ w := by
  induction t with
  | nil => exact Or.inl (by simpa using h)
  | cons x t ih =>
    rw [List.cons_append, List.infix_cons_iff] at h
    rcases h with h | h
    · exact Or.inr ⟨0, by simp, by simpa using h⟩
    · rcases ih h with h | ⟨j, hj, h⟩
      · exact Or.inl h
      · exact Or.inr ⟨j + 1, by simp; omega, by simpa using h⟩

/-- A pass whose inserted text does not overlap the pattern `p` leaves a text
without `p` without `p`. -/
theorem replace_all_from_free (f t p : List Char) (hf : f ≠ [])
    (h1 : no_overlap_start p t = true) (h2 : no_overlap_end p f t = true) (n : Nat) :
    ∀ s : List Char, s.length ≤ n → ¬ p <:+: s → ¬ p <:+: replace_all_from f t 0 s := by
  induction n with
  | zero =>
    intro s hn hs
    have : s = [] := List.length_eq_zero.mp (by omega)
    subst this
    simpa [replace_all_from] using hs
  | succ n ih =>
    intro s hn hs hout
    cases s with
    | nil => exact hs (by simpa [replace_all_from] using hout)
    | cons c cs =>
      rw [replace_all_from_cons f t hf] at hout
      split at hout
      · rename_i hmatch
        rw [List.isPrefixOf_iff_prefix] at hmatch
        obtain ⟨s', hs'⟩ := hmatch
        have hdrop : (c :: cs).drop f.length = s' := by
          rw [← hs', List.drop_left]
        rw [hdrop] at hout
        have hlen : 0 < f.length := List.length_pos.mpr hf
        have hs'len : s'.length ≤ n := by
          have := congrArg List.length hs'
          simp only [List.length_append, List.length_cons] at this hn
          omega
        have hs'free : ¬ p <:+: s' := by
          intro hp
          apply hs
          rw [← hs']
          exact hp.trans (List.infix_append' f s' [] |> fun h => by simpa using h)
        rcases infix_append_cases p t _ hout with h | ⟨j, hj, h⟩
        · exact ih s' hs'len hs'free h
        · unfold no_overlap_end at h2
          rw [List.all_eq_true] at h2
          have hj2 := h2 j (List.mem_range.mpr hj)
          simp only [Bool.or_eq_true, Bool.and_eq_true, Bool.not_eq_true', ← Bool.not_eq_true,
            List.isPrefixOf_iff_prefix, List.isSuffixOf_iff_suffix] at hj2
          rcases List.prefix_or_prefix_of_prefix h (List.prefix_append (t.drop j) _) with hc | hc
          · rcases hj2 with hj2 | hj2
            · exact hj2.2 hc
            · apply hs
              rw [← hs']
              exact (hc.isInfix.trans hj2.isInfix).trans (List.infix_append' [] f s' |> fun h => by simpa using h)
          · rcases hj2 with hj2 | hj2
            · exact hj2.1 hc
            · obtain ⟨r, hr⟩ := hc
              rw [← hr, List.prefix_append_right_inj] at h
              have hrlen : r = p.drop (t.drop j).length := by
                rw [← hr, List.drop_left]
              have hrs := prefix_of_replace_all f t p hf h1 r _ hrlen s' h
              obtain ⟨u, hu⟩ := hj2
              obtain ⟨v, hv⟩ := hrs
              apply hs
              rw [← hs', ← hu, ← hr, ← hv]
              exact ⟨u, v, by simp⟩
      · rw [List.infix_cons_iff] at hout
        rcases hout with h | h
        · have h' : p <+: replace_all_from f t 0 (c :: cs) := by
            rw [replace_all_from_cons f t hf, if_neg (by assumption)]
            exact h
          have := prefix_of_replace_all f t p hf h1 p 0 (by simp) (c :: cs) h'
          exact hs this.isInfix
        · exact ih cs (by simp only [List.length_cons] at hn; omega)
            (fun hp => hs ((List.infix_cons_iff).mpr (Or.inr hp))) h


/-- A pass whose inserted text does not overlap its own pattern leaves no
occurrence of the pattern. -/
theorem replace_all_from_own (f t : List Char) (hf : f ≠ [])
    (h1 : no_overlap_start f t = true) (h2 : no_overlap_end f [] t = true) (n : Nat) :
    ∀ s : List Char, s.length ≤ n → ¬ f <:+: replace_all_from f t 0 s := by
  induction n with
  | zero =>
    intro s hn hout
    have : s = [] := List.length_eq_zero.mp (by omega)
    subst this
    simp only [replace_all_from] at hout
    exact hf (List.eq_nil_of_infix_nil hout)
  | succ n ih =>
    intro s hn hout
    cases s with
    | nil =>
      simp only [replace_all_from] at hout
      exact hf (List.eq_nil_of_infix_nil hout)
    | cons c cs =>
      by_cases hmatch : f.isPrefixOf (c :: cs) = true
      · rw [replace_all_from_cons f t hf, if_pos hmatch] at hout
        rw [List.isPrefixOf_iff_prefix] at hmatch
        obtain ⟨s', hs'⟩ := hmatch
        have hdrop : (c :: cs).drop f.length = s' := by
          rw [← hs', List.drop_left]
        rw [hdrop] at hout
        have hlen : 0 < f.length := List.length_pos.mpr hf
        have hs'len : s'.length ≤ n := by
          have := congrArg List.length hs'
          simp only [List.length_append, List.length_cons] at this hn
          omega
        rcases infix_append_cases f t _ hout with h | ⟨j, hj, h⟩
        · exact ih s' hs'len h
        · unfold no_overlap_end at h2
          rw [List.all_eq_true] at h2
          have hj2 := h2 j (List.mem_range.mpr hj)
          simp only [Bool.or_eq_true, Bool.and_eq_true, Bool.not_eq_true', ← Bool.not_eq_true,
            List.isPrefixOf_iff_prefix, List.isSuffixOf_iff_suffix] at hj2
          rcases hj2 with hj2 | hj2
          · rcases List.prefix_or_prefix_of_prefix h (List.prefix_append (t.drop j) _)
              with hc | hc
            · exact hj2.2 hc
            · exact hj2.1 hc
          · have := List.eq_nil_of_suffix_nil hj2
            have hl := congrArg List.length this
            simp only [List.length_drop, List.length_nil] at hl
            omega
      · have hout' := hout
        rw [replace_all_from_cons f t hf, if_neg hmatch, List.infix_cons_iff] at hout
        rcases hout with h | h
        · have h' : f <+: replace_all_from f t 0 (c :: cs) := by
            rw [replace_all_from_cons f t hf, if_neg hmatch]
            exact h
          have := prefix_of_replace_all f t f hf h1 f 0 (by simp) (c :: cs) h'
          exact hmatch (List.isPrefixOf_iff_prefix.mpr this)
        · exact ih cs (by simp only [List.length_cons] at hn; omega) h

/-- A pass leaves a text without its pattern as it is. -/
theorem replace_all_from_absent (f t : List Char) (hf : f ≠ []) (s : List Char)
    (hs : ¬ f <:+: s) : replace_all_from f t 0 s = s := by
  induction s with
  | nil => simp [replace_all_from]
  | cons c cs ih =>
    have hp : ¬ f.isPrefixOf (c :: cs) = true := by
      intro h
      exact hs (List.isPrefixOf_iff_prefix.mp h).isInfix
    rw [replace_all_from_cons f t hf, if_neg hp,
      ih (fun h => hs ((List.infix_cons_iff).mpr (Or.inr h)))]

theorem replace_all_keeps (e1 e2 p : String) (s : List Char) (hf : e1.data ≠ [])
    (h1 : no_overlap_start p.data e2.data = true)
    (h2 : no_overlap_end p.data e1.data e2.data = true) (hs : ¬ p.data <:+: s) :
    ¬ p.data <:+: replace_all e1 e2 s :=
  replace_all_from_free e1.data e2.data p.data hf h1 h2 s.length s (le_refl _) hs

theorem replace_all_removes (e1 e2 : String) (s : List Char) (hf : e1.data ≠ [])
    (h1 : no_overlap_start e1.data e2.data = true)
    (h2 : no_overlap_end e1.data [] e2.data = true) :
    ¬ e1.data <:+: replace_all e1 e2 s :=
  replace_all_from_own e1.data e2.data hf h1 h2 s.length s (le_refl _)

theorem replace_all_absent (e1 e2 : String) (s : List Char) (hf : e1.data ≠ [])
    (hs : ¬ e1.data <:+: s) : replace_all e1 e2 s = s :=
  replace_all_from_absent e1.data e2.data hf s hs

/-- After the passes for the last four patterns, none of the four occurs. -/
theorem late_patterns_free (s3 : List Char) :
    ¬ "is not none".data <:+: replace_all "messages[1:]" "slice(messages, 1)"
      (replace_all "= none" "= undefined" (replace_all "is none" "is undefined"
        (replace_all "is not none" "is defined" s3))) ∧
    ¬ "is none".data <:+: replace_all "messages[1:]" "slice(messages, 1)"
      (replace_all "= none" "= undefined" (replace_all "is none" "is undefined"
        (replace_all "is not none" "is defined" s3))) ∧
    ¬ "= none".data <:+: replace_all "messages[1:]" "slice(messages, 1)"
      (replace_all "= none" "= undefined" (replace_all "is none" "is undefined"
        (replace_all "is not none" "is defined" s3))) ∧
    ¬ "messages[1:]".data <:+: replace_all "messages[1:]" "slice(messages, 1)"
      (replace_all "= none" "= undefined" (replace_all "is none" "is undefined"
        (replace_all "is not none" "is defined" s3))) := by
  refine ⟨?_, ?_, ?_, ?_⟩
  · exact replace_all_keeps _ _ "is not none" _ (by decide) (by decide) (by decide)
      (replace_all_keeps _ _ "is not none" _ (by decide) (by decide) (by decide)
        (replace_all_keeps _ _ "is not none" _ (by decide) (by decide) (by decide)
          (replace_all_removes _ _ _ (by decide) (by decide) (by decide))))
  · exact replace_all_keeps _ _ "is none" _ (by decide) (by decide) (by decide)
      (replace_all_keeps _ _ "is none" _ (by decide) (by decide) (by decide)
        (replace_all_removes _ _ _ (by decide) (by decide) (by decide)))
  · exact replace_all_keeps _ _ "= none" _ (by decide) (by decide) (by decide)
      (replace_all_removes _ _ _ (by decide) (by decide) (by decide))
  · exact replace_all_removes _ _ _ (by decide) (by decide) (by decide)

/-- The passes for the last four patterns bring back none of the first three. -/
theorem early_patterns_kept (s3 : List Char) :
    (¬ "'\x7d".data <:+: s3 →
      ¬ "'\x7d".data <:+: replace_all "messages[1:]" "slice(messages, 1)"
        (replace_all "= none" "= undefined" (replace_all "is none" "is undefined"
          (replace_all "is not none" "is defined" s3)))) ∧
    (¬ "\x7b'".data <:+: s3 →
      ¬ "\x7b'".data <:+: replace_all "messages[1:]" "slice(messages, 1)"
        (replace_all "= none" "= undefined" (replace_all "is none" "is undefined"
          (replace_all "is not none" "is defined" s3)))) ∧
    (¬ ".strip()".data <:+: s3 →
      ¬ ".strip()".data <:+: replace_all "messages[1:]" "slice(messages, 1)"
        (replace_all "= none" "= undefined" (replace_all "is none" "is undefined"
          (replace_all "is not none" "is defined" s3)))) := by
  refine ⟨?_, ?_, ?_⟩
  · intro h
    exact replace_all_keeps _ _ "'\x7d" _ (by decide) (by decide) (by decide)
      (replace_all_keeps _ _ "'\x7d" _ (by decide) (by decide) (by decide)
        (replace_all_keeps _ _ "'\x7d" _ (by decide) (by decide) (by decide)
          (replace_all_keeps _ _ "'\x7d" _ (by decide) (by decide) (by decide) h)))
  · intro h
    exact replace_all_keeps _ _ "\x7b'" _ (by decide) (by decide) (by decide)
      (replace_all_keeps _ _ "\x7b'" _ (by decide) (by decide) (by decide)
        (replace_all_keeps _ _ "\x7b'" _ (by decide) (by decide) (by decide)
          (replace_all_keeps _ _ "\x7b'" _ (by decide) (by decide) (by decide) h)))
  · intro h
    exact replace_all_keeps _ _ ".strip()" _ (by decide) (by decide) (by decide)
      (replace_all_keeps _ _ ".strip()" _ (by decide) (by decide) (by decide)
        (replace_all_keeps _ _ ".strip()" _ (by decide) (by decide) (by decide)
          (replace_all_keeps _ _ ".strip()" _ (by decide) (by decide) (by decide) h)))

/-- In a text without a call of strip, the first three passes leave none of the
first three patterns. -/
theorem early_patterns_free (s0 : List Char) (h : ¬ ".strip()".data <:+: s0) :
    ¬ "'\x7d".data <:+: replace_all ".strip()" ""
      (replace_all "\x7b'" "\x7b '" (replace_all "'\x7d" "' \x7d" s0)) ∧
    ¬ "\x7b'".data <:+: replace_all ".strip()" ""
      (replace_all "\x7b'" "\x7b '" (replace_all "'\x7d" "' \x7d" s0)) ∧
    ¬ ".strip()".data <:+: replace_all ".strip()" ""
      (replace_all "\x7b'" "\x7b '" (replace_all "'\x7d" "' \x7d" s0)) := by
  have h2 : ¬ ".strip()".data <:+: replace_all "\x7b'" "\x7b '" (replace_all "'\x7d" "' \x7d" s0) :=
    replace_all_keeps _ _ ".strip()" _ (by decide) (by decide) (by decide)
      (replace_all_keeps _ _ ".strip()" _ (by decide) (by decide) (by decide) h)
  rw [replace_all_absent ".strip()" "" _ (by decide) h2]
  refine ⟨?_, ?_, h2⟩
  · exact replace_all_keeps _ _ "'\x7d" _ (by decide) (by decide) (by decide)
      (replace_all_removes _ _ _ (by decide) (by decide) (by decide))
  · exact replace_all_removes _ _ _ (by decide) (by decide) (by decide)

/-- C18 (counterexample): the deletion of a call of strip joins the text around
it; the patched text of the first template is the pattern .strip() itself, that
of the second contains the pattern of the first pass. -/
theorem C18_pattern_left_by_deletion :
    patch_template ".str.strip()ip()" = ".strip()" ∧
    contains (patch_template ".str.strip()ip()") ".strip()" ∧
    patch_template "\x7b\x7b 'a'.strip()\x7d\x7d" = "\x7b\x7b 'a'\x7d\x7d" ∧
    contains (patch_template "\x7b\x7b 'a'.strip()\x7d\x7d") "'\x7d" := by
  simp only [patch_template_eq]
  decide

/-- C18 (as amended): for every template, the patched text contains no
occurrence of the last four patterns (is not none, is none, = none,
messages[1:]); for every template without the text .strip(), it contains no
occurrence of any of the seven patterns. -/
theorem C18_patterns_after_patching (t : String) :
    (∀ e ∈ replace_str_map.drop 3, ¬ contains (patch_template t) e.1) ∧
    (¬ contains t ".strip()" → ∀ e ∈ replace_str_map, ¬ contains (patch_template t) e.1) := by
  obtain ⟨l4, l5, l6, l7⟩ := late_patterns_free
    (replace_all ".strip()" "" (replace_all "\x7b'" "\x7b '" (replace_all "'\x7d" "' \x7d" t.data)))
  obtain ⟨k1, k2, k3⟩ := early_patterns_kept
    (replace_all ".strip()" "" (replace_all "\x7b'" "\x7b '" (replace_all "'\x7d" "' \x7d" t.data)))
  rw [patch_template_eq]
  simp only [replace_str_map, List.foldl, List.drop, contains, List.mem_cons,
    List.mem_singleton, List.not_mem_nil, or_false]
  constructor
  · intro e he
    rcases he with rfl | rfl | rfl | rfl
    · exact l4
    · exact l5
    · exact l6
    · exact l7
  · intro h e he
    obtain ⟨f1, f2, f3⟩ := early_patterns_free t.data h
    rcases he with rfl | rfl | rfl | rfl | rfl | rfl | rfl
    · exact k1 f1
    · exact k2 f2
    · exact k3 f3
    · exact l4
    · exact l5
    · exact l6
    · exact l7

/-- C18 (witness): a template with messages[1:], is not none and quoted text,
without a call of strip. -/
theorem C18_patterns_after_patching_witness :
    ¬ contains "\x7b% for m in messages[1:] %\x7d\x7b\x7b'a'\x7d\x7d\x7b% if x is not none %\x7d" ".strip()" ∧
    ∀ e ∈ replace_str_map,
      ¬ contains (patch_template "\x7b% for m in messages[1:] %\x7d\x7b\x7b'a'\x7d\x7d\x7b% if x is not none %\x7d")
        e.1 :=
  ⟨by decide,
    (C18_patterns_after_patching "\x7b% for m in messages[1:] %\x7d\x7b\x7b'a'\x7d\x7d\x7b% if x is not none %\x7d").2
      (by decide)⟩

/-! ## The token tensor of a batch -/

/-- Writing a run of values inside the buffer replaces that many elements. -/
theorem std_copy_eq (values : List Int) :
    ∀ (d_first : Nat) (elements : Elements), d_first + values.length ≤ elements.length →
      std_copy values d_first elements
        = .ok (elements.take d_first ++ values.map some
            ++ elements.drop (d_first + values.length)) := by
  induction values with
  | nil =>
    intro d_first elements _
    simp [std_copy]
  | cons v rest ih =>
    intro d_first elements h
    simp only [List.length_cons] at h
    have hlt : d_first < elements.length := by omega
    simp only [std_copy, write_element, if_pos hlt]
    rw [ih (d_first + 1) _ (by simp only [List.length_set]; omega)]
    congr 1
    rw [List.set_eq_take_append_cons_drop, if_pos hlt]
    have hlen : (List.take d_first elements).length = d_first := by
      simp only [List.length_take]; omega
    have e1 : List.take (d_first + 1)
        (List.take d_first elements ++ some v :: List.drop (d_first + 1) elements)
        = List.take d_first elements ++ [some v] := by
      rw [List.take_append_eq_append_take, hlen]
      simp
    have e2 : List.drop (d_first + 1 + rest.length)
        (List.take d_first elements ++ some v :: List.drop (d_first + 1) elements)
        = List.drop (d_first + (rest.length + 1)) elements := by
      rw [List.drop_append_eq_append_drop, hlen]
      have : List.drop (d_first + 1 + rest.length) (List.take d_first elements) = [] := by
        apply List.drop_eq_nil_of_le
        omega
      rw [this]
      have e : d_first + 1 + rest.length - d_first = rest.length + 1 := by omega
      rw [e, List.nil_append, List.drop_succ_cons, List.drop_drop]
      congr 1
      omega
    rw [e1, e2]
    simp [List.length_cons]

theorem std_fill_n_eq (count : Nat) (first : Nat) (value : Int) (elements : Elements) :
    std_fill_n count first value elements
      = std_copy (List.replicate count value) first elements := by
  induction count generalizing first elements with
  | zero => rfl
  | succ n ih =>
    simp only [std_fill_n, List.replicate_succ, std_copy]
    cases write_element elements first value with
    | error e => rfl
    | ok el => exact ih _ _

/-- One round of the loop over the rows. -/
theorem fill_row_eq (pad : Int) (max_len : Nat) (line : List Int) (i : Nat)
    (elements : Elements) (hline : line.length ≤ max_len)
    (hlen : (i + 1) * max_len ≤ elements.length) :
    (match std_copy line (i * max_len) elements with
      | Except.error e => Except.error e
      | Except.ok elements1 =>
        std_fill (i * max_len + line.length) ((i + 1) * max_len) pad elements1)
      = .ok (elements.take (i * max_len)
          ++ (line ++ List.replicate (max_len - line.length) pad).map some
          ++ elements.drop ((i + 1) * max_len)) := by
  have hmul : (i + 1) * max_len = i * max_len + max_len := by ring
  rw [std_copy_eq line _ _ (by omega)]
  simp only
  unfold std_fill
  rw [if_neg (by omega), std_fill_n_eq]
  have hl : (List.take (i * max_len) elements).length = i * max_len := by
    simp only [List.length_take]; omega
  rw [std_copy_eq _ _ _ (by
    simp only [List.length_replicate, List.length_append, List.length_take, List.length_map,
      List.length_drop]
    omega)]
  congr 1
  have e1 : List.take (i * max_len + line.length)
      (List.take (i * max_len) elements ++ List.map some line ++
        List.drop (i * max_len + line.length) elements)
      = List.take (i * max_len) elements ++ List.map some line := by
    have : (List.take (i * max_len) elements ++ List.map some line).length
        = i * max_len + line.length := by
      simp only [List.length_append, hl, List.length_map]
    rw [← this, List.take_left]
  have e2 : List.drop (i * max_len + line.length +
        (List.replicate ((i + 1) * max_len - (i * max_len + line.length)) pad).length)
      (List.take (i * max_len) elements ++ List.map some line ++
        List.drop (i * max_len + line.length) elements)
      = List.drop ((i + 1) * max_len) elements := by
    have : (List.take (i * max_len) elements ++ List.map some line).length
        = i * max_len + line.length := by
      simp only [List.length_append, hl, List.length_map]
    rw [List.drop_append_eq_append_drop, this, List.drop_eq_nil_of_le (by omega),
      List.nil_append, List.drop_drop, List.length_replicate]
    congr 1
    omega
  rw [e1, e2]
  have e3 : (i + 1) * max_len - (i * max_len + line.length) = max_len - line.length := by omega
  rw [e3]
  simp [List.map_append]


/-- The loop over the rows writes the padded rows one after the other. -/
theorem fill_rows_eq (pad : Int) (max_len : Nat) (lines : List (List Int)) :
    ∀ (i : Nat) (elements : Elements), (∀ l ∈ lines, l.length ≤ max_len) →
      elements.length = (i + lines.length) * max_len →
      fill_rows pad max_len lines i elements
        = .ok (elements.take (i * max_len)
            ++ ((lines.map (fun l => l ++ List.replicate (max_len - l.length) pad)).flatten).map
              some) := by
  induction lines with
  | nil =>
    intro i elements _ hlen
    simp only [List.length_nil, Nat.add_zero] at hlen
    simp [fill_rows, ← hlen]
  | cons line rest ih =>
    intro i elements hall hlen
    have hline : line.length ≤ max_len := hall line (List.mem_cons_self _ _)
    simp only [List.length_cons] at hlen
    have hmul : (i + 1) * max_len = i * max_len + max_len := by ring
    have hmul2 : (i + (rest.length + 1)) * max_len
        = i * max_len + max_len + rest.length * max_len := by ring
    have hrow := fill_row_eq pad max_len line i elements hline (by rw [hlen, hmul2, hmul]; omega)
    unfold fill_rows
    simp only
    cases hc : std_copy line (i * max_len) elements with
    | error e => rw [hc] at hrow; simp at hrow
    | ok elements1 =>
      rw [hc] at hrow
      simp only at hrow ⊢
      rw [hrow]
      simp only
      have hl : (List.take (i * max_len) elements).length = i * max_len := by
        simp only [List.length_take]; rw [hlen, hmul2]; omega
      have hrowlen : (List.map some (line ++ List.replicate (max_len - line.length) pad)).length
          = max_len := by
        simp only [List.length_map, List.length_append, List.length_replicate]; omega
      rw [ih (i + 1) _ (fun l hl => hall l (List.mem_cons_of_mem _ hl)) (by
        simp only [List.length_append, hl, hrowlen, List.length_drop]
        rw [hlen, hmul2, hmul]
        have : (i + 1 + rest.length) * max_len = i * max_len + max_len + rest.length * max_len := by
          ring
        rw [this]
        omega)]
      congr 1
      have : (List.take (i * max_len) elements
          ++ List.map some (line ++ List.replicate (max_len - line.length) pad)).length
          = (i + 1) * max_len := by
        rw [List.length_append, hl, hrowlen, hmul]
      rw [← this, List.take_left]
      simp [List.map_append]

theorem written_map_some (values : List Int) : written (values.map some) = .ok values := by
  induction values with
  | nil => rfl
  | cons v rest ih => simp [written, ih]

/-- The first of the longest rows is as long as the greatest length. -/
theorem max_element_fold (rest : List (List Int)) (line : List Int) :
    (rest.foldl (fun largest l => if largest.length < l.length then l else largest) line).length
      = rest.foldl (fun best l => if best < l.length then l.length else best) line.length := by
  induction rest generalizing line with
  | nil => rfl
  | cons l rest ih =>
    simp only [List.foldl_cons]
    by_cases h : line.length < l.length
    · rw [if_pos h, if_pos h, ih]
    · rw [if_neg h, if_neg h, ih]

/-- The greatest length bounds every length and is the length of a row. -/
theorem max_len_spec (rest : List (List Int)) (best : Nat) :
    best ≤ rest.foldl (fun best l => if best < l.length then l.length else best) best ∧
    (∀ l ∈ rest, l.length
      ≤ rest.foldl (fun best l => if best < l.length then l.length else best) best) ∧
    (rest.foldl (fun best l => if best < l.length then l.length else best) best = best ∨
      ∃ l ∈ rest, l.length
        = rest.foldl (fun best l => if best < l.length then l.length else best) best) := by
  induction rest generalizing best with
  | nil => simp
  | cons l rest ih =>
    simp only [List.foldl_cons, List.mem_cons, forall_eq_or_imp, exists_eq_or_imp]
    by_cases h : best < l.length
    · rw [if_pos h]
      obtain ⟨h1, h2, h3⟩ := ih l.length
      refine ⟨by omega, ⟨h1, h2⟩, ?_⟩
      rcases h3 with h3 | h3
      · exact Or.inr (Or.inl h3.symm)
      · exact Or.inr (Or.inr h3)
    · rw [if_neg h]
      obtain ⟨h1, h2, h3⟩ := ih best
      refine ⟨h1, ⟨by omega, h2⟩, ?_⟩
      rcases h3 with h3 | h3
      · exact Or.inl h3
      · exact Or.inr (Or.inr h3)

/-- The tensor the loops build is the tensor of the padded rows. -/
theorem tokens_tensor_eq (pad : Int) (lines : List (List Int)) :
    tokens_tensor pad lines = padded_tokens pad lines := by
  cases lines with
  | nil => rfl
  | cons line rest =>
    unfold tokens_tensor padded_tokens max_element_by_length
    simp only
    rw [max_element_fold]
    obtain ⟨h1, h2, _⟩ := max_len_spec rest line.length
    rw [fill_rows_eq pad _ (line :: rest) 0 _ (by
      intro l hl
      rcases List.mem_cons.mp hl with rfl | hl
      · exact h1
      · exact h2 l hl) (by simp)]
    simp only [Nat.zero_mul, List.take_zero, List.nil_append, written_map_some]

/-- Row `i` of a list of rows of equal length, read from the flattened list. -/
theorem flatten_row (rows : List (List Int)) (m : Nat) (h : ∀ r ∈ rows, r.length = m) :
    rows.flatten.length = rows.length * m ∧
    ∀ (i : Nat) (r : List Int), rows[i]? = some r →
      (rows.flatten.drop (i * m)).take m = r := by
  induction rows with
  | nil => simp
  | cons r0 rows ih =>
    obtain ⟨ih1, ih2⟩ := ih (fun r hr => h r (List.mem_cons_of_mem _ hr))
    have h0 : r0.length = m := h r0 (List.mem_cons_self _ _)
    constructor
    · simp only [List.flatten_cons, List.length_append, ih1, h0, List.length_cons]
      ring
    · intro i r hr
      cases i with
      | zero =>
        simp only [List.getElem?_cons_zero, Option.some.injEq] at hr
        subst hr
        simp only [Nat.zero_mul, List.drop_zero, List.flatten_cons]
        rw [← h0, List.take_left]
      | succ i =>
        simp only [List.getElem?_cons_succ] at hr
        have e : (i + 1) * m = r0.length + i * m := by rw [h0]; ring
        simp only [List.flatten_cons]
        rw [e, List.drop_append]
        exact ih2 i r hr

/-- C20: for a batch that is not empty, decode builds a tensor of shape
[rows, max_len], max_len being the greatest length of a row, in which row i is
lines[i] followed by max_len - |lines[i]| copies of the pad token id; every
element is written and no write falls outside the tensor (the construction ends
without an error), and this tensor is what the detokenizer is run on. -/
theorem C20_batch_padding (B : Backend) (self : TokenizerImpl) (slot : Nat)
    (lines : List (List Int)) (params : AnyMap) (h : lines ≠ []) :
    ∃ max_len data,
      tokens_tensor self.m_pad_token_id lines
        = .ok { element_type := ElementType.i64, shape := [lines.length, max_len],
                data := data } ∧
      (∀ l ∈ lines, l.length ≤ max_len) ∧ (∃ l ∈ lines, l.length = max_len) ∧
      data.length = lines.length * max_len ∧
      (∀ (i : Nat) (line : List Int), lines[i]? = some line →
        (data.drop (i * max_len)).take max_len
          = line ++ List.replicate (max_len - line.length) self.m_pad_token_id) ∧
      (self.m_ireq_queue_detokenizer ≠ none →
        TokenizerImpl.decode_batch B self slot lines params
          = with_request self false slot params (fun infer_request =>
              from_backend (B.detokenizer_infer infer_request.states
                { element_type := ElementType.i64, shape := [lines.length, max_len],
                  data := data }))) := by
  cases lines with
  | nil => exact absurd rfl h
  | cons line rest =>
    obtain ⟨h1, h2, h3⟩ := max_len_spec rest line.length
    have hall : ∀ l ∈ line :: rest, l.length
        ≤ rest.foldl (fun best l => if best < l.length then l.length else best) line.length := by
      intro l hl
      rcases List.mem_cons.mp hl with rfl | hl
      · exact h1
      · exact h2 l hl
    have hrows := flatten_row
      ((line :: rest).map (fun l => l ++ List.replicate
        (rest.foldl (fun best l => if best < l.length then l.length else best) line.length
          - l.length) self.m_pad_token_id))
      (rest.foldl (fun best l => if best < l.length then l.length else best) line.length)
      (by
        intro r hr
        obtain ⟨l, hl, rfl⟩ := List.mem_map.mp hr
        have := hall l hl
        simp only [List.length_append, List.length_replicate]
        omega)
    have ht : tokens_tensor self.m_pad_token_id (line :: rest)
        = .ok { element_type := ElementType.i64
                shape := [(line :: rest).length,
                  rest.foldl (fun best l => if best < l.length then l.length else best)
                    line.length]
                data := ((line :: rest).map (fun l => l ++ List.replicate
                  (rest.foldl (fun best l => if best < l.length then l.length else best)
                    line.length - l.length) self.m_pad_token_id)).flatten } := by
      rw [tokens_tensor_eq]
      rfl
    refine ⟨_, _, ht, hall, ?_, ?_, ?_, ?_⟩
    · rcases h3 with h3 | ⟨l, hl, h3⟩
      · exact ⟨line, List.mem_cons_self _ _, h3.symm⟩
      · exact ⟨l, List.mem_cons_of_mem _ hl, h3⟩
    · rw [hrows.1, List.length_map]
    · intro i l hl
      apply hrows.2 i
      rw [List.getElem?_map, hl]
      rfl
    · intro hq
      unfold TokenizerImpl.decode_batch
      cases hqueue : self.m_ireq_queue_detokenizer with
      | none => exact absurd hqueue hq
      | some queue =>
        simp only
        rw [ht]

/-- C20 (witness): a batch of a row of three ids and a row of one id. -/
theorem C20_batch_padding_witness :
    ∃ max_len data,
      tokens_tensor ready_session.m_pad_token_id example_batch
        = .ok { element_type := ElementType.i64, shape := [example_batch.length, max_len],
                data := data } ∧
      (∀ l ∈ example_batch, l.length ≤ max_len) ∧
      (∃ l ∈ example_batch, l.length = max_len) ∧
      data.length = example_batch.length * max_len ∧
      (∀ (i : Nat) (line : List Int), example_batch[i]? = some line →
        (data.drop (i * max_len)).take max_len
          = line ++ List.replicate (max_len - line.length) ready_session.m_pad_token_id) ∧
      (ready_session.m_ireq_queue_detokenizer ≠ none →
        TokenizerImpl.decode_batch example_backend ready_session 0 example_batch []
          = with_request ready_session false 0 [] (fun infer_request =>
              from_backend (example_backend.detokenizer_infer infer_request.states
                { element_type := ElementType.i64, shape := [example_batch.length, max_len],
                  data := data }))) :=
  C20_batch_padding example_backend ready_session 0 example_batch [] (by decide)

/-! ## The callable slice -/

theorem slice_loop_eq {α : Type} (messages : List α) (start : Nat) :
    ∀ (iter_num : Nat) (result : List α),
      slice_loop messages start iter_num result = result ++ messages.drop (start - iter_num) := by
  induction messages with
  | nil => intro _ _; simp [slice_loop]
  | cons message rest ih =>
    intro iter_num result
    unfold slice_loop
    by_cases h : iter_num < start
    · rw [if_pos h, ih]
      have e : start - iter_num = (start - (iter_num + 1)) + 1 := by omega
      rw [e, List.drop_succ_cons]
    · rw [if_neg h, ih]
      have e1 : start - iter_num = 0 := by omega
      have e2 : start - (iter_num + 1) = 0 := by omega
      rw [e1, e2]
      simp

/-- The callable that `apply_chat_template` registers under the name slice is the
loop `slice_callable`. -/
theorem registered_slice (self : TokenizerImpl) (history : ChatHistory)
    (add_generation_prompt : Bool) :
    (chat_template_params self history add_generation_prompt).slice = slice_callable := rfl

/-- C19: the function slice that apply_chat_template registers with the renderer
(the field slice of the parameters it hands to the evaluator) gives, for every
list of messages and every start, the list without its first start elements:
its element i is element start + i of the list, it is empty when start is not
less than the length, and slice(messages, 1) is the list without its first
element, which is the slice messages[1:]; the loop of the callable does so on
lists of any kind of element. -/
theorem C19_slice_drops_prefix (α : Type) (table : FallbackMap) (render : Renderer)
    (self : TokenizerImpl) (history : ChatHistory) (add_generation_prompt : Bool)
    (chat_template : String) (messages : List Message) (items : List α) (start k : Nat) :
    ((chat_template_params self history add_generation_prompt).slice messages start
        = messages.drop start ∧
      (∀ i : Nat,
        ((chat_template_params self history add_generation_prompt).slice messages start)[i]?
          = messages[start + i]?) ∧
      (chat_template_params self history add_generation_prompt).slice messages
        (messages.length + k) = [] ∧
      (chat_template_params self history add_generation_prompt).slice messages 1
        = messages.tail) ∧
    (slice_callable items start = items.drop start ∧
      (∀ i : Nat, (slice_callable items start)[i]? = items[start + i]?) ∧
      slice_callable items (items.length + k) = [] ∧
      slice_callable items 1 = items.tail) ∧
    ((if chat_template = "" then self.m_chat_template else remap_and_patch table chat_template)
        ≠ "" →
      TokenizerImpl.apply_chat_template table render self history add_generation_prompt
          chat_template
        = match render (if chat_template = "" then self.m_chat_template
              else remap_and_patch table chat_template)
            (chat_template_params self history add_generation_prompt) with
          | .error what => .error (Error.jinja_failed what)
          | .ok result =>
            if result = "" then .error Error.empty_chat_result else .ok result) := by
  have e : ∀ (β : Type) (l : List β) (n : Nat), slice_callable l n = l.drop n := by
    intro β l n
    unfold slice_callable
    rw [slice_loop_eq]
    simp
  have facts : ∀ (β : Type) (l : List β),
      slice_callable l start = l.drop start ∧
      (∀ i : Nat, (slice_callable l start)[i]? = l[start + i]?) ∧
      slice_callable l (l.length + k) = [] ∧
      slice_callable l 1 = l.tail := by
    intro β l
    refine ⟨e β l start, ?_, ?_, ?_⟩
    · intro i
      rw [e, List.getElem?_drop]
    · rw [e]
      exact List.drop_eq_nil_of_le (by omega)
    · rw [e]
      simp
  refine ⟨?_, facts α items, ?_⟩
  · rw [registered_slice]
    exact facts Message messages
  · intro hne
    unfold TokenizerImpl.apply_chat_template
    simp only
    rw [if_neg hne]

/-- C19 (witness): a session with a stored template; the evaluator is handed the
parameters whose slice drops the first elements. -/
theorem C19_slice_drops_prefix_witness :
    TokenizerImpl.apply_chat_template example_fallback_map example_renderer
        { fresh_session with m_chat_template := "stored" }
        [{ role := "user", content := "hi" }] true ""
      = (match example_renderer "stored"
            (chat_template_params { fresh_session with m_chat_template := "stored" }
              [{ role := "user", content := "hi" }] true) with
          | .error what => .error (Error.jinja_failed what)
          | .ok result =>
            if result = "" then .error Error.empty_chat_result else .ok result) ∧
    (chat_template_params { fresh_session with m_chat_template := "stored" }
        [{ role := "user", content := "hi" }] true).slice
        [{ role := "system", content := "s" }, { role := "user", content := "hi" }] 1
      = [{ role := "user", content := "hi" }] :=
  ⟨( C19_slice_drops_prefix Nat example_fallback_map example_renderer
      { fresh_session with m_chat_template := "stored" }
      [{ role := "user", content := "hi" }] true ""
      [{ role := "system", content := "s" }, { role := "user", content := "hi" }] [] 1 0).2.2
      (by decide),
    ( C19_slice_drops_prefix Nat example_fallback_map example_renderer
      { fresh_session with m_chat_template := "stored" }
      [{ role := "user", content := "hi" }] true ""
      [{ role := "system", content := "s" }, { role := "user", content := "hi" }] [] 1 0).1.1⟩

/-! ## Sessions of older tokenizers -/

/-- The synchronisation changes the flag map of the session only. -/
theorem set_state_if_necessary_frame (self : TokenizerImpl) (req : InferRequest)
    (params : AnyMap) :
    (set_state_if_necessary self req params).1.1.m_older_than_24_5 = self.m_older_than_24_5 ∧
    (set_state_if_necessary self req params).1.1.m_chat_template = self.m_chat_template := by
  unfold set_state_if_necessary
  split
  · exact ⟨rfl, rfl⟩
  · split <;> exact ⟨rfl, rfl⟩

/-- A call on a request of a queue changes the queue and the flag map only. -/
theorem with_request_frame {α : Type} (self : TokenizerImpl) (side : Bool) (slot : Nat)
    (params : AnyMap) (run : InferRequest → Except Error α) :
    (with_request self side slot params run).1.m_older_than_24_5 = self.m_older_than_24_5 ∧
    (with_request self side slot params run).1.m_chat_template = self.m_chat_template := by
  unfold with_request
  split
  · exact ⟨rfl, rfl⟩
  · split
    · exact ⟨rfl, rfl⟩
    · rename_i queue _ req _
      have hf := set_state_if_necessary_frame self req params
      cases side <;> (simp only; split <;> exact hf)

theorem encode_frame (B : Backend) (self : TokenizerImpl) (slot : Nat) (prompt : String)
    (params : AnyMap) :
    (TokenizerImpl.encode B self slot prompt params).1.m_older_than_24_5
      = self.m_older_than_24_5 ∧
    (TokenizerImpl.encode B self slot prompt params).1.m_chat_template
      = self.m_chat_template := by
  unfold TokenizerImpl.encode
  split
  · exact ⟨rfl, rfl⟩
  · exact with_request_frame _ _ _ _ _

theorem decode_frame (B : Backend) (self : TokenizerImpl) (slot : Nat) (tokens : List Int)
    (params : AnyMap) :
    (TokenizerImpl.decode B self slot tokens params).1.m_older_than_24_5
      = self.m_older_than_24_5 ∧
    (TokenizerImpl.decode B self slot tokens params).1.m_chat_template
      = self.m_chat_template := by
  unfold TokenizerImpl.decode
  split
  · exact ⟨rfl, rfl⟩
  · exact with_request_frame _ _ _ _ _

theorem decode_special_token_frame (B : Backend) (self : TokenizerImpl) (slot : Nat)
    (token_id : Int) (token : String) :
    (decode_special_token B self slot token_id token).1.m_older_than_24_5
      = self.m_older_than_24_5 ∧
    (decode_special_token B self slot token_id token).1.m_chat_template
      = self.m_chat_template := by
  unfold decode_special_token
  split
  · exact decode_frame _ _ _ _ _
  · exact ⟨rfl, rfl⟩

theorem setup_token_ids_frame (self : TokenizerImpl) (rt_info : AnyMap) :
    (setup_token_ids self rt_info).1.m_older_than_24_5 = self.m_older_than_24_5 ∧
    (setup_token_ids self rt_info).1.m_chat_template = self.m_chat_template := by
  unfold setup_token_ids
  split
  · exact ⟨rfl, rfl⟩
  · simp only
    split
    · exact ⟨rfl, rfl⟩
    · split <;> exact ⟨rfl, rfl⟩

theorem setup_chat_template_older (table : FallbackMap) (self : TokenizerImpl)
    (ov_tokenizer : TokenizerModel) :
    (setup_chat_template table self ov_tokenizer).1.m_older_than_24_5
      = self.m_older_than_24_5 := by
  unfold setup_chat_template
  simp only
  split
  · rfl
  · split <;> rfl

theorem setup_tokenizer_graph_older (table : FallbackMap) (B : Backend) (self : TokenizerImpl)
    (ov_tokenizer : TokenizerModel) (slot : Nat) :
    (setup_tokenizer_graph table B self ov_tokenizer slot).1.m_older_than_24_5
      = self.m_older_than_24_5 := by
  have h1 := (setup_token_ids_frame
    { self with m_ireq_queue_tokenizer := some ov_tokenizer.infer_requests }
    ov_tokenizer.rt_info).1
  have h2 := setup_chat_template_older table
    (setup_token_ids { self with m_ireq_queue_tokenizer := some ov_tokenizer.infer_requests }
      ov_tokenizer.rt_info).1 ov_tokenizer
  have h3 := (encode_frame B (setup_chat_template table
    (setup_token_ids { self with m_ireq_queue_tokenizer := some ov_tokenizer.infer_requests }
      ov_tokenizer.rt_info).1 ov_tokenizer).1 slot "non empty string" []).1
  unfold setup_tokenizer_graph
  simp only
  split
  · exact h1
  · split
    · exact h2.trans h1
    · split <;> exact h3.trans (h2.trans h1)

theorem setup_detokenizer_graph_older (B : Backend) (self : TokenizerImpl)
    (ov_detokenizer : TokenizerModel) (slots : Nat → Nat) :
    (setup_detokenizer_graph B self ov_detokenizer slots).1.m_older_than_24_5
      = self.m_older_than_24_5 := by
  unfold setup_detokenizer_graph
  simp only
  split
  · exact (decode_special_token_frame _ _ _ _ _).1
  · split
    · exact ((decode_special_token_frame _ _ _ _ _).1).trans
        (decode_special_token_frame _ _ _ _ _).1
    · split
      · exact ((decode_special_token_frame _ _ _ _ _).1).trans
          (((decode_special_token_frame _ _ _ _ _).1).trans
            (decode_special_token_frame _ _ _ _ _).1)
      · split <;>
        exact ((decode_frame _ _ _ _ _).1).trans
          (((decode_special_token_frame _ _ _ _ _).1).trans
            (((decode_special_token_frame _ _ _ _ _).1).trans
              (decode_special_token_frame _ _ _ _ _).1))

/-- The session `setup_tokenizer` leaves for graphs of which one is present: it
is older than 24.5 exactly when the tokenizer graph or, without a tokenizer
graph, the detokenizer graph has no entry openvino_tokenizers_version. -/
theorem setup_tokenizer_older (table : FallbackMap) (B : Backend) (self : TokenizerImpl)
    (ov_tokenizer ov_detokenizer : Option TokenizerModel) (slot : Nat) (slots : Nat → Nat)
    (graph : TokenizerModel)
    (hgraph : (if ov_tokenizer.isSome then ov_tokenizer else ov_detokenizer) = some graph) :
    (TokenizerImpl.setup_tokenizer table B self (ov_tokenizer, ov_detokenizer) slot
      slots).1.m_older_than_24_5 = !graph.has_rt_info "openvino_tokenizers_version" := by
  have hsome : ¬ (ov_tokenizer.isNone ∧ ov_detokenizer.isNone) := by
    cases ov_tokenizer <;> cases ov_detokenizer <;> simp at hgraph ⊢
  have hsome2 : ¬ ¬ (ov_tokenizer.isSome ∨ ov_detokenizer.isSome) := by
    cases ov_tokenizer <;> cases ov_detokenizer <;> simp at hgraph ⊢
  unfold TokenizerImpl.setup_tokenizer
  simp only
  rw [if_neg hsome, if_neg hsome2, hgraph]
  simp only
  cases ov_tokenizer with
  | none =>
    simp only
    cases ov_detokenizer with
    | none => rfl
    | some detokenizer =>
      simp only
      rw [setup_detokenizer_graph_older]
  | some tokenizer =>
    simp only
    have h1 := setup_tokenizer_graph_older table B
      { self with m_older_than_24_5 := !graph.has_rt_info "openvino_tokenizers_version" }
      tokenizer slot
    split
    · exact h1
    · cases ov_detokenizer with
      | none => exact h1
      | some detokenizer =>
        simp only
        rw [setup_detokenizer_graph_older]
        exact h1

/-- C16: in a session of a tokenizer older than 24.5 the synchronisation of the
flags is skipped: for every request and every option map, set_state_if_necessary
leaves the request with its state variables and the session with its flag maps
as they are, and raises nothing; and this is the session setup_tokenizer leaves
for a graph whose run-time information has no entry openvino_tokenizers_version. -/
theorem C16_older_tokenizer_skips_sync (table : FallbackMap) (B : Backend)
    (self : TokenizerImpl) (infer_request : InferRequest) (params : AnyMap)
    (ov_tokenizer ov_detokenizer : Option TokenizerModel) (slot : Nat) (slots : Nat → Nat)
    (graph : TokenizerModel) :
    (self.m_older_than_24_5 = true →
      set_state_if_necessary self infer_request params = ((self, infer_request), .ok ())) ∧
    ((if ov_tokenizer.isSome then ov_tokenizer else ov_detokenizer) = some graph →
      graph.has_rt_info "openvino_tokenizers_version" = false →
      (TokenizerImpl.setup_tokenizer table B self (ov_tokenizer, ov_detokenizer) slot
        slots).1.m_older_than_24_5 = true ∧
      set_state_if_necessary
        (TokenizerImpl.setup_tokenizer table B self (ov_tokenizer, ov_detokenizer) slot slots).1
        infer_request params
        = (((TokenizerImpl.setup_tokenizer table B self (ov_tokenizer, ov_detokenizer) slot
              slots).1, infer_request), .ok ())) := by
  have key : ∀ s : TokenizerImpl, s.m_older_than_24_5 = true →
      set_state_if_necessary s infer_request params = ((s, infer_request), .ok ()) := by
    intro s hs
    unfold set_state_if_necessary
    rw [if_pos hs]
  refine ⟨key self, ?_⟩
  intro hgraph hversion
  have hold := setup_tokenizer_older table B self ov_tokenizer ov_detokenizer slot slots graph
    hgraph
  rw [hversion] at hold
  exact ⟨hold, key _ hold⟩

/-- C16 (witness): a session marked as older with a fresh request, and the
session set up from a tokenizer graph without version entry. -/
theorem C16_older_tokenizer_skips_sync_witness :
    set_state_if_necessary { ready_session with m_older_than_24_5 := true } fresh_request
        [("add_special_tokens", Any.bool false)]
      = (({ ready_session with m_older_than_24_5 := true }, fresh_request), .ok ()) ∧
    (TokenizerImpl.setup_tokenizer [] example_backend fresh_session
      (some old_tokenizer_model, none) 0 (fun _ => 0)).1.m_older_than_24_5 = true :=
  ⟨(C16_older_tokenizer_skips_sync [] example_backend
      { ready_session with m_older_than_24_5 := true } fresh_request
      [("add_special_tokens", Any.bool false)] (some old_tokenizer_model) none 0 (fun _ => 0)
      old_tokenizer_model).1 rfl,
    ((C16_older_tokenizer_skips_sync [] example_backend fresh_session fresh_request
      [("add_special_tokens", Any.bool false)] (some old_tokenizer_model) none 0 (fun _ => 0)
      old_tokenizer_model).2 rfl (by decide)).1⟩

/-! ## Sessions without graphs -/

/-- C13 (counterexample): the construction of a session from a pair in which
both graphs are absent does not fail; it leaves a session without queues. -/
theorem C13_no_graphs_accepted :
    (TokenizerImpl.from_models [] example_backend (none, none) 0 (fun _ => 0)).2 = .ok () ∧
    (TokenizerImpl.from_models [] example_backend (none, none) 0
      (fun _ => 0)).1.m_ireq_queue_tokenizer = none ∧
    (TokenizerImpl.from_models [] example_backend (none, none) 0
      (fun _ => 0)).1.m_ireq_queue_detokenizer = none := by
  refine ⟨rfl, rfl, rfl⟩

/-- C13 (as amended): the construction of a session from a pair in which both
graphs are absent does not fail: setup_tokenizer returns at once, the session is
left with the default values of its members and without queues, and encode and
decode on it fail as not available. -/
theorem C13_no_graphs_session (table : FallbackMap) (B : Backend) (self : TokenizerImpl)
    (slot : Nat) (slots : Nat → Nat) (prompt : String) (tokens : List Int) (params : AnyMap) :
    TokenizerImpl.setup_tokenizer table B self (none, none) slot slots = (self, .ok ()) ∧
    TokenizerImpl.from_models table B (none, none) slot slots = (fresh_session, .ok ()) ∧
    TokenizerImpl.encode B fresh_session slot prompt params
      = (fresh_session, .error Error.encode_not_available) ∧
    TokenizerImpl.decode B fresh_session slot tokens params
      = (fresh_session, .error Error.decode_not_available) := by
  refine ⟨rfl, rfl, rfl, rfl⟩

/-! ## Known templates -/

theorem remap_template_some (table : FallbackMap) (t r : String)
    (h : remap_template table t = some r) : (t, r) ∈ table := by
  induction table with
  | nil => simp [remap_template] at h
  | cons e rest ih =>
    obtain ⟨known, fallback⟩ := e
    unfold remap_template at h
    split at h
    · rename_i hk
      injection h with h
      rw [hk, h]
      exact List.mem_cons_self _ _
    · exact List.mem_cons_of_mem _ (ih h)

theorem remap_template_none (table : FallbackMap) (t : String) :
    remap_template table t = none ↔ ∀ e ∈ table, e.1 ≠ t := by
  induction table with
  | nil => simp [remap_template]
  | cons e rest ih =>
    obtain ⟨known, fallback⟩ := e
    unfold remap_template
    by_cases hk : t = known
    · rw [if_pos hk]
      simp [hk]
    · rw [if_neg hk, ih]
      simp only [List.mem_cons, forall_eq_or_imp]
      exact ⟨fun h => ⟨fun e => hk e.symm, h⟩, fun h => h.2⟩

/-- A text without any of the seven patterns is left as it is. -/
theorem patch_template_fixed (r : String) (h : ∀ e ∈ replace_str_map, ¬ contains r e.1) :
    patch_template r = r := by
  rw [patch_template_eq]
  simp only [replace_str_map, List.foldl]
  rw [replace_all_absent "'\x7d" "' \x7d" _ (by decide) (h ("'\x7d", "' \x7d") (by simp [replace_str_map])),
    replace_all_absent "\x7b'" "\x7b '" _ (by decide) (h ("\x7b'", "\x7b '") (by simp [replace_str_map])),
    replace_all_absent ".strip()" "" _ (by decide)
      (h (".strip()", "") (by simp [replace_str_map])),
    replace_all_absent "is not none" "is defined" _ (by decide)
      (h ("is not none", "is defined") (by simp [replace_str_map])),
    replace_all_absent "is none" "is undefined" _ (by decide)
      (h ("is none", "is undefined") (by simp [replace_str_map])),
    replace_all_absent "= none" "= undefined" _ (by decide)
      (h ("= none", "= undefined") (by simp [replace_str_map])),
    replace_all_absent "messages[1:]" "slice(messages, 1)" _ (by decide)
      (h ("messages[1:]", "slice(messages, 1)") (by simp [replace_str_map]))]

/-- C14 (counterexample): with a table whose entry for the template
"{{ messages }}" is the replacement "{{'x'}}", the pipeline yields the patched
replacement "{{ 'x' }}" for this template, in remap_and_patch and in
setup_tokenizer; and for a template that is no key, setup_tokenizer yields the
simplified template of the run-time information, not the patched template. -/
theorem C14_replacement_is_patched :
    remap_template example_fallback_map "\x7b\x7b messages \x7d\x7d" = some "\x7b\x7b'x'\x7d\x7d" ∧
    remap_and_patch example_fallback_map "\x7b\x7b messages \x7d\x7d" = "\x7b\x7b 'x' \x7d\x7d" ∧
    (setup_chat_template example_fallback_map fresh_session
      known_template_model).1.m_chat_template = "\x7b\x7b 'x' \x7d\x7d" ∧
    remap_template example_fallback_map "\x7b\x7b other \x7d\x7d" = none ∧
    patch_template "\x7b\x7b other \x7d\x7d" = "\x7b\x7b other \x7d\x7d" ∧
    (setup_chat_template example_fallback_map fresh_session
      simplified_template_model).1.m_chat_template = "\x7b\x7b simple \x7d\x7d" := by
  simp only [remap_and_patch, setup_chat_template, patch_template_eq]
  decide

/-- C14 (as amended): for a template that equals a key of the table of known
templates, remap_and_patch, set_chat_template and the resolution in
setup_tokenizer yield the patched replacement of the first such entry, which is
the replacement itself when it contains none of the seven patterns; for a
template that equals no key, remap_and_patch and set_chat_template yield the
patched template, and setup_tokenizer yields the patched simplified template of
the run-time information when there is one and the patched template otherwise. -/
theorem C14_known_template_patched (table : FallbackMap) (self : TokenizerImpl)
    (ov_tokenizer : TokenizerModel) (t : String) :
    (∀ replacement, remap_template table t = some replacement →
      (t, replacement) ∈ table ∧
      remap_and_patch table t = patch_template replacement ∧
      (TokenizerImpl.set_chat_template table self t).get_chat_template
        = patch_template replacement ∧
      (parse_chat_template_from_tokenizer ov_tokenizer self.m_chat_template = t →
        setup_chat_template table self ov_tokenizer
          = ({ self with m_chat_template := patch_template replacement }, .ok ())) ∧
      ((∀ e ∈ replace_str_map, ¬ contains replacement e.1) →
        patch_template replacement = replacement)) ∧
    ((∀ e ∈ table, e.1 ≠ t) →
      remap_template table t = none ∧
      remap_and_patch table t = patch_template t ∧
      (TokenizerImpl.set_chat_template table self t).get_chat_template = patch_template t ∧
      (parse_chat_template_from_tokenizer ov_tokenizer self.m_chat_template = t →
        (ov_tokenizer.rt_info.find "simplified_chat_template" = none →
          setup_chat_template table self ov_tokenizer
            = ({ self with m_chat_template := patch_template t }, .ok ())) ∧
        (∀ simplified,
          ov_tokenizer.rt_info.find "simplified_chat_template" = some (Any.str simplified) →
          setup_chat_template table self ov_tokenizer
            = ({ self with m_chat_template := patch_template simplified }, .ok ())))) ∧
    ((∃ e ∈ table, e.1 = t) ↔ ∃ replacement, remap_template table t = some replacement) := by
  refine ⟨?_, ?_, ?_⟩
  · intro replacement h
    refine ⟨remap_template_some table t replacement h, ?_, ?_, ?_, patch_template_fixed _⟩
    · simp [remap_and_patch, h]
    · simp [TokenizerImpl.set_chat_template, TokenizerImpl.get_chat_template, remap_and_patch, h]
    · intro hp
      unfold setup_chat_template
      simp only [hp, h]
  · intro hno
    have h := (remap_template_none table t).mpr hno
    refine ⟨h, ?_, ?_, ?_⟩
    · simp [remap_and_patch, h]
    · simp [TokenizerImpl.set_chat_template, TokenizerImpl.get_chat_template, remap_and_patch, h]
    · intro hp
      constructor
      · intro hs
        unfold setup_chat_template
        simp only [hp, h, find_or_fallback, hs]
      · intro simplified hs
        unfold setup_chat_template
        simp only [hp, h, find_or_fallback, hs]
  · constructor
    · rintro ⟨e, he, het⟩
      cases hr : remap_template table t with
      | none => exact absurd het ((remap_template_none table t).mp hr e he)
      | some r => exact ⟨r, rfl⟩
    · rintro ⟨r, hr⟩
      exact ⟨(t, r), remap_template_some table t r hr, rfl⟩

/-- C14 (witness): the example table, with a template that is its key and one
that is not. -/
theorem C14_known_template_patched_witness :
    ((("\x7b\x7b messages \x7d\x7d", "\x7b\x7b'x'\x7d\x7d") : String × String) ∈ example_fallback_map ∧
      remap_and_patch example_fallback_map "\x7b\x7b messages \x7d\x7d" = patch_template "\x7b\x7b'x'\x7d\x7d" ∧
      (TokenizerImpl.set_chat_template example_fallback_map fresh_session
        "\x7b\x7b messages \x7d\x7d").get_chat_template = patch_template "\x7b\x7b'x'\x7d\x7d" ∧
      setup_chat_template example_fallback_map fresh_session known_template_model
        = ({ fresh_session with m_chat_template := patch_template "\x7b\x7b'x'\x7d\x7d" }, .ok ())) ∧
    (remap_and_patch example_fallback_map "\x7b\x7b other \x7d\x7d" = patch_template "\x7b\x7b other \x7d\x7d" ∧
      setup_chat_template example_fallback_map fresh_session simplified_template_model
        = ({ fresh_session with m_chat_template := patch_template "\x7b\x7b simple \x7d\x7d" }, .ok ())) :=
  ⟨⟨((C14_known_template_patched example_fallback_map fresh_session known_template_model
        "\x7b\x7b messages \x7d\x7d").1 "\x7b\x7b'x'\x7d\x7d" (by decide)).1,
      ((C14_known_template_patched example_fallback_map fresh_session known_template_model
        "\x7b\x7b messages \x7d\x7d").1 "\x7b\x7b'x'\x7d\x7d" (by decide)).2.1,
      ((C14_known_template_patched example_fallback_map fresh_session known_template_model
        "\x7b\x7b messages \x7d\x7d").1 "\x7b\x7b'x'\x7d\x7d" (by decide)).2.2.1,
      ((C14_known_template_patched example_fallback_map fresh_session known_template_model
        "\x7b\x7b messages \x7d\x7d").1 "\x7b\x7b'x'\x7d\x7d" (by decide)).2.2.2.1 (by decide)⟩,
    ((C14_known_template_patched example_fallback_map fresh_session simplified_template_model
        "\x7b\x7b other \x7d\x7d").2.1 (by decide)).2.1,
    (((C14_known_template_patched example_fallback_map fresh_session simplified_template_model
        "\x7b\x7b other \x7d\x7d").2.1 (by decide)).2.2.2 (by decide)).2 "\x7b\x7b simple \x7d\x7d" (by decide)⟩

/-! ## apply_chat_template -/

/-- C15: apply_chat_template selects remap_and_patch of the override when the
override is not empty and the stored template otherwise; it fails when the
selected template is empty, when the evaluator raises and when the rendered
text is empty, and returns the rendered text otherwise; it never returns the
empty string and leaves the session, the stored template included, as it is. -/
theorem C15_apply_chat_template (table : FallbackMap) (render : Renderer)
    (self : TokenizerImpl) (history : ChatHistory) (add_generation_prompt : Bool)
    (chat_template chat_tpl : String)
    (hsel : chat_tpl = if chat_template = "" then self.m_chat_template
      else remap_and_patch table chat_template) :
    (chat_tpl = "" →
      TokenizerImpl.apply_chat_template table render self history add_generation_prompt
        chat_template = .error Error.chat_template_not_found) ∧
    (chat_tpl ≠ "" → ∀ what,
      render chat_tpl (chat_template_params self history add_generation_prompt) = .error what →
      TokenizerImpl.apply_chat_template table render self history add_generation_prompt
        chat_template = .error (Error.jinja_failed what)) ∧
    (chat_tpl ≠ "" →
      render chat_tpl (chat_template_params self history add_generation_prompt) = .ok "" →
      TokenizerImpl.apply_chat_template table render self history add_generation_prompt
        chat_template = .error Error.empty_chat_result) ∧
    (chat_tpl ≠ "" → ∀ result,
      render chat_tpl (chat_template_params self history add_generation_prompt) = .ok result →
      result ≠ "" →
      TokenizerImpl.apply_chat_template table render self history add_generation_prompt
        chat_template = .ok result) ∧
    TokenizerImpl.apply_chat_template table render self history add_generation_prompt
      chat_template ≠ .ok "" ∧
    (Tokenizer.apply_chat_template table render self history add_generation_prompt
      chat_template).1 = self ∧
    Tokenizer.get_chat_template (Tokenizer.apply_chat_template table render self history
      add_generation_prompt chat_template).1 = Tokenizer.get_chat_template self := by
  unfold TokenizerImpl.apply_chat_template
  simp only [← hsel]
  refine ⟨?_, ?_, ?_, ?_, ?_, rfl, rfl⟩
  · intro h
    rw [if_pos h]
  · intro h what hr
    rw [if_neg h, hr]
  · intro h hr
    rw [if_neg h, hr]
    rfl
  · intro h result hr hne
    rw [if_neg h, hr]
    simp only [if_neg hne]
  · split
    · simp
    · split
      · simp
      · split
        · simp
        · rename_i hne
          simpa using hne

/-- C15 (witness): no stored template, a stored template on which the evaluator
raises, one that renders to the empty text, and one that renders to a text. -/
theorem C15_apply_chat_template_witness :
    TokenizerImpl.apply_chat_template example_fallback_map example_renderer fresh_session
        [{ role := "user", content := "hi" }] true ""
      = .error Error.chat_template_not_found ∧
    TokenizerImpl.apply_chat_template example_fallback_map example_renderer
        { fresh_session with m_chat_template := "\x7b\x7b raise \x7d\x7d" }
        [{ role := "user", content := "hi" }] true ""
      = .error (Error.jinja_failed "unknown variable") ∧
    TokenizerImpl.apply_chat_template example_fallback_map example_renderer
        { fresh_session with m_chat_template := "\x7b\x7b nothing \x7d\x7d" }
        [{ role := "user", content := "hi" }] true ""
      = .error Error.empty_chat_result ∧
    TokenizerImpl.apply_chat_template example_fallback_map example_renderer
        { fresh_session with m_chat_template := "\x7b\x7b stored \x7d\x7d" }
        [{ role := "user", content := "hi" }] true ""
      = .ok "\x7b\x7b stored \x7d\x7dhi" :=
  ⟨(C15_apply_chat_template example_fallback_map example_renderer fresh_session
      [{ role := "user", content := "hi" }] true "" "" (by decide)).1 rfl,
    (C15_apply_chat_template example_fallback_map example_renderer
      { fresh_session with m_chat_template := "\x7b\x7b raise \x7d\x7d" }
      [{ role := "user", content := "hi" }] true "" "\x7b\x7b raise \x7d\x7d" (by decide)).2.1
      (by decide) "unknown variable" (by decide),
    (C15_apply_chat_template example_fallback_map example_renderer
      { fresh_session with m_chat_template := "\x7b\x7b nothing \x7d\x7d" }
      [{ role := "user", content := "hi" }] true "" "\x7b\x7b nothing \x7d\x7d" (by decide)).2.2.1
      (by decide) (by decide),
    (C15_apply_chat_template example_fallback_map example_renderer
      { fresh_session with m_chat_template := "\x7b\x7b stored \x7d\x7d" }
      [{ role := "user", content := "hi" }] true "" "\x7b\x7b stored \x7d\x7d" (by decide)).2.2.2.1
      (by decide) "\x7b\x7b stored \x7d\x7dhi" (by decide) (by decide)⟩

/-! ## Ids from added_tokens_decoder -/

theorem scan_token_id_cases (id : Int) (content : Json) (token key : String) (id' : Int)
    (h : scan_token_id id content token key = .ok id') :
    id' = id ∨ (id = -1 ∧ content.eq_string token = true ∧ stoi key = .ok id') := by
  unfold scan_token_id at h
  split at h
  · rename_i hc
    exact Or.inr ⟨hc.1, hc.2, h⟩
  · exact Or.inl (Except.ok.inj h).symm

theorem assigned_from_cons (kv : String × Json) (rest : List (String × Json)) (token : String)
    (id : Int) (h : assigned_from rest token id) : assigned_from (kv :: rest) token id := by
  obtain ⟨key, value, hm, hc, hs⟩ := h
  exact ⟨key, value, List.mem_cons_of_mem _ hm, hc, hs⟩

/-- One entry of the table followed by the rest of the loop, for one token. -/
theorem assigned_step (key : String) (value content : Json) (rest : List (String × Json))
    (token : String) (id x_id r_id : Int) (hc : value.member "content" = some content)
    (hx : scan_token_id id content token key = .ok x_id)
    (ih : r_id = x_id ∨ (x_id = -1 ∧ assigned_from rest token r_id)) :
    r_id = id ∨ (id = -1 ∧ assigned_from ((key, value) :: rest) token r_id) := by
  rcases scan_token_id_cases id content token key x_id hx with hx | ⟨h1, h2, h3⟩
  · rcases ih with ih | ⟨i1, i2⟩
    · exact Or.inl (ih.trans hx)
    · exact Or.inr ⟨by rw [← hx]; exact i1, assigned_from_cons _ _ _ _ i2⟩
  · rcases ih with ih | ⟨_, i2⟩
    · refine Or.inr ⟨h1, key, value, List.mem_cons_self _ _, ?_, ?_⟩
      · simp [content_is, hc, h2]
      · rw [ih]
        exact h3
    · exact Or.inr ⟨h1, assigned_from_cons _ _ _ _ i2⟩

/-- After the loop over the table, also when `std::stoi` raises, each id is the
one before or was -1 and is read from the key of an entry whose content equals
the token string. -/
theorem scan_added_tokens_assigned : ∀ (items : List (String × Json)) (self : TokenizerImpl),
    ((scan_added_tokens self items).1.m_pad_token_id = self.m_pad_token_id ∨
      (self.m_pad_token_id = -1 ∧
        assigned_from items self.m_pad_token (scan_added_tokens self items).1.m_pad_token_id)) ∧
    ((scan_added_tokens self items).1.m_bos_token_id = self.m_bos_token_id ∨
      (self.m_bos_token_id = -1 ∧
        assigned_from items self.m_bos_token (scan_added_tokens self items).1.m_bos_token_id)) ∧
    ((scan_added_tokens self items).1.m_eos_token_id = self.m_eos_token_id ∨
      (self.m_eos_token_id = -1 ∧
        assigned_from items self.m_eos_token
          (scan_added_tokens self items).1.m_eos_token_id)) := by
  intro items
  induction items with
  | nil =>
    intro self
    simp [scan_added_tokens]
  | cons kv rest ih =>
    intro self
    obtain ⟨key, value⟩ := kv
    unfold scan_added_tokens
    cases hc : value.member "content" with
    | none =>
      simp only
      obtain ⟨i1, i2, i3⟩ := ih self
      exact ⟨i1.imp_right (fun h => ⟨h.1, assigned_from_cons _ _ _ _ h.2⟩),
        i2.imp_right (fun h => ⟨h.1, assigned_from_cons _ _ _ _ h.2⟩),
        i3.imp_right (fun h => ⟨h.1, assigned_from_cons _ _ _ _ h.2⟩)⟩
    | some content =>
      simp only
      cases h1 : scan_token_id self.m_pad_token_id content self.m_pad_token key with
      | error e => exact ⟨Or.inl (by trivial), Or.inl (by trivial), Or.inl (by trivial)⟩
      | ok pad_id =>
        simp only
        cases h2 : scan_token_id self.m_bos_token_id content self.m_bos_token key with
        | error e =>
          simp only
          exact ⟨assigned_step key value content rest _ _ pad_id pad_id hc h1 (Or.inl rfl),
            Or.inl (by trivial), Or.inl (by trivial)⟩
        | ok bos_id =>
          simp only
          cases h3 : scan_token_id self.m_eos_token_id content self.m_eos_token key with
          | error e =>
            simp only
            exact ⟨assigned_step key value content rest _ _ pad_id pad_id hc h1 (Or.inl rfl),
              assigned_step key value content rest _ _ bos_id bos_id hc h2 (Or.inl rfl),
              Or.inl (by trivial)⟩
          | ok eos_id =>
            simp only
            obtain ⟨i1, i2, i3⟩ := ih
              { self with m_pad_token_id := pad_id, m_bos_token_id := bos_id,
                          m_eos_token_id := eos_id }
            exact ⟨assigned_step key value content rest _ _ pad_id _ hc h1 i1,
              assigned_step key value content rest _ _ bos_id _ hc h2 i2,
              assigned_step key value content rest _ _ eos_id _ hc h3 i3⟩

/-- The ids of the bos and of the eos token after
`read_tokenizer_config_if_necessary`. -/
theorem read_tokenizer_config_assigned (self : TokenizerImpl) (dir : ModelDir) :
    ((read_tokenizer_config_if_necessary self dir).1.m_bos_token_id = self.m_bos_token_id ∨
      (self.m_bos_token_id = -1 ∧
        assigned_from (added_tokens_decoder_items dir)
          (read_tokenizer_config_if_necessary self dir).1.m_bos_token
          (read_tokenizer_config_if_necessary self dir).1.m_bos_token_id)) ∧
    ((read_tokenizer_config_if_necessary self dir).1.m_eos_token_id = self.m_eos_token_id ∨
      (self.m_eos_token_id = -1 ∧
        assigned_from (added_tokens_decoder_items dir)
          (read_tokenizer_config_if_necessary self dir).1.m_eos_token
          (read_tokenizer_config_if_necessary self dir).1.m_eos_token_id)) := by
  unfold read_tokenizer_config_if_necessary
  split
  · exact ⟨Or.inl rfl, Or.inl rfl⟩
  · cases hcfg : dir.tokenizer_config_json with
    | none => exact ⟨Or.inl rfl, Or.inl rfl⟩
    | some data =>
      simp only
      obtain ⟨a1, a2, a3, _, _, _⟩ := read_token_strings_frame self data
      obtain ⟨_, b2, b3, _, _, _⟩ := read_token_ids_frame (read_token_strings self data) data
      rw [b2, b3, ← a2, ← a3]
      unfold read_token_ids
      split
      · exact ⟨Or.inl rfl, Or.inl rfl⟩
      · cases hdec : data.member "added_tokens_decoder" with
        | none => exact ⟨Or.inl rfl, Or.inl rfl⟩
        | some decoder =>
          simp only
          have hitems : added_tokens_decoder_items dir = decoder.items := by
            simp [added_tokens_decoder_items, hcfg, hdec]
          rw [hitems]
          obtain ⟨_, s2, s3⟩ := scan_added_tokens_assigned decoder.items
            (read_token_strings self data)
          cases hscan : (scan_added_tokens (read_token_strings self data) decoder.items).2 with
          | error e => exact ⟨s2, s3⟩
          | ok u =>
            simp only
            split
            · exact ⟨s2, s3⟩
            · exact ⟨s2, s3⟩

/-- C21 (counterexample): with a table that lists an entry of empty content under
the key 5 and no token string resolved, the scan gives the bos and the eos token
the id 5 while their strings stay empty. -/
theorem C21_empty_content_matches :
    (read_tokenizer_config_if_necessary fresh_session empty_content_dir).2 = .ok () ∧
    (read_tokenizer_config_if_necessary fresh_session empty_content_dir).1.m_bos_token = "" ∧
    (read_tokenizer_config_if_necessary fresh_session empty_content_dir).1.m_bos_token_id = 5 ∧
    (read_tokenizer_config_if_necessary fresh_session empty_content_dir).1.m_eos_token = "" ∧
    (read_tokenizer_config_if_necessary fresh_session empty_content_dir).1.m_eos_token_id
      = 5 := by
  decide

/-- C21 (as amended): in read_tokenizer_config_if_necessary, also when std::stoi
raises, the id of the bos token and the id of the eos token change only from -1
and only to the number std::stoi reads from the key of an entry of
added_tokens_decoder whose content equals the string of that token, be the
string resolved or empty; a token whose string is still empty keeps its id when
no entry of the table has the empty content. -/
theorem C21_id_lookup (self : TokenizerImpl) (dir : ModelDir) :
    ((read_tokenizer_config_if_necessary self dir).1.m_bos_token_id = self.m_bos_token_id ∨
      (self.m_bos_token_id = -1 ∧
        assigned_from (added_tokens_decoder_items dir)
          (read_tokenizer_config_if_necessary self dir).1.m_bos_token
          (read_tokenizer_config_if_necessary self dir).1.m_bos_token_id)) ∧
    ((read_tokenizer_config_if_necessary self dir).1.m_eos_token_id = self.m_eos_token_id ∨
      (self.m_eos_token_id = -1 ∧
        assigned_from (added_tokens_decoder_items dir)
          (read_tokenizer_config_if_necessary self dir).1.m_eos_token
          (read_tokenizer_config_if_necessary self dir).1.m_eos_token_id)) ∧
    ((read_tokenizer_config_if_necessary self dir).1.m_bos_token = "" →
      (added_tokens_decoder_items dir).all (fun kv => !content_is kv.2 "") = true →
      (read_tokenizer_config_if_necessary self dir).1.m_bos_token_id = self.m_bos_token_id) ∧
    ((read_tokenizer_config_if_necessary self dir).1.m_eos_token = "" →
      (added_tokens_decoder_items dir).all (fun kv => !content_is kv.2 "") = true →
      (read_tokenizer_config_if_necessary self dir).1.m_eos_token_id = self.m_eos_token_id) := by
  obtain ⟨hb, he⟩ := read_tokenizer_config_assigned self dir
  refine ⟨hb, he, ?_, ?_⟩
  · intro hs hall
    rcases hb with hb | ⟨_, key, value, hm, hc, _⟩
    · exact hb
    · rw [hs] at hc
      rw [List.all_eq_true] at hall
      have := hall (key, value) hm
      simp [hc] at this
  · intro hs hall
    rcases he with he | ⟨_, key, value, hm, hc, _⟩
    · exact he
    · rw [hs] at hc
      rw [List.all_eq_true] at hall
      have := hall (key, value) hm
      simp [hc] at this

/-- C21 (witness): a table that lists the eos token under the key 7, read into a
session without ids and strings: the bos token, whose string stays empty, keeps
the id -1. -/
theorem C21_id_lookup_witness :
    (read_tokenizer_config_if_necessary fresh_session eos_only_dir).1.m_bos_token_id
      = fresh_session.m_bos_token_id ∧
    (read_tokenizer_config_if_necessary fresh_session eos_only_dir).1.m_eos_token_id = 7 :=
  ⟨(C21_id_lookup fresh_session eos_only_dir).2.2.1 (by decide) (by decide), by decide⟩

/-! ## The derived flag is_max_length_set and the coherence of the flag map -/

/-- A failed cast of an option leaves the session and the request as they are. -/
theorem set_state_if_necessary_read_error (self : TokenizerImpl) (req : InferRequest)
    (params : AnyMap) (e : Error) (h24 : self.m_older_than_24_5 = false)
    (hread : read_state_values params = .error e) :
    set_state_if_necessary self req params = ((self, req), .error e) := by
  unfold set_state_if_necessary
  simp [h24, hread]

/-- Coherence is kept by every run of synchronisations, whatever the option maps
hold. -/
theorem sync_sequence_coherent_all : ∀ (history : List AnyMap) (self : TokenizerImpl)
    (req : InferRequest), self.m_older_than_24_5 = false →
    coherent req (self.m_request_to_state_flags.entry req.id) →
    (sync_sequence self req history).1.m_older_than_24_5 = false ∧
    (sync_sequence self req history).2.id = req.id ∧
    (sync_sequence self req history).2.states.map VariableState.name
      = req.states.map VariableState.name ∧
    coherent (sync_sequence self req history).2
      ((sync_sequence self req history).1.m_request_to_state_flags.entry req.id) := by
  intro history
  induction history with
  | nil =>
    intro self req h24 hc
    exact ⟨h24, rfl, rfl, hc⟩
  | cons p rest ih =>
    intro self req h24 hc
    unfold sync_sequence
    cases hread : read_state_values p with
    | error e =>
      rw [set_state_if_necessary_read_error self req p e h24 hread]
      exact ih self req h24 hc
    | ok vals =>
      obtain ⟨_, k24, kid, knames, kc, _, _⟩ :=
        set_state_if_necessary_coherent_read self req p vals h24 hread hc
      have kc' : coherent (set_state_if_necessary self req p).1.2
          ((set_state_if_necessary self req p).1.1.m_request_to_state_flags.entry
            (set_state_if_necessary self req p).1.2.id) := by
        rw [kid]
        exact kc
      obtain ⟨r1, r2, r3, r4⟩ := ih (set_state_if_necessary self req p).1.1
        (set_state_if_necessary self req p).1.2 k24 kc'
      rw [kid] at r2 r4
      rw [knames] at r3
      exact ⟨r1, r2, r3, r4⟩

/-- C22: after a synchronisation that raises nothing, on a well-formed request of
a tokenizer not older than 24.5 that exposes the variable is_max_length_set (the
flag map being well typed): the value recorded for is_max_length_set is true when
the option map contains max_length and false when it does not, so the entry is
never cleared; the variable is set to this value when the flag map did not record
it before and is left as it is otherwise, and is not reset; and when the request
also exposes max_length, max_length is recorded exactly when is_max_length_set is
recorded as true. -/
theorem C22_is_max_length_set_derived (self : TokenizerImpl) (req : InferRequest)
    (params : AnyMap) (s : VariableState) (h24 : self.m_older_than_24_5 = false)
    (hreq : well_formed_request req)
    (hf : well_typed_flags (self.m_request_to_state_flags.entry req.id) = true)
    (hok : (set_state_if_necessary self req params).2 = .ok ())
    (hs : s ∈ req.states) (hname : s.name = IS_MAX_LENGTH_SET) :
    ((set_state_if_necessary self req params).1.1.m_request_to_state_flags.entry
        req.id).find IS_MAX_LENGTH_SET
      = some (Any.bool (params.find max_length_name).isSome) ∧
    (∃ s' ∈ (set_state_if_necessary self req params).1.2.states,
      s'.name = IS_MAX_LENGTH_SET ∧ s'.reset_calls = s.reset_calls ∧
      ((self.m_request_to_state_flags.entry req.id).find IS_MAX_LENGTH_SET
          ≠ some (Any.bool (params.find max_length_name).isSome) →
        s' = s.set_state (Any.bool (params.find max_length_name).isSome)) ∧
      ((self.m_request_to_state_flags.entry req.id).find IS_MAX_LENGTH_SET
          = some (Any.bool (params.find max_length_name).isSome) → s' = s)) ∧
    (∀ m ∈ req.states, m.name = MAX_LENGTH_VAR_ID →
      (((set_state_if_necessary self req params).1.1.m_request_to_state_flags.entry
          req.id).find MAX_LENGTH_VAR_ID = params.find max_length_name ∧
        ((((set_state_if_necessary self req params).1.1.m_request_to_state_flags.entry
            req.id).find MAX_LENGTH_VAR_ID).isSome = true ↔
          ((set_state_if_necessary self req params).1.1.m_request_to_state_flags.entry
            req.id).find IS_MAX_LENGTH_SET = some (Any.bool true)))) := by
  obtain ⟨d1, d2, d3, d4, d5, d6, d7, d8, d9, d10⟩ := names_distinct
  cases hread : read_state_values params with
  | error e =>
    rw [set_state_if_necessary_read_error self req params e h24 hread] at hok
    exact absurd hok (by simp)
  | ok vals =>
    obtain ⟨flags', hreqd, hrun, _, hfind, _, _⟩ :=
      set_state_if_necessary_eq_read self req params vals h24 hreq hread hf
    rw [hrun]
    simp only [RequestFlags.entry_put]
    have hopt : requested vals s.name
        = some (some (Any.bool (params.find max_length_name).isSome)) := by
      rw [hreqd, hname]
      unfold option_request
      rw [if_neg d4.symm, if_neg d7.symm, if_neg d9.symm, if_neg d10.symm, if_pos rfl]
    have hrec : flags'.find IS_MAX_LENGTH_SET
        = some (Any.bool (params.find max_length_name).isSome) := by
      rw [← hname]
      exact hfind s hs _ hopt
    refine ⟨hrec, ⟨synced vals (self.m_request_to_state_flags.entry req.id) s,
      List.mem_map_of_mem _ hs, ?_, ?_, ?_, ?_⟩, ?_⟩
    · rw [(synced_name_shape vals _ s).1]
      exact hname
    · unfold synced
      rw [hopt]
      simp only [apply_value]
      split
      · rfl
      · rfl
    · intro hne
      unfold synced
      rw [hopt]
      simp only [apply_value]
      rw [hname, if_neg hne]
    · intro he
      unfold synced
      rw [hopt]
      simp only [apply_value]
      rw [hname, if_pos he]
    · intro m hm hmname
      have hmopt : requested vals m.name = some (params.find max_length_name) := by
        rw [hreqd, hmname]
        unfold option_request
        rw [if_neg d2.symm, if_neg d5.symm, if_pos rfl]
      have hmrec : flags'.find MAX_LENGTH_VAR_ID = params.find max_length_name := by
        rw [← hmname]
        exact hfind m hm _ hmopt
      refine ⟨hmrec, ?_⟩
      rw [hmrec, hrec]
      cases params.find max_length_name <;> simp

/-- C22 (witness): a fresh request with the four encode-side variables and the
option map that gives max_length 16. -/
theorem C22_is_max_length_set_derived_witness :
    ((set_state_if_necessary ready_session fresh_request
        [("max_length", Any.i32 16)]).1.1.m_request_to_state_flags.entry
        fresh_request.id).find IS_MAX_LENGTH_SET
      = some (Any.bool (StdMap.find [("max_length", Any.i32 16)] max_length_name).isSome) :=
  (C22_is_max_length_set_derived ready_session fresh_request [("max_length", Any.i32 16)]
    { name := "is_max_length_set", shape := [1], state := none, set_calls := 0,
      reset_calls := 0 }
    rfl fresh_request_well_formed (by decide) (by decide) (by decide) (by decide)).1

/-- C23: on a well-formed request of a tokenizer not older than 24.5 that starts
with its variables in their reset state and without a flag map, after every run
of synchronisations, whatever the option maps hold and nothing else changing
the variables: a variable whose name the flag map records with a value holds
that value; a recognised variable without an entry is in its reset state; and
every key of the flag map is the name of a recognised variable of the request. -/
theorem C23_flag_cache_coherence (self : TokenizerImpl) (req : InferRequest)
    (history : List AnyMap) (h24 : self.m_older_than_24_5 = false)
    (hflags : self.m_request_to_state_flags req.id = none) (hwf : well_formed_request req)
    (hstates : ∀ s ∈ req.states, s.state = none) :
    (sync_sequence self req history).2.states.map VariableState.name
      = req.states.map VariableState.name ∧
    (∀ s ∈ (sync_sequence self req history).2.states, ∀ v,
      ((sync_sequence self req history).1.m_request_to_state_flags.entry req.id).find s.name
        = some v → s.state = some v) ∧
    (∀ s ∈ (sync_sequence self req history).2.states, recognised s.name = true →
      ((sync_sequence self req history).1.m_request_to_state_flags.entry req.id).find s.name
        = none → s.state = none) ∧
    (∀ n v,
      ((sync_sequence self req history).1.m_request_to_state_flags.entry req.id).find n
        = some v →
      recognised n = true ∧ ∃ s ∈ (sync_sequence self req history).2.states, s.name = n) := by
  obtain ⟨_, _, hnames, _, _, _, hrec, _, hkeys⟩ :=
    sync_sequence_coherent_all history self req h24 (coherent_fresh self req hflags hwf hstates)
  refine ⟨hnames, ?_, ?_, ?_⟩
  · intro s hs v hv
    by_cases hr : recognised s.name = true
    · rw [hrec s hs hr, hv]
    · have := hkeys s.name (Or.inr (by simpa using hr))
      rw [hv] at this
      exact absurd this (by simp)
  · intro s hs hr hv
    rw [hrec s hs hr, hv]
  · intro n v hv
    by_cases hn : n ∈ (sync_sequence self req history).2.states.map VariableState.name
    · by_cases hr : recognised n = true
      · obtain ⟨s, hs, hsn⟩ := List.mem_map.mp hn
        exact ⟨hr, s, hs, hsn⟩
      · have := hkeys n (Or.inr (by simpa using hr))
        rw [hv] at this
        exact absurd this (by simp)
    · have := hkeys n (Or.inl hn)
      rw [hv] at this
      exact absurd this (by simp)

/-- C23 (witness): the fresh request after a synchronisation with max_length 16,
one with an option of the wrong type, and one with the empty option map; the
flag map records true for add_special_tokens, and the variable holds it. -/
theorem C23_flag_cache_coherence_witness :
    (sync_sequence ready_session fresh_request example_history).2.states.map VariableState.name
      = fresh_request.states.map VariableState.name ∧
    ({ name := "add_special_tokens", shape := [], state := some (Any.bool true),
       set_calls := 1, reset_calls := 0 } : VariableState).state = some (Any.bool true) :=
  ⟨(C23_flag_cache_coherence ready_session fresh_request example_history rfl rfl
      fresh_request_well_formed (by decide)).1,
    (C23_flag_cache_coherence ready_session fresh_request example_history rfl rfl
      fresh_request_well_formed (by decide)).2.1
      { name := "add_special_tokens", shape := [], state := some (Any.bool true),
        set_calls := 1, reset_calls := 0 } (by decide) (Any.bool true) (by decide)⟩

/-! ## Patching a patched template -/

/-- The patched text contains none of the last four patterns. -/
theorem patch_template_late_free (t : String) :
    ∀ e ∈ replace_str_map.drop 3, ¬ contains (patch_template t) e.1 := by
  obtain ⟨l4, l5, l6, l7⟩ := late_patterns_free
    (replace_all ".strip()" "" (replace_all "\x7b'" "\x7b '" (replace_all "'\x7d" "' \x7d" t.data)))
  rw [patch_template_eq]
  simp only [replace_str_map, List.foldl, List.drop, contains, List.mem_cons,
    List.mem_singleton, List.not_mem_nil, or_false]
  intro e he
  rcases he with rfl | rfl | rfl | rfl
  · exact l4
  · exact l5
  · exact l6
  · exact l7

/-- The patched text of a template without a call of strip contains none of the
seven patterns. -/
theorem patch_template_all_free (t : String) (h : ¬ contains t ".strip()") :
    ∀ e ∈ replace_str_map, ¬ contains (patch_template t) e.1 := by
  obtain ⟨l4, l5, l6, l7⟩ := late_patterns_free
    (replace_all ".strip()" "" (replace_all "\x7b'" "\x7b '" (replace_all "'\x7d" "' \x7d" t.data)))
  obtain ⟨k1, k2, k3⟩ := early_patterns_kept
    (replace_all ".strip()" "" (replace_all "\x7b'" "\x7b '" (replace_all "'\x7d" "' \x7d" t.data)))
  obtain ⟨f1, f2, f3⟩ := early_patterns_free t.data h
  rw [patch_template_eq]
  simp only [replace_str_map, List.foldl, contains, List.mem_cons,
    List.mem_singleton, List.not_mem_nil, or_false]
  intro e he
  rcases he with rfl | rfl | rfl | rfl | rfl | rfl | rfl
  · exact k1 f1
  · exact k2 f2
  · exact k3 f3
  · exact l4
  · exact l5
  · exact l6
  · exact l7

/-- C24 (counterexample): the patched text of .str.strip()ip() is .strip(), whose
patched text is empty; the patched text of a template in which a call of strip
stands between a quote and a brace is changed by a second patch, and so is the
stored template when it is submitted again. -/
theorem C24_second_patch_differs :
    patch_template ".str.strip()ip()" = ".strip()" ∧
    patch_template (patch_template ".str.strip()ip()") = "" ∧
    patch_template "\x7b\x7b 'a'.strip()\x7d\x7d" = "\x7b\x7b 'a'\x7d\x7d" ∧
    patch_template (patch_template "\x7b\x7b 'a'.strip()\x7d\x7d") = "\x7b\x7b 'a' \x7d\x7d" ∧
    TokenizerImpl.get_chat_template
      (TokenizerImpl.set_chat_template [] fresh_session "\x7b\x7b 'a'.strip()\x7d\x7d")
      = "\x7b\x7b 'a'\x7d\x7d" ∧
    TokenizerImpl.get_chat_template
      (TokenizerImpl.set_chat_template []
        (TokenizerImpl.set_chat_template [] fresh_session "\x7b\x7b 'a'.strip()\x7d\x7d")
        (TokenizerImpl.get_chat_template
          (TokenizerImpl.set_chat_template [] fresh_session "\x7b\x7b 'a'.strip()\x7d\x7d")))
      = "\x7b\x7b 'a' \x7d\x7d" := by
  simp only [TokenizerImpl.get_chat_template, TokenizerImpl.set_chat_template, remap_and_patch,
    remap_template, Option.getD, patch_template_eq]
  decide

/-- C24 (as amended): a second patch leaves the patched text of t as it is
whenever that text contains none of the first three patterns, and so for every
template t without the text .strip(); a stored template that was patched from
such a template and equals no key of the table of known templates is left as it
is when it is submitted again with set_chat_template. -/
theorem C24_patch_template_idempotent (t : String) (table : FallbackMap)
    (self : TokenizerImpl) :
    ((∀ e ∈ replace_str_map.take 3, ¬ contains (patch_template t) e.1) →
      patch_template (patch_template t) = patch_template t) ∧
    (¬ contains t ".strip()" → patch_template (patch_template t) = patch_template t) ∧
    (¬ contains t ".strip()" → self.m_chat_template = patch_template t →
      (∀ e ∈ table, e.1 ≠ self.m_chat_template) →
      TokenizerImpl.set_chat_template table self (TokenizerImpl.get_chat_template self)
        = self) := by
  refine ⟨?_, ?_, ?_⟩
  · intro h
    apply patch_template_fixed
    intro e he
    rw [← List.take_append_drop 3 replace_str_map, List.mem_append] at he
    rcases he with he | he
    · exact h e he
    · exact patch_template_late_free t e he
  · intro h
    exact patch_template_fixed _ (patch_template_all_free t h)
  · intro h hs hk
    have hfix : patch_template self.m_chat_template = self.m_chat_template := by
      rw [hs]
      exact patch_template_fixed _ (patch_template_all_free t h)
    have hremap : remap_template table self.m_chat_template = none :=
      (remap_template_none table _).mpr hk
    unfold TokenizerImpl.set_chat_template TokenizerImpl.get_chat_template remap_and_patch
    rw [hremap]
    simp only [Option.getD]
    rw [hfix]

/-- C24 (witness): a template with quoted text and the slice idiom, without a
call of strip. -/
theorem C24_patch_template_idempotent_witness :
    patch_template (patch_template "\x7b\x7b'a'\x7d\x7d messages[1:]")
      = patch_template "\x7b\x7b'a'\x7d\x7d messages[1:]" :=
  (C24_patch_template_idempotent "\x7b\x7b'a'\x7d\x7d messages[1:]" [] fresh_session).2.1
    (by decide)

/-! ## Termination of patch_template -/

/-- Where `find` finds an occurrence. -/
theorem string_find_some (s f : List Char) (hf : f ≠ []) (pos found : Nat)
    (h : string_find s f pos = some found) : pos ≤ found ∧ found + f.length ≤ s.length := by
  unfold string_find at h
  split at h
  · exact absurd h (by simp)
  · obtain ⟨h1, h2, _, _⟩ := find_at_some f [] hf _ _ _ h
    simp only [List.length_drop] at h2
    omega

theorem replace_loop_none (f t : List Char) (hf : f ≠ []) (s : List Char) (pos : Nat)
    (h : string_find s f pos = none) : replace_loop f t hf s pos = s := by
  rw [replace_loop]
  split
  · rfl
  · rename_i found hfound
    rw [h] at hfound
    exact absurd hfound (by simp)

theorem replace_loop_some (f t : List Char) (hf : f ≠ []) (s : List Char) (pos found : Nat)
    (h : string_find s f pos = some found) :
    replace_loop f t hf s pos
      = replace_loop f t hf (string_replace s found f.length t) (found + t.length) := by
  rw [replace_loop]
  split
  · rename_i hnone
    rw [h] at hnone
    exact absurd hnone (by simp)
  · rename_i found' hfound
    rw [h] at hfound
    have e : found = found' := Option.some.inj hfound
    subst e
    rfl

/-- One round of the loop leaves fewer characters after the scan position. -/
theorem replace_round_decreases (s f t : List Char) (hf : f ≠ []) (pos found : Nat)
    (h : string_find s f pos = some found) :
    (string_replace s found f.length t).length + f.length = s.length + t.length ∧
    (string_replace s found f.length t).length - (found + t.length) + f.length
      ≤ s.length - pos := by
  obtain ⟨h1, h2⟩ := string_find_some s f hf pos found h
  have hlen : (string_replace s found f.length t).length + f.length = s.length + t.length := by
    simp only [string_replace, List.length_append, List.length_take, List.length_drop]
    omega
  exact ⟨hlen, by omega⟩

/-- The loop for one entry ends: with more fuel than replacements it gives the
result of the loop, and the replacements are at most the characters after the
scan position divided by the length of the pattern. -/
theorem replace_steps_ends (f t : List Char) (hf : f ≠ []) (n : Nat) :
    ∀ (s : List Char) (pos : Nat), s.length - pos ≤ n →
      ∃ rounds, rounds * f.length ≤ s.length - pos ∧
        ∀ fuel, rounds < fuel →
          replace_steps f t fuel s pos = some (replace_loop f t hf s pos, rounds) := by
  have hlen : 0 < f.length := List.length_pos.mpr hf
  induction n with
  | zero =>
    intro s pos hn
    cases hfind : string_find s f pos with
    | none =>
      refine ⟨0, by omega, ?_⟩
      intro fuel hfuel
      obtain ⟨k, rfl⟩ : ∃ k, fuel = k + 1 := ⟨fuel - 1, by omega⟩
      simp only [replace_steps, hfind, replace_loop_none f t hf s pos hfind]
    | some found =>
      obtain ⟨h1, h2⟩ := string_find_some s f hf pos found hfind
      omega
  | succ n ih =>
    intro s pos hn
    cases hfind : string_find s f pos with
    | none =>
      refine ⟨0, by omega, ?_⟩
      intro fuel hfuel
      obtain ⟨k, rfl⟩ : ∃ k, fuel = k + 1 := ⟨fuel - 1, by omega⟩
      simp only [replace_steps, hfind, replace_loop_none f t hf s pos hfind]
    | some found =>
      obtain ⟨_, hdec⟩ := replace_round_decreases s f t hf pos found hfind
      obtain ⟨rounds, hr1, hr2⟩ := ih (string_replace s found f.length t) (found + t.length)
        (by omega)
      refine ⟨rounds + 1, by rw [Nat.add_mul]; omega, ?_⟩
      intro fuel hfuel
      obtain ⟨k, rfl⟩ : ∃ k, fuel = k + 1 := ⟨fuel - 1, by omega⟩
      simp only [replace_steps, hfind, hr2 k (by omega),
        replace_loop_some f t hf s pos found hfind]

/-- The loops over the entries end. -/
theorem replace_entries_steps_ends (entries : List (String × String))
    (h : ∀ e ∈ entries, e.1.data ≠ []) :
    ∀ s : List Char, ∃ n, ∀ fuel, n ≤ fuel →
      replace_entries_steps fuel entries s = some (replace_entries entries h s) := by
  induction entries with
  | nil =>
    intro s
    exact ⟨0, fun fuel _ => rfl⟩
  | cons e rest ih =>
    intro s
    obtain ⟨rounds, _, hr⟩ := replace_steps_ends e.1.data e.2.data
      (h e (List.mem_cons_self _ _)) s.length s 0 (by omega)
    obtain ⟨n, hn⟩ := ih (fun e1 he1 => h e1 (List.mem_cons_of_mem _ he1))
      (replace_loop e.1.data e.2.data (h e (List.mem_cons_self _ _)) s 0)
    refine ⟨max (rounds + 1) n, ?_⟩
    intro fuel hfuel
    have h1 : rounds < fuel := by
      have := Nat.le_max_left (rounds + 1) n
      omega
    have h2 : n ≤ fuel := le_trans (Nat.le_max_right _ _) hfuel
    simp only [replace_entries_steps, hr fuel h1, hn fuel h2, replace_entries]

/-- C25: patch_template ends for every input: each of the seven loops ends after
at most as many replacements as the pattern fits into the text after the scan
position, because every round leaves fewer characters after the scan position;
after a replacement of .strip() the scan position is the place of the
occurrence and the text is eight characters shorter, after the other
replacements the scan position is behind the inserted text; and with enough fuel
for the loops the seven loops give the result of patch_template. -/
theorem C25_patch_template_terminates (t : String) :
    (∃ n, ∀ fuel, n ≤ fuel → patch_template_steps fuel t = some (patch_template t)) ∧
    (∀ e ∈ replace_str_map, ∀ (s : List Char) (pos : Nat),
      ∃ result rounds, rounds * e.1.data.length ≤ s.length - pos ∧
        ∀ fuel, rounds < fuel →
          replace_steps e.1.data e.2.data fuel s pos = some (result, rounds)) ∧
    (∀ e ∈ replace_str_map, ∀ (s : List Char) (pos found : Nat),
      string_find s e.1.data pos = some found →
      pos ≤ found ∧ found + e.1.data.length ≤ s.length ∧
      (string_replace s found e.1.data.length e.2.data).length + e.1.data.length
        = s.length + e.2.data.length ∧
      (string_replace s found e.1.data.length e.2.data).length - (found + e.2.data.length)
        < s.length - pos ∧
      (e.2 = "" → found + e.2.data.length = found ∧
        (string_replace s found e.1.data.length e.2.data).length < s.length) ∧
      (e.2 ≠ "" → pos < found + e.2.data.length)) := by
  have hne : ∀ e ∈ replace_str_map, e.1.data ≠ [] := by decide
  refine ⟨?_, ?_, ?_⟩
  · obtain ⟨n, hn⟩ := replace_entries_steps_ends replace_str_map hne t.data
    refine ⟨n, fun fuel hfuel => ?_⟩
    unfold patch_template_steps patch_template
    rw [hn fuel hfuel]
    rfl
  · intro e he s pos
    obtain ⟨rounds, h1, h2⟩ := replace_steps_ends e.1.data e.2.data (hne e he) (s.length - pos)
      s pos (le_refl _)
    exact ⟨_, rounds, h1, h2⟩
  · intro e he s pos found hfind
    obtain ⟨h1, h2⟩ := string_find_some s e.1.data (hne e he) pos found hfind
    obtain ⟨h3, h4⟩ := replace_round_decreases s e.1.data e.2.data (hne e he) pos found hfind
    have hlen : 0 < e.1.data.length := List.length_pos.mpr (hne e he)
    refine ⟨h1, h2, h3, by omega, ?_, ?_⟩
    · intro he2
      have : e.2.data.length = 0 := by rw [he2]; rfl
      omega
    · intro he2
      have : 0 < e.2.data.length := by
        apply List.length_pos.mpr
        intro hd
        apply he2
        cases h' : e.2
        rename_i data
        rw [h'] at hd
        simp only at hd
        rw [hd]
      omega

/-- C25 (witness): the loop for .strip() on a text with one occurrence after the
scan position. -/
theorem C25_patch_template_terminates_witness :
    (0 : Nat) ≤ 2 ∧ 2 + ".strip()".data.length ≤ "a .strip() b".data.length ∧
    (string_replace "a .strip() b".data 2 ".strip()".data.length "".data).length
        + ".strip()".data.length
      = "a .strip() b".data.length + "".data.length :=
  ⟨((C25_patch_template_terminates "").2.2 (".strip()", "") (by decide) "a .strip() b".data
      0 2 (by decide)).1,
    ((C25_patch_template_terminates "").2.2 (".strip()", "") (by decide) "a .strip() b".data
      0 2 (by decide)).2.1,
    ((C25_patch_template_terminates "").2.2 (".strip()", "") (by decide) "a .strip() b".data
      0 2 (by decide)).2.2.1⟩

end OvGenai
